import Mathlib

/-!
# Commit / transaction engine of the clixon backend

A shallow embedding of `apps/backend/backend_commit.c`, and of the client list of
`apps/backend/clixon_backend_handle.c`, `xpath_append` of `apps/cli/cli_show.c`,
`restconf_sd_read` and `http2_exec` of `apps/restconf/restconf_nghttp2.c`, and
`prompt_fmt` and `cli_prompt` of `apps/cli/cli_plugin.c`.

* The engine functions (`generic_validate`, `startup_common`, `startup_validate`,
  `startup_commit`, `from_validate_common`, `candidate_commit`, `from_client_commit`,
  `from_client_validate`) are translated statement by statement; every `goto done`,
  `goto fail` and `goto ok` of the C text is an explicit exit of the Lean function.
* The collaborators that live in the clixon library (datastore, schema validator,
  differ, plugin dispatcher, reply builders) are not part of the sources.  Their
  outcomes are fields of `Env`, so a theorem quantified over `Env` holds for every
  behaviour of the collaborators.
* Mutable process state (datastores, locks, reply buffer, error reason) is the record
  `World`, passed explicitly.  `World.trace` is an instrumentation log: every call of a
  collaborator appends one `Event` with the value it returned.
* Heap allocation always succeeds in the model: `cbuf_new`, `transaction_new`,
  `modstate_diff_new`, `cxvec_append`, `cprintf` and the reply builders, which fail only
  when `malloc` fails, have no failure branch.
* Pointers into a tree are paths (child indices from the root).
* A long C function is cut at its numbered steps into consecutive parts
  (`candidate_commit` into `candidate_commit`, `candidate_commit_clear`,
  `candidate_commit_copy` and the `done` label `candidate_commit_done`); each part ends
  by calling the next one, so the composition is the C function.
* Properties of all runs are checked on path tables: for each function the list of its
  exits with the calls made on the way, proved to contain every run.
* An event keeps the arguments that a property may ask for: the transaction that a plugin
  callback is given, the tree that a put writes, the pointer that `xmldb_get0_free` is
  given, the transaction that `transaction_free` releases.
* Flags are bit masks on the nodes.  Facts about the marking of a tree are proved through
  `xml_rel`, the relation "same tree, flag words related node by node".
* C strings and buffers are lists of characters or bytes; an index is a natural number, and
  a read beyond the terminator of a string is an outcome of its own.  Lengths and offsets
  of type `size_t` are natural numbers (no sum in the code exceeds the length of a buffer
  that exists); the client counter, a C `int`, wraps at 32 bits.
-/

namespace Clixon

/-! ## XML trees -/

/-- Statement keywords of `enum rfc_6020` that the engine distinguishes. -/
inductive rfc_6020 where
  | Y_MODULE
  | Y_SUBMODULE
  | Y_CONTAINER
  | Y_LIST
  | Y_LEAF
  | Y_LEAF_LIST
  | Y_CHOICE
  deriving DecidableEq, Repr

/-- Modelled from the spec: a schema node (`yang_stmt` of the library), as far as the
engine reads it through `yang_keyword_get`, `yang_mandatory`, `yang_config` and
`yang_parent_get`. -/
inductive yang_stmt where
  | mk (keyword : rfc_6020) (mandatory : Int) (config : Int) (parent : Option yang_stmt)
  deriving Repr

def yang_keyword_get : yang_stmt → rfc_6020
  | .mk k _ _ _ => k

def yang_mandatory : yang_stmt → Int
  | .mk _ m _ _ => m

def yang_config : yang_stmt → Int
  | .mk _ _ c _ => c

def yang_parent_get : yang_stmt → Option yang_stmt
  | .mk _ _ _ p => p

/-- Node kinds of `enum cxobj_type`. -/
inductive cxobj_type where
  | CX_ELMNT
  | CX_ATTR
  | CX_BODY
  deriving DecidableEq, Repr

/-- Modelled from the spec: a configuration tree node (`cxobj` of the library): name,
kind, flag bits, bound schema, text value, ordered children. -/
inductive cxobj where
  | mk (name : String) (type : cxobj_type) (flags : Nat) (spec : Option yang_stmt)
      (value : String) (children : List cxobj)
  deriving Repr

def xml_name : cxobj → String
  | .mk n _ _ _ _ _ => n

def xml_type : cxobj → cxobj_type
  | .mk _ t _ _ _ _ => t

def xml_flags : cxobj → Nat
  | .mk _ _ f _ _ _ => f

def xml_spec : cxobj → Option yang_stmt
  | .mk _ _ _ s _ _ => s

def xml_children : cxobj → List cxobj
  | .mk _ _ _ _ _ cs => cs

def xml_child_nr (x : cxobj) : Nat := (xml_children x).length

/-- Modelled from the spec: the per-node marker tag; the bit is that of the library's
`clixon_xml.h`. -/
def XML_FLAG_MARK : Nat := 0x01

/-- Modelled from the spec: the per-node tag ADDED. -/
def XML_FLAG_ADD : Nat := 0x02

/-- Modelled from the spec: the per-node tag DELETED. -/
def XML_FLAG_DEL : Nat := 0x04

/-- Modelled from the spec: the per-node tag CHANGED. -/
def XML_FLAG_CHANGE : Nat := 0x08

/-- Modelled from the spec: the flag word after the library's `xml_flag_set`: the bits
of `flag` are set. -/
def flag_set (flag : Nat) (f : Nat) : Nat := f ||| flag

/-- Modelled from the spec: the flag word after the library's `xml_flag_reset`: the
bits of `flag` are cleared (16 bit word). -/
def flag_reset (flag : Nat) (f : Nat) : Nat := f &&& (0xffff ^^^ flag)

/-- Applies a flag callback (`xml_flag_set` or `xml_flag_reset`) to one node. -/
def xml_flag_apply (fn : Nat → Nat) : cxobj → cxobj
  | .mk n t f s v cs => .mk n t (fn f) s v cs

mutual
/-- Modelled from the spec: the library's `xml_apply` for a flag callback: the callback is applied to every
descendant of kind `type` that is reached through nodes of kind `type`, not to the
node itself. -/
def xml_apply (type : cxobj_type) (fn : Nat → Nat) : cxobj → cxobj
  | .mk n t f s v cs => .mk n t f s v (xml_apply_children type fn cs)
/-- The loop of `xml_apply` over the children of a node. -/
def xml_apply_children (type : cxobj_type) (fn : Nat → Nat) : List cxobj → List cxobj
  | [] => []
  | c :: rest => xml_apply_child type fn c :: xml_apply_children type fn rest
termination_by structural x => x
/-- The body of the loop of `xml_apply`: a child of kind `type` gets the callback and
is descended into, a child of another kind is skipped. -/
def xml_apply_child (type : cxobj_type) (fn : Nat → Nat) : cxobj → cxobj
  | .mk n t f s v cs =>
    if t = type then .mk n t (fn f) s v (xml_apply_children type fn cs)
    else .mk n t f s v cs
termination_by structural x => x
end

/-- Modelled from the spec: the library's `xml_apply0`: like `xml_apply`, and the callback is applied to the
node itself first. -/
def xml_apply0 (type : cxobj_type) (fn : Nat → Nat) (x : cxobj) : cxobj :=
  xml_apply type fn (xml_flag_apply fn x)

/-- A pointer to a node of a tree: the child indices from the root. -/
abbrev xpath_t := List Nat

mutual
/-- Rewrites the node at path `p` with `g`; a path that leaves the tree changes
nothing. -/
def xml_update (g : cxobj → cxobj) : xpath_t → cxobj → cxobj
  | [], x => g x
  | i :: p, .mk n t f s v cs => .mk n t f s v (xml_update_children g i p cs)
termination_by structural _ x => x
/-- Rewrites the node at path `p` below child number `i` of a child list. -/
def xml_update_children (g : cxobj → cxobj) : Nat → xpath_t → List cxobj → List cxobj
  | _, _, [] => []
  | 0, p, c :: rest => xml_update g p c :: rest
  | i + 1, p, c :: rest => c :: xml_update_children g i p rest
termination_by structural _ _ x => x
end

/-- The node a path points to, if the path stays inside the tree. -/
def xml_find : xpath_t → cxobj → Option cxobj
  | [], x => some x
  | i :: p, x =>
    match (xml_children x)[i]? with
    | some c => xml_find p c
    | none => none

/-- Modelled from the spec: the library's `xml_apply_ancestor` for a flag callback: the callback is applied to
every proper ancestor of the node at `p`, the root included. -/
def xml_apply_ancestor (fn : Nat → Nat) : xpath_t → cxobj → cxobj
  | [], x => x
  | i :: p, x =>
    match xml_flag_apply fn x with
    | .mk n t f s v cs =>
      .mk n t f s v (cs.modify (xml_apply_ancestor fn p) i)

/-- Modelled from the spec: the element children of a node, as child indices in
document order: the nodes that the library's `xml_child_each(x, prev, CX_ELMNT)`
visits. -/
def xml_child_each_elmnt (x : cxobj) : List Nat :=
  (List.range (xml_child_nr x)).filter
    (fun i => match (xml_children x)[i]? with
      | some c => xml_type c = cxobj_type.CX_ELMNT
      | none => false)

/-! ## Transactions -/

/-- Modelled from the spec: the library's `transaction_data_t`: source and target tree, and the vectors of deleted,
added and changed nodes with their lengths.  A vector entry points into `td_src`
(deleted, changed source) or `td_target` (added, changed target); a vector that is
`NULL` in C is the empty list. -/
structure transaction_data_t where
  td_src : Option cxobj
  td_target : Option cxobj
  td_dvec : List xpath_t
  td_dlen : Nat
  td_avec : List xpath_t
  td_alen : Nat
  td_scvec : List xpath_t
  td_tcvec : List xpath_t
  td_clen : Nat

/-- The plugin callbacks of a transaction. -/
inductive trans_phase where
  | TR_BEGIN
  | TR_VALIDATE
  | TR_COMPLETE
  | TR_COMMIT
  | TR_END
  | TR_ABORT
  deriving DecidableEq, Repr

/-- Modelled from the spec: a client session (`struct client_entry`), as far as the
engine reads it. -/
structure client_entry where
  ce_nr : Int
  ce_id : Nat

/-! ## Instrumentation -/

/-- One call of a collaborator, with the value it returned.  A run of
`generic_validate` is one event: its return value and the validator calls it made. -/
inductive Event where
  | transaction_new
  | transaction_free (td : transaction_data_t)
  | xmldb_islocked (db : String) (id : Nat)
  | xmldb_get0 (db : String) (x : Option cxobj)
  | xmldb_get0_clear (rc : Int)
  | xmldb_get0_free (x : Option cxobj)
  | xmldb_exists (db : String) (rc : Int)
  | xmldb_delete (db : String) (rc : Int)
  | xmldb_create (db : String) (rc : Int)
  | xmldb_put (db : String) (x : Option cxobj) (rc : Int)
  | xmldb_copy (src dst : String) (rc : Int)
  | clixon_plugin_datastore_upgrade (rc : Int)
  | clixon_module_upgrade (rc : Int)
  | xml_bind_yang (rc : Int)
  | xml_sort (rc : Int)
  | xml_yang_validate_all_top (rc : Int)
  | xml_yang_validate_add (rc : Int)
  | xml_diff (rc : Int)
  | generic_validate (rc : Int) (calls : List Event)
  | plugin (ph : trans_phase) (td : transaction_data_t) (rc : Int)
  | netconf_lock_denied (info : String)
  | netconf_operation_failed
  | netconf_missing_element

/-! ## Collaborators and process state -/

/-- Result of the differ: return value, deleted nodes (in the source), added nodes (in
the target), changed nodes as pairs (source node, target node). -/
structure diff_result where
  rc : Int
  dvec : List xpath_t
  avec : List xpath_t
  cvec : List (xpath_t × xpath_t)

/-- The handle `h` and the library behind it: configuration options and the outcome
of every collaborator call, as a function of the call's arguments. -/
structure Env where
  clicon_option_bool : String → Bool
  clicon_dbspec_yang : Option yang_stmt
  xmldb_get0_rc : String → Int
  xmldb_get0_clear : Option cxobj → Int × Option cxobj
  xmldb_put_rc : String → cxobj → Int
  xmldb_put_reply : String → cxobj → String
  xmldb_copy_rc : String → String → Int
  xmldb_delete_rc : String → Int
  xmldb_delete_errno : String → Int
  xmldb_create_rc : String → Int
  clixon_plugin_datastore_upgrade : String → cxobj → Bool → Int × cxobj
  clixon_module_upgrade : cxobj → Bool → Int × cxobj × String
  xml_bind_yang : cxobj → yang_stmt → Int × cxobj
  xml_sort : cxobj → Int × cxobj
  xml_yang_validate_all_top : Option cxobj → Int × Option cxobj
  xml_yang_validate_add : Option cxobj → xpath_t → Int × Option cxobj
  xml_diff : yang_stmt → Option cxobj → Option cxobj → diff_result
  plugin_rc : trans_phase → transaction_data_t → Int
  plugin_edit : trans_phase → transaction_data_t → cxobj → cxobj
  netconf_lock_denied : String → String → String
  netconf_operation_failed : String → String → String
  netconf_missing_element : String → String → String
  netconf_missing_element_xml : String → String → String → cxobj
  clicon_xml2cbuf : cxobj → String
  netconf_db_find : cxobj → String → Option String

/-- The mutable state of the backend process. -/
structure World where
  dbs : String → Option cxobj
  locks : String → Nat
  cbret : String
  clicon_err_reason : String
  trace : List Event

/-- Appends one event to the instrumentation log. -/
def World.log (w : World) (e : Event) : World :=
  { w with trace := w.trace ++ [e] }

/-- Appends text to the reply buffer (`cprintf(cbret, ...)`). -/
def World.cprintf (w : World) (s : String) : World :=
  { w with cbret := w.cbret ++ s }

/-- Records an error reason (`clicon_err`). -/
def World.clicon_err (w : World) (s : String) : World :=
  { w with clicon_err_reason := s }

/-- Replaces the content of one datastore. -/
def World.setdb (w : World) (db : String) (x : Option cxobj) : World :=
  { w with dbs := fun n => if n = db then x else w.dbs n }

/-- The value of `ENOENT` in `errno.h`. -/
def ENOENT : Int := 2

/-- The empty configuration tree of a freshly created datastore. -/
def xml_empty_config : cxobj :=
  .mk "config" cxobj_type.CX_ELMNT 0 none "" []

/-- Modelled from the spec: the datastore service's `lock-holder(name)`; the library's
`xmldb_islocked` returns the holder's session id, 0 when the datastore is unlocked. -/
def xmldb_islocked (db : String) (w : World) : Nat × World :=
  (w.locks db, w.log (.xmldb_islocked db (w.locks db)))

/-- Modelled from the spec: the datastore service's `get(name, xpath, ...) -> Tree`.
The value is the tree read, or `none` where the library's `xmldb_get0` returns a
negative value: a failed read, or a read of a datastore that does not exist. -/
def Env.read (env : Env) (dbs : String → Option cxobj) (db : String) : Option cxobj :=
  if env.xmldb_get0_rc db < 0 then none else dbs db

/-- Modelled from the spec: the library's `xmldb_get0(h, db, NULL, "/", 0, &xt, msd)`: the tree read (`none` for
a negative return value) and the world with the call logged. -/
def xmldb_get0 (env : Env) (db : String) (w : World) : Option cxobj × World :=
  (env.read w.dbs db, w.log (.xmldb_get0 db (env.read w.dbs db)))

/-- Modelled from the spec: the library's `xmldb_get0_clear`: strips defaults and marks from a fetched tree. -/
def xmldb_get0_clear (env : Env) (x : Option cxobj) (w : World) :
    Int × Option cxobj × World :=
  ((env.xmldb_get0_clear x).1, (env.xmldb_get0_clear x).2,
    w.log (.xmldb_get0_clear (env.xmldb_get0_clear x).1))

/-- Modelled from the spec: the library's `xmldb_get0_free(h, &x)`: releases the fetched
tree `x` (nothing for a `NULL` pointer); the caller's pointer is `NULL` afterwards.  The
log records the pointer the call was given. -/
def xmldb_get0_free (x : Option cxobj) (w : World) : World :=
  w.log (.xmldb_get0_free x)

/-- Modelled from the spec: the datastore service's `exists(name) -> bool`. -/
def xmldb_exists (db : String) (w : World) : Int × World :=
  ((if (w.dbs db).isSome then 1 else 0),
    w.log (.xmldb_exists db (if (w.dbs db).isSome then 1 else 0)))

/-- Modelled from the spec: the datastore service's `delete(name)`; a failed delete
changes nothing.  The second component is `errno` after the call. -/
def xmldb_delete (env : Env) (db : String) (w : World) : Int × Int × World :=
  (env.xmldb_delete_rc db, env.xmldb_delete_errno db,
    (if env.xmldb_delete_rc db = 0 then w.setdb db none else w).log
      (.xmldb_delete db (env.xmldb_delete_rc db)))

/-- Modelled from the spec: the datastore service's `create(name)`; a new datastore is
empty, an existing one keeps its content, a failed create changes nothing. -/
def xmldb_create (env : Env) (db : String) (w : World) : Int × World :=
  (env.xmldb_create_rc db,
    (if env.xmldb_create_rc db < 0 then w
     else w.setdb db (some ((w.dbs db).getD xml_empty_config))).log
      (.xmldb_create db (env.xmldb_create_rc db)))

/-- The return value of `xmldb_put`: that of the datastore service, and -1 for a `NULL`
tree. -/
def Env.put_rc (env : Env) (db : String) (x : Option cxobj) : Int :=
  match x with
  | none => -1
  | some t => env.xmldb_put_rc db t

/-- The error text that a put with return value 0 writes to the reply buffer. -/
def Env.put_reply (env : Env) (db : String) (x : Option cxobj) : String :=
  match x with
  | none => ""
  | some t => env.xmldb_put_reply db t

/-- Modelled from the spec: the datastore service's
`put(name, REPLACE, tree, user) -> Ok|Failed|Fatal`.  Ok (positive) replaces the content
of the datastore by the tree, Failed (0) writes an error to the reply buffer and changes
no datastore, Fatal (negative) changes nothing; a `NULL` tree is Fatal. -/
def xmldb_put (env : Env) (db : String) (x : Option cxobj) (w : World) : Int × World :=
  (env.put_rc db x,
    (if env.put_rc db x < 0 then w
     else if env.put_rc db x = 0 then w.cprintf (env.put_reply db x)
     else w.setdb db x).log (.xmldb_put db x (env.put_rc db x)))

/-- Modelled from the spec: the datastore service's `copy(src,dst) -> Result`; success
makes the destination hold what the source holds, failure changes nothing. -/
def xmldb_copy (env : Env) (src dst : String) (w : World) : Int × World :=
  (env.xmldb_copy_rc src dst,
    (if env.xmldb_copy_rc src dst < 0 then w else w.setdb dst (w.dbs src)).log
      (.xmldb_copy src dst (env.xmldb_copy_rc src dst)))

/-- Modelled from the spec: the library's `transaction_new`: a zeroed transaction. -/
def transaction_new (w : World) : transaction_data_t × World :=
  ({ td_src := none, td_target := none, td_dvec := [], td_dlen := 0, td_avec := [],
     td_alen := 0, td_scvec := [], td_tcvec := [], td_clen := 0 },
    w.log .transaction_new)

/-- Modelled from the spec: the library's `transaction_free`: releases the transaction.
The log records the transaction as it is released. -/
def transaction_free (td : transaction_data_t) (w : World) : World :=
  w.log (.transaction_free td)

/-- The assignment `td->td_target = x`. -/
def transaction_data_t.set_target (td : transaction_data_t) (x : Option cxobj) :
    transaction_data_t :=
  { td with td_target := x }

/-- The assignment `td->td_src = x`. -/
def transaction_data_t.set_src (td : transaction_data_t) (x : Option cxobj) :
    transaction_data_t :=
  { td with td_src := x }

/-- The transaction after the callbacks of one phase: they may have edited the target
tree in place. -/
def plugin_target (env : Env) (ph : trans_phase) (td : transaction_data_t) :
    transaction_data_t :=
  td.set_target (td.td_target.map (env.plugin_edit ph td))

/-- Modelled from the spec: the plugin dispatcher (`plugin_transaction_begin` ...
`plugin_transaction_abort` of the library): runs the callbacks of one phase.  A callback sees the
transaction, may edit the target tree in place, and returns a status; a negative
status is a failure. -/
def plugin_transaction (env : Env) (ph : trans_phase) (td : transaction_data_t)
    (w : World) : Int × transaction_data_t × World :=
  (env.plugin_rc ph td, plugin_target env ph td, w.log (.plugin ph td (env.plugin_rc ph td)))

/-- Stores an error tree in the `xret` slot if the callee produced one. -/
def xret_set (old new : Option cxobj) : Option cxobj :=
  match new with
  | some x => some x
  | none => old

/-- Modelled from the spec: the library's `clicon_xml2cbuf(cbret, xret, ...)`: appends the text of the error
tree to the reply buffer. -/
def clicon_xml2cbuf (env : Env) (xret : Option cxobj) (w : World) : World :=
  match xret with
  | some x => w.cprintf (env.clicon_xml2cbuf x)
  | none => w

/-- The text that `clicon_xml2cbuf(cbret, xret, ...)` appends to the reply for the error
tree `xret`; nothing for `NULL`. -/
def error_text (env : Env) (xret : Option cxobj) : String :=
  match xret with
  | some x => env.clicon_xml2cbuf x
  | none => ""

/-! ## The engine (`backend_commit.c`) -/

/-- The loops of `generic_validate` over the changed and the added entries: each entry
is checked with `xml_yang_validate_add`; a negative status ends with -1, status 0 with
0, and 1 means that every entry passed.  The third component lists the calls made. -/
def generic_validate_add (env : Env) (target : Option cxobj) :
    List xpath_t → Option cxobj → Int × Option cxobj × List Event
  | [], xret => (1, xret, [])
  | x2 :: rest, xret =>
    let r := env.xml_yang_validate_add target x2
    let xret1 := xret_set xret r.2
    if r.1 < 0 then (-1, xret1, [.xml_yang_validate_add r.1])
    else if r.1 = 0 then (0, xret1, [.xml_yang_validate_add r.1])
    else
      let k := generic_validate_add env target rest xret1
      (k.1, k.2.1, .xml_yang_validate_add r.1 :: k.2.2)

/-- The test of `generic_validate` on the schema node `ys` of a deleted entry:
`ys && yang_mandatory(ys) && yang_config(ys)==1`, and the schema parent is absent or
neither a module nor a submodule. -/
def mandatory_removed (ys : Option yang_stmt) : Bool :=
  match ys with
  | none => false
  | some y =>
    decide (yang_mandatory y ≠ 0) && decide (yang_config y = 1) &&
      (match yang_parent_get y with
        | none => true
        | some yp =>
          decide (yang_keyword_get yp ≠ rfc_6020.Y_MODULE) &&
            decide (yang_keyword_get yp ≠ rfc_6020.Y_SUBMODULE))

/-- The loop of `generic_validate` over the deleted entries: the first entry that is
a mandatory config node ends the loop with 0 and a missing-element error that names
it; 1 means that no entry is one.  An entry that points outside the source tree has
no schema node. -/
def generic_validate_deleted (env : Env) (src : Option cxobj) :
    List xpath_t → Option cxobj → Int × Option cxobj
  | [], xret => (1, xret)
  | x1 :: rest, xret =>
    match src.bind (xml_find x1) with
    | none => generic_validate_deleted env src rest xret
    | some n =>
      if mandatory_removed (xml_spec n) then
        (0, some (env.netconf_missing_element_xml "protocol" (xml_name n)
          "May not remove mandatory variable"))
      else generic_validate_deleted env src rest xret

/-- The body of `generic_validate`: return value, error tree, and the validator calls
made.  The loops read the first `td_clen`, `td_dlen`, `td_alen` entries of the
vectors. -/
def generic_validate_body (env : Env) (td : transaction_data_t) (xret : Option cxobj) :
    Int × Option cxobj × List Event :=
  /- All entries -/
  let r0 := env.xml_yang_validate_all_top td.td_target
  let e0 := Event.xml_yang_validate_all_top r0.1
  let xret0 := xret_set xret r0.2
  if r0.1 < 0 then (-1, xret0, [e0])
  else if r0.1 = 0 then (0, xret0, [e0])
  else
    /- changed entries -/
    let c := generic_validate_add env td.td_target (td.td_tcvec.take td.td_clen) xret0
    if c.1 < 1 then (c.1, c.2.1, e0 :: c.2.2)
    else
      /- deleted entries -/
      let d := generic_validate_deleted env td.td_src (td.td_dvec.take td.td_dlen) c.2.1
      if d.1 < 1 then (0, d.2, e0 :: c.2.2)
      else
        /- added entries -/
        let a := generic_validate_add env td.td_target (td.td_avec.take td.td_alen) d.2
        (a.1, a.2.1, e0 :: (c.2.2 ++ a.2.2))

/-- The function `generic_validate`: -1 error, 0 validation failed (error tree set),
1 validation OK.  The third component is the event that records this run. -/
def generic_validate (env : Env) (td : transaction_data_t) (xret : Option cxobj) :
    Int × Option cxobj × Event :=
  let r := generic_validate_body env td xret
  (r.1, r.2.1, .generic_validate r.1 r.2.2)

/-- Sets `flag` on the node at `p` and on its element descendants:
`xml_flag_set(x, flag); xml_apply(x, CX_ELMNT, xml_flag_set, flag)`. -/
def xml_flag_set_down (flag : Nat) (p : xpath_t) (t : cxobj) : cxobj :=
  xml_update
    (fun x => xml_apply cxobj_type.CX_ELMNT (flag_set flag) (xml_flag_apply (flag_set flag) x))
    p t

/-- The loop of `startup_common` over the element children of the target: each child
and its element descendants get the ADD flag, and the child is appended to the added
vector. -/
def startup_add_loop : List Nat → transaction_data_t → transaction_data_t
  | [], td => td
  | i :: rest, td =>
    startup_add_loop rest
      { td with
        td_target := td.td_target.map (xml_flag_set_down XML_FLAG_ADD [i])
        td_avec := td.td_avec ++ [[i]]
        td_alen := td.td_alen + 1 }

/-- Steps 4 to 7 of `startup_common`: plugin begin, generic validation, plugin validate
and plugin complete on the handcrafted transaction. -/
def startup_common_phases (env : Env) (td : transaction_data_t) (w : World) :
    Int × transaction_data_t × World :=
  /- 4. Call plugin transaction start callbacks -/
  let pb := plugin_transaction env .TR_BEGIN td w
  if pb.1 < 0 then (-1, pb.2.1, pb.2.2)
  else
    /- 5. Make generic validation on all new or changed data. -/
    let gv := generic_validate env pb.2.1 none
    let w5 := pb.2.2.log gv.2.2
    if gv.1 < 0 then (-1, pb.2.1, w5)
    else if gv.1 = 0 then (0, pb.2.1, clicon_xml2cbuf env gv.2.1 w5)
    else
      /- 6. Call plugin transaction validate callbacks -/
      let pv := plugin_transaction env .TR_VALIDATE pb.2.1 w5
      if pv.1 < 0 then (-1, pv.2.1, pv.2.2)
      else
        /- 7. Call plugin transaction complete callbacks -/
        let pc := plugin_transaction env .TR_COMPLETE pv.2.1 pv.2.2
        if pc.1 < 0 then (-1, pc.2.1, pc.2.2)
        else (1, pc.2.1, pc.2.2)

/-- The function `startup_common`: reads the startup datastore, upgrades, binds and sorts
the tree, builds a transaction with only added nodes, and runs plugin begin, generic
validation, plugin validate and plugin complete.  Returns -1, 0 or 1 and the
transaction as it left it. -/
def startup_common (env : Env) (db : String) (td : transaction_data_t) (w : World) :
    Int × transaction_data_t × World :=
  let msd := env.clicon_option_bool "CLICON_XMLDB_MODSTATE"
  let g := xmldb_get0 env db w
  match g.1 with
  | none => (-1, td, g.2)
  | some xt0 =>
    /- Clear flags xpath for get -/
    let xt := xml_apply0 cxobj_type.CX_ELMNT (flag_reset (XML_FLAG_MARK ||| XML_FLAG_CHANGE)) xt0
    if xml_child_nr xt = 0 then
      /- If empty skip -/
      (1, td.set_target (some xt), g.2)
    else
      /- General purpose datastore upgrade -/
      let u := env.clixon_plugin_datastore_upgrade db xt msd
      let w1 := g.2.log (.clixon_plugin_datastore_upgrade u.1)
      if u.1 < 0 then (-1, td, w1)
      else
        /- Module-specific upgrade callbacks -/
        let m := env.clixon_module_upgrade u.2 msd
        let w2 := w1.log (.clixon_module_upgrade m.1)
        if m.1 < 0 then (-1, td, w2)
        else if m.1 = 0 then (0, td, w2.cprintf m.2.2)
        else
          match env.clicon_dbspec_yang with
          | none => (-1, td, w2.clicon_err "Yang spec not set")
          | some yspec =>
            /- After upgrading, XML tree needs to be sorted and yang spec populated -/
            let b := env.xml_bind_yang m.2.1 yspec
            let w3 := w2.log (.xml_bind_yang b.1)
            if b.1 < 0 then (-1, td, w3)
            else
              let s := env.xml_sort b.2
              let w4 := w3.log (.xml_sort s.1)
              if s.1 < 0 then (-1, td, w4)
              else
                /- Handcraft transition with with only add tree -/
                let td1 := startup_add_loop (xml_child_each_elmnt s.2)
                  (td.set_target (some s.2))
                startup_common_phases env td1 w4

/-- The `done` label of `startup_validate`: the target tree that the transaction still
holds and the transaction are released. -/
def startup_validate_done (retval : Int) (xtr : Option cxobj) (td : transaction_data_t)
    (w : World) : Int × Option cxobj × World :=
  (retval, xtr, transaction_free (td.set_target none) (xmldb_get0_free td.td_target w))

/-- The function `startup_validate`.  `want_xtr` says whether the caller passed an
output slot `xtr`; the second component is what the slot receives. -/
def startup_validate (env : Env) (db : String) (want_xtr : Bool) (w : World) :
    Int × Option cxobj × World :=
  /- Handcraft a transition with only target and add trees -/
  let t := transaction_new w
  let c := startup_common env db t.1 t.2
  if c.1 < 0 then
    startup_validate_done (-1) none (plugin_transaction env .TR_ABORT c.2.1 c.2.2).2.1
      (plugin_transaction env .TR_ABORT c.2.1 c.2.2).2.2
  else if c.1 = 0 then
    startup_validate_done 0 none (plugin_transaction env .TR_ABORT c.2.1 c.2.2).2.1
      (plugin_transaction env .TR_ABORT c.2.1 c.2.2).2.2
  else
    let e := plugin_transaction env .TR_END c.2.1 c.2.2
    /- Clear cached trees from default values and marking -/
    let k := xmldb_get0_clear env e.2.1.td_target e.2.2
    let td1 := e.2.1.set_target k.2.1
    if k.1 < 0 then startup_validate_done (-1) none td1 k.2.2
    else if want_xtr then
      /- the tree moves to the output slot: `*xtr = td->td_target; td->td_target = NULL` -/
      startup_validate_done 1 td1.td_target (td1.set_target none) k.2.2
    else startup_validate_done 1 none td1 k.2.2

/-- The `done` label of `startup_commit` for a transaction that was created: below
return value 1 plugin abort is called; then the target tree and the transaction are
released. -/
def startup_commit_done (env : Env) (retval : Int) (td : transaction_data_t) (w : World) :
    Int × World :=
  let a := if retval < 1 then (plugin_transaction env .TR_ABORT td w).2 else (td, w)
  (retval, transaction_free (a.1.set_target none) (xmldb_get0_free a.1.td_target a.2))

/-- The last steps of `startup_commit`, from the creation of running: running is
created and written with the target; then plugin end. -/
def startup_commit_create (env : Env) (td : transaction_data_t) (w : World) : Int × World :=
  let cr := xmldb_create env "running" w
  if cr.1 < 0 then startup_commit_done env (-1) td cr.2
  else
    /- 9, write (potentially modified) tree to running -/
    let p := xmldb_put env "running" td.td_target cr.2
    if p.1 < 0 then startup_commit_done env (-1) td p.2
    else if p.1 = 0 then startup_commit_done env 0 td p.2
    else
      /- 10. Call plugin transaction end callbacks -/
      let e := plugin_transaction env .TR_END td p.2
      startup_commit_done env 1 e.2.1 e.2.2

/-- The steps of `startup_commit` from "[Delete and] create running db": running is
deleted if it exists; the rest is `startup_commit_create`. -/
def startup_commit_write (env : Env) (td : transaction_data_t) (w : World) : Int × World :=
  /- [Delete and] create running db -/
  let x := xmldb_exists "running" w
  if x.1 = 1 then
    let d := xmldb_delete env "running" x.2
    if d.1 ≠ 0 ∧ d.2.1 ≠ ENOENT then startup_commit_done env (-1) td d.2.2
    else startup_commit_create env td d.2.2
  else startup_commit_create env td x.2

/-- The function `startup_commit`. -/
def startup_commit (env : Env) (db : String) (w : World) : Int × World :=
  if db = "running" then
    (-1, w.clicon_err ("Invalid startup db: " ++ db))
  else
    /- Handcraft a transition with only target and add trees -/
    let t := transaction_new w
    let c := startup_common env db t.1 t.2
    if c.1 < 0 then startup_commit_done env (-1) c.2.1 c.2.2
    else if c.1 = 0 then startup_commit_done env 0 c.2.1 c.2.2
    else
      /- 8. Call plugin transaction commit callbacks -/
      let pc := plugin_transaction env .TR_COMMIT c.2.1 c.2.2
      if pc.1 < 0 then startup_commit_done env (-1) pc.2.1 pc.2.2
      else
        /- Clear cached trees from default values and marking -/
        let k := xmldb_get0_clear env pc.2.1.td_target pc.2.2
        let td1 := pc.2.1.set_target k.2.1
        if k.1 < 0 then startup_commit_done env (-1) td1 k.2.2
        else startup_commit_write env td1 k.2.2

/-- The marking loop of `from_validate_common` over the deleted entries: the entry and
its element descendants get DEL, its ancestors get CHANGE. -/
def mark_deleted : List xpath_t → Option cxobj → Option cxobj
  | [], src => src
  | xn :: rest, src =>
    mark_deleted rest
      (src.map (fun t =>
        xml_apply_ancestor (flag_set XML_FLAG_CHANGE) xn (xml_flag_set_down XML_FLAG_DEL xn t)))

/-- The marking loop of `from_validate_common` over the added entries: the entry and
its element descendants get ADD, its ancestors get CHANGE. -/
def mark_added : List xpath_t → Option cxobj → Option cxobj
  | [], target => target
  | xn :: rest, target =>
    mark_added rest
      (target.map (fun t =>
        xml_apply_ancestor (flag_set XML_FLAG_CHANGE) xn (xml_flag_set_down XML_FLAG_ADD xn t)))

/-- One tree's share of the marking loop over the changed entries: the entry and its
ancestors get CHANGE. -/
def mark_changed : List xpath_t → Option cxobj → Option cxobj
  | [], t => t
  | xn :: rest, t =>
    mark_changed rest
      (t.map (fun t =>
        xml_apply_ancestor (flag_set XML_FLAG_CHANGE) xn
          (xml_update (xml_flag_apply (flag_set XML_FLAG_CHANGE)) xn t)))

/-- The three marking loops of `from_validate_common` ("Mark as changed in tree"). -/
def mark_transaction (td : transaction_data_t) : transaction_data_t :=
  { td with
    td_src := mark_changed (td.td_scvec.take td.td_clen)
      (mark_deleted (td.td_dvec.take td.td_dlen) td.td_src)
    td_target := mark_changed (td.td_tcvec.take td.td_clen)
      (mark_added (td.td_avec.take td.td_alen) td.td_target) }

/-- The transaction after `xml_diff` has filled in the vectors and their lengths. -/
def transaction_data_t.set_diff (td : transaction_data_t) (d : diff_result) :
    transaction_data_t :=
  { td with
    td_dvec := d.dvec, td_dlen := d.dvec.length,
    td_avec := d.avec, td_alen := d.avec.length,
    td_scvec := d.cvec.map Prod.fst, td_tcvec := d.cvec.map Prod.snd,
    td_clen := d.cvec.length }

/-- Steps 4 to 7 of `from_validate_common`: plugin begin, generic validation, plugin
validate and plugin complete on the marked transaction. -/
def from_validate_common_phases (env : Env) (td : transaction_data_t)
    (xret : Option cxobj) (w : World) :
    Int × transaction_data_t × Option cxobj × World :=
  /- 4. Call plugin transaction start callbacks -/
  let pb := plugin_transaction env .TR_BEGIN td w
  if pb.1 < 0 then (-1, pb.2.1, xret, pb.2.2)
  else
    /- 5. Make generic validation on all new or changed data. -/
    let gv := generic_validate env pb.2.1 xret
    let w3 := pb.2.2.log gv.2.2
    if gv.1 < 0 then (-1, pb.2.1, gv.2.1, w3)
    else if gv.1 = 0 then (0, pb.2.1, gv.2.1, w3)
    else
      /- 6. Call plugin transaction validate callbacks -/
      let pv := plugin_transaction env .TR_VALIDATE pb.2.1 w3
      if pv.1 < 0 then (-1, pv.2.1, gv.2.1, pv.2.2)
      else
        /- 7. Call plugin transaction complete callbacks -/
        let pc := plugin_transaction env .TR_COMPLETE pv.2.1 pv.2.2
        if pc.1 < 0 then (-1, pc.2.1, gv.2.1, pc.2.2)
        else (1, pc.2.1, gv.2.1, pc.2.2)

/-- The function `from_validate_common`: fetches candidate and running, validates the
target, computes and marks the differences, and runs plugin begin, generic validation,
plugin validate and plugin complete.  Returns -1, 0 or 1, the transaction as it left
it, and the error tree. -/
def from_validate_common (env : Env) (candidate : String) (td : transaction_data_t)
    (xret : Option cxobj) (w : World) :
    Int × transaction_data_t × Option cxobj × World :=
  match env.clicon_dbspec_yang with
  | none => (-1, td, xret, w.clicon_err "No DB_SPEC")
  | some yspec =>
    /- This is the state we are going to -/
    let g := xmldb_get0 env candidate w
    match g.1 with
    | none => (-1, td, xret, g.2)
    | some t0 =>
      /- Clear flags xpath for get -/
      let td1 := td.set_target (some (xml_apply0 cxobj_type.CX_ELMNT
        (flag_reset (XML_FLAG_MARK ||| XML_FLAG_CHANGE)) t0))
      /- Validate the target state. -/
      let v := env.xml_yang_validate_all_top td1.td_target
      let w1 := g.2.log (.xml_yang_validate_all_top v.1)
      let xret1 := xret_set xret v.2
      if v.1 < 0 then (-1, td1, xret1, w1)
      else if v.1 = 0 then (0, td1, xret1, w1)
      else
        /- 2. Parse xml trees. This is the state we are going from -/
        let g2 := xmldb_get0 env "running" w1
        match g2.1 with
        | none => (-1, td1, xret1, g2.2)
        | some s0 =>
          /- Clear flags xpath for get -/
          let td2 := td1.set_src (some (xml_apply0 cxobj_type.CX_ELMNT
            (flag_reset (XML_FLAG_MARK ||| XML_FLAG_CHANGE)) s0))
          /- 3. Compute differences -/
          let d := env.xml_diff yspec td2.td_src td2.td_target
          let w2 := g2.2.log (.xml_diff d.rc)
          if d.rc < 0 then (-1, td2, xret1, w2)
          else
            let td3 := td2.set_diff d
            /- Mark as changed in tree -/
            let td4 := mark_transaction td3
            from_validate_common_phases env td4 xret1 w2

/-- The `done` label of `candidate_commit`: below return value 1 plugin abort is
called; then both trees and the transaction are released. -/
def candidate_commit_done (env : Env) (retval : Int) (td : transaction_data_t) (w : World) :
    Int × World :=
  let a := if retval < 1 then (plugin_transaction env .TR_ABORT td w).2 else (td, w)
  (retval, transaction_free ((a.1.set_target none).set_src none)
    (xmldb_get0_free a.1.td_src (xmldb_get0_free a.1.td_target a.2)))

/-- The step of `candidate_commit` after the copy ("Here pointers to old (source) tree
are obsolete"): the deleted vector is released and its length reset, the changed
source vector is released. -/
def transaction_data_t.free_source_vectors (td : transaction_data_t) : transaction_data_t :=
  let td1 := if td.td_dvec ≠ [] then { td with td_dlen := 0, td_dvec := [] } else td
  if td1.td_scvec ≠ [] then { td1 with td_scvec := [] } else td1

/-- The last steps of `candidate_commit`, from "8. Success: Copy candidate to running". -/
def candidate_commit_copy (env : Env) (candidate : String) (td : transaction_data_t)
    (w : World) : Int × World :=
  let c := xmldb_copy env candidate "running" w
  if c.1 < 0 then candidate_commit_done env (-1) td c.2
  else
    /- Here pointers to old (source) tree are obsolete -/
    /- 9. Call plugin transaction end callbacks -/
    let e := plugin_transaction env .TR_END td.free_source_vectors c.2
    candidate_commit_done env 1 e.2.1 e.2.2

/-- The middle steps of `candidate_commit`, from "Clear cached trees from default values
and marking" to the optional write-back of the target to the candidate. -/
def candidate_commit_clear (env : Env) (candidate : String) (td : transaction_data_t)
    (w : World) : Int × World :=
  /- Clear cached trees from default values and marking -/
  let k1 := xmldb_get0_clear env td.td_target w
  let td1 := td.set_target k1.2.1
  if k1.1 < 0 then candidate_commit_done env (-1) td1 k1.2.2
  else
    let k2 := xmldb_get0_clear env td1.td_src k1.2.2
    let td2 := td1.set_src k2.2.1
    if k2.1 < 0 then candidate_commit_done env (-1) td2 k2.2.2
    else
      /- Optionally write (potentially modified) tree back to candidate -/
      if env.clicon_option_bool "CLICON_TRANSACTION_MOD" then
        let p := xmldb_put env candidate td2.td_target k2.2.2
        if p.1 < 0 then candidate_commit_done env (-1) td2 p.2
        else if p.1 = 0 then candidate_commit_done env 0 td2 p.2
        else candidate_commit_copy env candidate td2 p.2
      else candidate_commit_copy env candidate td2 k2.2.2

/-- The function `candidate_commit`: -1 error, 0 validation failed (reply buffer set),
1 committed. -/
def candidate_commit (env : Env) (candidate : String) (w : World) : Int × World :=
  /- 1. Start transaction -/
  let t := transaction_new w
  /- Common steps (with validate). -/
  let c := from_validate_common env candidate t.1 none t.2
  if c.1 < 0 then candidate_commit_done env (-1) c.2.1 c.2.2.2
  else if c.1 = 0 then
    candidate_commit_done env 0 c.2.1 (clicon_xml2cbuf env c.2.2.1 c.2.2.2)
  else
    /- 7. Call plugin transaction commit callbacks -/
    let pc := plugin_transaction env .TR_COMMIT c.2.1 c.2.2.2
    if pc.1 < 0 then candidate_commit_done env (-1) pc.2.1 pc.2.2
    else candidate_commit_clear env candidate pc.2.1 pc.2.2

/-- The common steps of a commit of `candidate` from the world `w`: the call of
`from_validate_common` that `candidate_commit` makes on its new transaction. -/
def commit_validation (env : Env) (candidate : String) (w : World) :
    Int × transaction_data_t × Option cxobj × World :=
  from_validate_common env candidate (transaction_new w).1 none (transaction_new w).2

/-- The function `from_client_commit`: the commit request of the client `ce`.  The
request tree and the registration argument are not read. -/
def from_client_commit (env : Env) (ce : client_entry) (w : World) : Int × World :=
  let myid := ce.ce_id
  /- Check if target locked by other client -/
  let l := xmldb_islocked "running" w
  let iddb := l.1
  if iddb ≠ 0 ∧ myid ≠ iddb then
    let cbx := "<session-id>" ++ toString iddb ++ "</session-id>"
    (0, (l.2.cprintf
      (env.netconf_lock_denied cbx "Operation failed, lock is already held")).log
        (.netconf_lock_denied cbx))
  else
    let c := candidate_commit env "candidate" l.2
    if c.1 < 0 then
      /- Assume validation fail, nofatal -/
      (0, (c.2.cprintf
        (env.netconf_operation_failed "application" c.2.clicon_err_reason)).log
          .netconf_operation_failed)
    else if c.1 = 1 then (0, c.2.cprintf "<rpc-reply><ok/></rpc-reply>")
    else (0, c.2)

/-- The function `from_client_discard_changes`: the discard-changes request of the
client `ce`.  The request tree and the registration argument are not read. -/
def from_client_discard_changes (env : Env) (ce : client_entry) (w : World) : Int × World :=
  let myid := ce.ce_id
  /- Check if target locked by other client -/
  let l := xmldb_islocked "candidate" w
  let iddb := l.1
  if iddb ≠ 0 ∧ myid ≠ iddb then
    let cbx := "<session-id>" ++ toString iddb ++ "</session-id>"
    (0, (l.2.cprintf
      (env.netconf_lock_denied cbx "Operation failed, lock is already held")).log
        (.netconf_lock_denied cbx))
  else
    let c := xmldb_copy env "running" "candidate" l.2
    if c.1 < 0 then
      (0, (c.2.cprintf
        (env.netconf_operation_failed "application" c.2.clicon_err_reason)).log
          .netconf_operation_failed)
    else (0, c.2.cprintf "<rpc-reply><ok/></rpc-reply>")

/-- The `done` label of `from_client_validate` for a transaction that was created: on
a negative return value plugin abort is called; then both trees and the transaction
are released. -/
def from_client_validate_done (env : Env) (retval : Int) (td : transaction_data_t)
    (w : World) : Int × World :=
  let a := if retval < 0 then (plugin_transaction env .TR_ABORT td w).2 else (td, w)
  (retval, transaction_free ((a.1.set_target none).set_src none)
    (xmldb_get0_free a.1.td_src (xmldb_get0_free a.1.td_target a.2)))

/-- The steps of `from_client_validate` after a successful `from_validate_common`. -/
def from_client_validate_ok (env : Env) (td : transaction_data_t) (w : World) :
    Int × World :=
  let k1 := xmldb_get0_clear env td.td_src w
  let td1 := td.set_src k1.2.1
  if k1.1 < 0 then
    let a := plugin_transaction env .TR_ABORT td1 k1.2.2
    from_client_validate_done env (-1) a.2.1 a.2.2
  else
    let k2 := xmldb_get0_clear env td1.td_target k1.2.2
    let td2 := td1.set_target k2.2.1
    if k2.1 < 0 then
      let a := plugin_transaction env .TR_ABORT td2 k2.2.2
      from_client_validate_done env (-1) a.2.1 a.2.2
    else
      /- Optionally write (potentially modified) tree back to candidate -/
      if env.clicon_option_bool "CLICON_TRANSACTION_MOD" then
        let a := plugin_transaction env .TR_ABORT td2 k2.2.2
        let p := xmldb_put env "candidate" a.2.1.td_target a.2.2
        if p.1 < 0 then from_client_validate_done env (-1) a.2.1 p.2
        else from_client_validate_done env 0 a.2.1 p.2
      else
        /- Call plugin transaction end callbacks -/
        let e := plugin_transaction env .TR_END td2
          (k2.2.2.cprintf "<rpc-reply><ok/></rpc-reply>")
        from_client_validate_done env 0 e.2.1 e.2.2

/-- The function `from_client_validate`: the validate request `xe`. -/
def from_client_validate (env : Env) (xe : cxobj) (w : World) : Int × World :=
  match env.netconf_db_find xe "source" with
  | none =>
    (0, (w.cprintf (env.netconf_missing_element "protocol" "source")).log
      .netconf_missing_element)
  | some db =>
    /- 1. Start transaction -/
    let t := transaction_new w
    /- Common steps (with commit) -/
    let c := from_validate_common env db t.1 none t.2
    if c.1 < 1 then
      let w1 := clicon_xml2cbuf env c.2.2.1 c.2.2.2
      let a := plugin_transaction env .TR_ABORT c.2.1 w1
      let w2 :=
        if a.2.2.cbret.length = 0 then
          (a.2.2.cprintf
            (env.netconf_operation_failed "application" a.2.2.clicon_err_reason)).log
              .netconf_operation_failed
        else a.2.2
      from_client_validate_done env 0 a.2.1 w2
    else from_client_validate_ok env c.2.1 c.2.2.2

/-! ## Reading the instrumentation log -/

/-- The three-valued result convention: negative (error), zero (failed), positive
(OK). -/
inductive res3 where
  | neg
  | zero
  | pos
  deriving DecidableEq, Repr

/-- The class of a return value under the three-valued convention. -/
def res3.of (rc : Int) : res3 :=
  if rc < 0 then .neg else if rc = 0 then .zero else .pos

/-- The plugin phases whose return value the engine tests: the value of plugin end and
of plugin abort is ignored. -/
def trans_phase.tested : trans_phase → Bool
  | .TR_END => false
  | .TR_ABORT => false
  | _ => true

/-- An event without its trees: which collaborator was called, on which datastore,
and how the engine's test of the return value came out (`failed` is the test
`rc < 0`; it is `false` for plugin end and plugin abort, whose value is not tested). -/
inductive Label where
  | transaction_new
  | transaction_free
  | xmldb_islocked (db : String)
  | xmldb_get0 (db : String) (failed : Bool)
  | xmldb_get0_clear (failed : Bool)
  | xmldb_get0_free
  | xmldb_exists (db : String) (yes : Bool)
  | xmldb_delete (db : String) (deleted : Bool)
  | xmldb_create (db : String) (failed : Bool)
  | xmldb_put (db : String) (r : res3)
  | xmldb_copy (src dst : String) (failed : Bool)
  | clixon_plugin_datastore_upgrade (failed : Bool)
  | clixon_module_upgrade (r : res3)
  | xml_bind_yang (failed : Bool)
  | xml_sort (failed : Bool)
  | xml_yang_validate_all_top (r : res3)
  | xml_yang_validate_add (r : res3)
  | xml_diff (failed : Bool)
  | generic_validate (r : res3)
  | plugin (ph : trans_phase) (failed : Bool)
  | netconf_lock_denied
  | netconf_operation_failed
  | netconf_missing_element
  deriving DecidableEq, Repr

/-- The label of an event. -/
def Event.label : Event → Label
  | .transaction_new => .transaction_new
  | .transaction_free _ => .transaction_free
  | .xmldb_islocked db _ => .xmldb_islocked db
  | .xmldb_get0 db x => .xmldb_get0 db x.isNone
  | .xmldb_get0_clear rc => .xmldb_get0_clear (decide (rc < 0))
  | .xmldb_get0_free _ => .xmldb_get0_free
  | .xmldb_exists db rc => .xmldb_exists db (decide (rc = 1))
  | .xmldb_delete db rc => .xmldb_delete db (decide (rc = 0))
  | .xmldb_create db rc => .xmldb_create db (decide (rc < 0))
  | .xmldb_put db _ rc => .xmldb_put db (res3.of rc)
  | .xmldb_copy src dst rc => .xmldb_copy src dst (decide (rc < 0))
  | .clixon_plugin_datastore_upgrade rc => .clixon_plugin_datastore_upgrade (decide (rc < 0))
  | .clixon_module_upgrade rc => .clixon_module_upgrade (res3.of rc)
  | .xml_bind_yang rc => .xml_bind_yang (decide (rc < 0))
  | .xml_sort rc => .xml_sort (decide (rc < 0))
  | .xml_yang_validate_all_top rc => .xml_yang_validate_all_top (res3.of rc)
  | .xml_yang_validate_add rc => .xml_yang_validate_add (res3.of rc)
  | .xml_diff rc => .xml_diff (decide (rc < 0))
  | .generic_validate rc _ => .generic_validate (res3.of rc)
  | .plugin ph _ rc => .plugin ph (ph.tested && decide (rc < 0))
  | .netconf_lock_denied _ => .netconf_lock_denied
  | .netconf_operation_failed => .netconf_operation_failed
  | .netconf_missing_element => .netconf_missing_element

/-- The labels of a list of events. -/
def labels (evs : List Event) : List Label := evs.map Event.label

/-- The effect of one logged call on the datastores: a successful put, copy, delete or
create changes the datastore it names, every other call changes none. -/
def Event.apply (e : Event) (d : String → Option cxobj) : String → Option cxobj :=
  match e with
  | .xmldb_put db x rc =>
    if rc < 0 then d else if rc = 0 then d else fun n => if n = db then x else d n
  | .xmldb_copy src dst rc =>
    if rc < 0 then d else fun n => if n = dst then d src else d n
  | .xmldb_delete db rc =>
    if rc = 0 then fun n => if n = db then none else d n else d
  | .xmldb_create db rc =>
    if rc < 0 then d else fun n => if n = db then some ((d db).getD xml_empty_config) else d n
  | _ => d

/-- The effect of a list of logged calls on the datastores, oldest first. -/
def replay : List Event → (String → Option cxobj) → (String → Option cxobj)
  | [], d => d
  | e :: rest, d => replay rest (e.apply d)

/-- Whether a call with this label wrote the datastore `db`. -/
def Label.writes (db : String) : Label → Bool
  | .xmldb_put db1 r => decide (db1 = db) && decide (r = res3.pos)
  | .xmldb_copy _ dst failed => decide (dst = db) && !failed
  | .xmldb_delete db1 deleted => decide (db1 = db) && deleted
  | .xmldb_create db1 failed => decide (db1 = db) && !failed
  | _ => false

/-- The events that a run from `w` to `w1` appended to the log. -/
def run_events (w w1 : World) : List Event := w1.trace.drop w.trace.length

/-- A run from world `w` returned `ret` and ended in world `w1`, and it is one of the
listed paths: the log grew by some events whose labels, with `ret`, are in `paths`;
the datastores are what these events made of them; the locks are untouched. -/
def Run (w : World) (ret : Int) (w1 : World) (paths : List (Int × List Label)) : Prop :=
  ∃ evs, w1.trace = w.trace ++ evs ∧ w1.dbs = replay evs w.dbs ∧ w1.locks = w.locks ∧
    (ret, labels evs) ∈ paths

/-- The paths of a run that continues, after a first part with paths `P`, with a second
part whose paths `k r` depend on the value `r` the first part returned. -/
def paths_seq (P : List (Int × List Label)) (k : Int → List (Int × List Label)) :
    List (Int × List Label) :=
  P.flatMap (fun p => (k p.1).map (fun q => (q.1, p.2 ++ q.2)))

/-- The paths `P`, each after the calls `pre`. -/
def paths_after (pre : List Label) (P : List (Int × List Label)) : List (Int × List Label) :=
  P.map (fun p => (p.1, pre ++ p.2))

/-! ## Path tables

For each engine function, the list of its exits: the return value and the labels of the
calls made on the way.  The theorems of the section "Runs and their paths" prove that
every run of the function, for every behaviour of the collaborators, is in its table. -/

/-- The exits of plugin begin, generic validation, plugin validate, plugin complete:
return value and labels of the calls made. -/
def phases_paths : List (Int × List Label) :=
  [ (-1, [.plugin .TR_BEGIN true]),
    (-1, [.plugin .TR_BEGIN false, .generic_validate .neg]),
    (0, [.plugin .TR_BEGIN false, .generic_validate .zero]),
    (-1, [.plugin .TR_BEGIN false, .generic_validate .pos, .plugin .TR_VALIDATE true]),
    (-1, [.plugin .TR_BEGIN false, .generic_validate .pos, .plugin .TR_VALIDATE false,
      .plugin .TR_COMPLETE true]),
    (1, [.plugin .TR_BEGIN false, .generic_validate .pos, .plugin .TR_VALIDATE false,
      .plugin .TR_COMPLETE false]) ]

/-- The exits of `from_validate_common`: return value and labels of the calls made. -/
def from_validate_common_paths (candidate : String) : List (Int × List Label) :=
  [ (-1, []),
    (-1, [.xmldb_get0 candidate true]),
    (-1, [.xmldb_get0 candidate false, .xml_yang_validate_all_top .neg]),
    (0, [.xmldb_get0 candidate false, .xml_yang_validate_all_top .zero]),
    (-1, [.xmldb_get0 candidate false, .xml_yang_validate_all_top .pos,
      .xmldb_get0 "running" true]),
    (-1, [.xmldb_get0 candidate false, .xml_yang_validate_all_top .pos,
      .xmldb_get0 "running" false, .xml_diff true]) ] ++
  paths_after [.xmldb_get0 candidate false, .xml_yang_validate_all_top .pos,
      .xmldb_get0 "running" false, .xml_diff false] phases_paths

/-- The `done` label of the commit functions: plugin abort below return value 1, then
the release of `frees` trees and of the transaction. -/
def done_paths (ret : Int) (frees : Nat) : List (Int × List Label) :=
  [ (ret, (if ret < 1 then [Label.plugin .TR_ABORT false] else []) ++
      List.replicate frees Label.xmldb_get0_free ++ [Label.transaction_free]) ]

/-- The exits of `candidate_commit_copy`. -/
def candidate_commit_copy_paths (candidate : String) : List (Int × List Label) :=
  paths_after [.xmldb_copy candidate "running" true] (done_paths (-1) 2) ++
  paths_after [.xmldb_copy candidate "running" false, .plugin .TR_END false] (done_paths 1 2)

/-- The exits of `candidate_commit_clear`; `mod` is the option CLICON_TRANSACTION_MOD. -/
def candidate_commit_clear_paths (candidate : String) (mod : Bool) :
    List (Int × List Label) :=
  paths_after [.xmldb_get0_clear true] (done_paths (-1) 2) ++
  paths_after [.xmldb_get0_clear false, .xmldb_get0_clear true] (done_paths (-1) 2) ++
  (if mod then
    paths_after [.xmldb_get0_clear false, .xmldb_get0_clear false,
      .xmldb_put candidate .neg] (done_paths (-1) 2) ++
    paths_after [.xmldb_get0_clear false, .xmldb_get0_clear false,
      .xmldb_put candidate .zero] (done_paths 0 2) ++
    paths_after [.xmldb_get0_clear false, .xmldb_get0_clear false,
      .xmldb_put candidate .pos] (candidate_commit_copy_paths candidate)
   else
    paths_after [.xmldb_get0_clear false, .xmldb_get0_clear false]
      (candidate_commit_copy_paths candidate))

/-- The exits of `candidate_commit`. -/
def candidate_commit_paths (candidate : String) (mod : Bool) : List (Int × List Label) :=
  paths_after [.transaction_new]
    (paths_seq (from_validate_common_paths candidate) (fun r =>
      if r < 0 then done_paths (-1) 2
      else if r = 0 then done_paths 0 2
      else
        paths_after [.plugin .TR_COMMIT true] (done_paths (-1) 2) ++
        paths_after [.plugin .TR_COMMIT false] (candidate_commit_clear_paths candidate mod)))

/-- The exits of `startup_common`. -/
def startup_common_paths (db : String) : List (Int × List Label) :=
  [ (-1, [.xmldb_get0 db true]),
    (1, [.xmldb_get0 db false]),
    (-1, [.xmldb_get0 db false, .clixon_plugin_datastore_upgrade true]),
    (-1, [.xmldb_get0 db false, .clixon_plugin_datastore_upgrade false,
      .clixon_module_upgrade .neg]),
    (0, [.xmldb_get0 db false, .clixon_plugin_datastore_upgrade false,
      .clixon_module_upgrade .zero]),
    (-1, [.xmldb_get0 db false, .clixon_plugin_datastore_upgrade false,
      .clixon_module_upgrade .pos]),
    (-1, [.xmldb_get0 db false, .clixon_plugin_datastore_upgrade false,
      .clixon_module_upgrade .pos, .xml_bind_yang true]),
    (-1, [.xmldb_get0 db false, .clixon_plugin_datastore_upgrade false,
      .clixon_module_upgrade .pos, .xml_bind_yang false, .xml_sort true]) ] ++
  paths_after [.xmldb_get0 db false, .clixon_plugin_datastore_upgrade false,
      .clixon_module_upgrade .pos, .xml_bind_yang false, .xml_sort false] phases_paths

/-- The exits of `startup_validate`. -/
def startup_validate_paths (db : String) : List (Int × List Label) :=
  paths_after [.transaction_new]
    (paths_seq (startup_common_paths db) (fun r =>
      if r < 0 then
        [(-1, [.plugin .TR_ABORT false, .xmldb_get0_free, .transaction_free])]
      else if r = 0 then
        [(0, [.plugin .TR_ABORT false, .xmldb_get0_free, .transaction_free])]
      else
        [ (-1, [.plugin .TR_END false, .xmldb_get0_clear true, .xmldb_get0_free,
            .transaction_free]),
          (1, [.plugin .TR_END false, .xmldb_get0_clear false, .xmldb_get0_free,
            .transaction_free]) ]))

/-- The exits of `startup_commit_write` once running is out of the way: create, put,
plugin end. -/
def startup_commit_create_paths : List (Int × List Label) :=
  paths_after [.xmldb_create "running" true] (done_paths (-1) 1) ++
  paths_after [.xmldb_create "running" false, .xmldb_put "running" .neg] (done_paths (-1) 1) ++
  paths_after [.xmldb_create "running" false, .xmldb_put "running" .zero] (done_paths 0 1) ++
  paths_after [.xmldb_create "running" false, .xmldb_put "running" .pos,
    .plugin .TR_END false] (done_paths 1 1)

/-- The exits of `startup_commit_write`. -/
def startup_commit_write_paths : List (Int × List Label) :=
  paths_after [.xmldb_exists "running" true, .xmldb_delete "running" false]
    (done_paths (-1) 1) ++
  paths_after [.xmldb_exists "running" true, .xmldb_delete "running" true]
    startup_commit_create_paths ++
  paths_after [.xmldb_exists "running" true, .xmldb_delete "running" false]
    startup_commit_create_paths ++
  paths_after [.xmldb_exists "running" false] startup_commit_create_paths

/-- The exits of `startup_commit`. -/
def startup_commit_paths (db : String) : List (Int × List Label) :=
  (-1, []) ::
  paths_after [.transaction_new]
    (paths_seq (startup_common_paths db) (fun r =>
      if r < 0 then done_paths (-1) 1
      else if r = 0 then done_paths 0 1
      else
        paths_after [.plugin .TR_COMMIT true] (done_paths (-1) 1) ++
        paths_after [.plugin .TR_COMMIT false, .xmldb_get0_clear true] (done_paths (-1) 1) ++
        paths_after [.plugin .TR_COMMIT false, .xmldb_get0_clear false]
          startup_commit_write_paths))

/-- The `done` label of `from_client_validate`: plugin abort on a negative return value,
then the release of both trees and of the transaction. -/
def from_client_validate_done_paths (ret : Int) : List (Int × List Label) :=
  [ (ret, (if ret < 0 then [Label.plugin .TR_ABORT false] else []) ++
      [Label.xmldb_get0_free, Label.xmldb_get0_free, Label.transaction_free]) ]

/-- The exits of `from_client_validate_ok`; `mod` is the option CLICON_TRANSACTION_MOD. -/
def from_client_validate_ok_paths (mod : Bool) : List (Int × List Label) :=
  paths_after [.xmldb_get0_clear true, .plugin .TR_ABORT false]
    (from_client_validate_done_paths (-1)) ++
  paths_after [.xmldb_get0_clear false, .xmldb_get0_clear true, .plugin .TR_ABORT false]
    (from_client_validate_done_paths (-1)) ++
  (if mod then
    paths_after [.xmldb_get0_clear false, .xmldb_get0_clear false, .plugin .TR_ABORT false,
      .xmldb_put "candidate" .neg] (from_client_validate_done_paths (-1)) ++
    paths_after [.xmldb_get0_clear false, .xmldb_get0_clear false, .plugin .TR_ABORT false,
      .xmldb_put "candidate" .zero] (from_client_validate_done_paths 0) ++
    paths_after [.xmldb_get0_clear false, .xmldb_get0_clear false, .plugin .TR_ABORT false,
      .xmldb_put "candidate" .pos] (from_client_validate_done_paths 0)
   else
    paths_after [.xmldb_get0_clear false, .xmldb_get0_clear false, .plugin .TR_END false]
      (from_client_validate_done_paths 0))

/-- The exits of `from_client_validate`; `db` is the source datastore that the request
names, if it names one. -/
def from_client_validate_paths (db : Option String) (mod : Bool) : List (Int × List Label) :=
  match db with
  | none => [(0, [.netconf_missing_element])]
  | some db =>
    paths_after [.transaction_new]
      (paths_seq (from_validate_common_paths db) (fun r =>
        if r < 1 then
          paths_after [.plugin .TR_ABORT false] (from_client_validate_done_paths 0) ++
          paths_after [.plugin .TR_ABORT false, .netconf_operation_failed]
            (from_client_validate_done_paths 0)
        else from_client_validate_ok_paths mod))

/-- The exits of `from_client_commit`; `denied` says whether running is locked by
another session. -/
def from_client_commit_paths (denied : Bool) (mod : Bool) : List (Int × List Label) :=
  if denied then [(0, [.xmldb_islocked "running", .netconf_lock_denied])]
  else
    paths_after [.xmldb_islocked "running"]
      (paths_seq (candidate_commit_paths "candidate" mod) (fun r =>
        if r < 0 then [(0, [.netconf_operation_failed])] else [(0, [])]))

/-! ## Flags of a tree -/

/-- Modelled from the spec: the text value of a node (`xml_value` of the library). -/
def xml_value : cxobj → String
  | .mk _ _ _ _ v _ => v

/-- Modelled from the spec: the library's `xml_flag`: the bits of `flag` that the node
carries.  The node carries the flag when the value is not 0. -/
def xml_flag (x : cxobj) (flag : Nat) : Nat := xml_flags x &&& flag

mutual
/-- All nodes of a tree: the node itself and its descendants, in document order. -/
def xml_nodes : cxobj → List cxobj
  | .mk n t f s v cs => .mk n t f s v cs :: xml_nodes_children cs
/-- The nodes of the trees of a child list. -/
def xml_nodes_children : List cxobj → List cxobj
  | [] => []
  | c :: rest => xml_nodes c ++ xml_nodes_children rest
end

mutual
/-- The element descendants of a node: its element children, their element children, and
so on (attribute and body nodes have no children). -/
def xml_elmnt_descendants : cxobj → List cxobj
  | .mk _ _ _ _ _ cs => xml_elmnt_descendants_children cs
/-- The element descendants below a child list, the element children included. -/
def xml_elmnt_descendants_children : List cxobj → List cxobj
  | [] => []
  | c :: rest => xml_elmnt_descendants_child c ++ xml_elmnt_descendants_children rest
termination_by structural x => x
/-- An element child with its element descendants; nothing for a child of another kind. -/
def xml_elmnt_descendants_child : cxobj → List cxobj
  | .mk n t f s v cs =>
    if t = cxobj_type.CX_ELMNT then .mk n t f s v cs :: xml_elmnt_descendants_children cs
    else []
termination_by structural x => x
end

/-- A node and each of its element descendants carry the flag. -/
def flagged (flag : Nat) (x : cxobj) : Prop :=
  xml_flag x flag ≠ 0 ∧ ∀ d ∈ xml_elmnt_descendants x, xml_flag d flag ≠ 0

mutual
/-- Two trees are the same node for node, except for the flags, and the flag words of
corresponding nodes are related by `R`. -/
def xml_rel (R : Nat → Nat → Prop) : cxobj → cxobj → Prop
  | .mk n t f s v cs, y =>
    xml_name y = n ∧ xml_type y = t ∧ R f (xml_flags y) ∧ xml_spec y = s ∧ xml_value y = v ∧
      xml_rel_children R cs (xml_children y)
/-- The relation `xml_rel` on child lists, child by child. -/
def xml_rel_children (R : Nat → Nat → Prop) : List cxobj → List cxobj → Prop
  | [], ys => ys = []
  | c :: rest, ys =>
    match ys with
    | [] => False
    | y :: ys1 => xml_rel R c y ∧ xml_rel_children R rest ys1
end

/-- The second flag word has every bit of the first. -/
def flags_le (f f1 : Nat) : Prop := f &&& f1 = f

/-- The two flag words agree on the bits of `b`. -/
def flags_keep (b : Nat) (f f1 : Nat) : Prop := f1 &&& b = f &&& b

/-- No node of the tree carries the flag. -/
def flag_free (flag : Nat) (x : Option cxobj) : Prop :=
  ∀ t, x = some t → ∀ y ∈ xml_nodes t, xml_flag y flag = 0

/-- No node of the tree carries both the ADD flag and the DEL flag. -/
def no_add_del (x : Option cxobj) : Prop :=
  ∀ t, x = some t → ∀ y ∈ xml_nodes t,
    ¬ (xml_flag y XML_FLAG_ADD ≠ 0 ∧ xml_flag y XML_FLAG_DEL ≠ 0)

/-! ## Properties of runs -/

/-- The session-id element that `from_client_commit` puts into a lock-denied reply. -/
def session_id_info (iddb : Nat) : String :=
  "<session-id>" ++ toString iddb ++ "</session-id>"

/-- Whether a call is the plugin callback of phase `ph`. -/
def Label.is_phase (ph : trans_phase) : Label → Bool
  | .plugin p _ => decide (p = ph)
  | _ => false

/-- Whether the callback of phase `ph` was invoked in a run. -/
def invoked (ph : trans_phase) (ls : List Label) : Bool :=
  ls.any (Label.is_phase ph)

/-- The calls of a run from the first plugin begin on. -/
def from_begin (ls : List Label) : List Label :=
  ls.dropWhile (fun l => !Label.is_phase .TR_BEGIN l)

/-- The property of C3 for one run: if begin was invoked and end was not, abort was
invoked after the begin. -/
def abort_guaranteed (ls : List Label) : Bool :=
  !invoked .TR_BEGIN ls || invoked .TR_END ls || invoked .TR_ABORT (from_begin ls)

/-- The plugin callbacks of a run other than abort, in the order of their invocation,
each with the outcome of the engine's test (`true`: the callback failed). -/
def phase_calls : List Label → List (trans_phase × Bool)
  | [] => []
  | .plugin ph failed :: rest =>
    if ph = .TR_ABORT then phase_calls rest else (ph, failed) :: phase_calls rest
  | _ :: rest => phase_calls rest

/-- A rule for the order of phases: may phase `ph` be invoked when `last` is the
previous phase callback of the run with its outcome (`none`: there was none)? -/
abbrev phase_rule := Option (trans_phase × Bool) → trans_phase → Bool

/-- Whether a sequence of phase callbacks obeys a rule, given the callback before it. -/
def obeys (rule : phase_rule) : Option (trans_phase × Bool) → List (trans_phase × Bool) → Bool
  | _, [] => true
  | last, (ph, failed) :: rest => rule last ph && obeys rule (some (ph, failed)) rest

/-- The chain of C8: begin first, validate only after begin returned Ok,
complete only after validate returned Ok, commit only after complete returned Ok, end
only after commit returned Ok. -/
def chain_rule : phase_rule
  | none, .TR_BEGIN => true
  | some (.TR_BEGIN, false), .TR_VALIDATE => true
  | some (.TR_VALIDATE, false), .TR_COMPLETE => true
  | some (.TR_COMPLETE, false), .TR_COMMIT => true
  | some (.TR_COMMIT, false), .TR_END => true
  | _, _ => false

/-- The chain as `candidate_commit` follows it: the chain of C8. -/
def candidate_commit_rule : phase_rule := chain_rule

/-- The chain as `startup_commit` follows it: the chain of C8, and commit may
be the first callback of the run (empty startup tree). -/
def startup_commit_rule : phase_rule
  | none, .TR_COMMIT => true
  | last, ph => chain_rule last ph

/-- The chain as `from_client_validate` follows it: begin, validate, complete as in
C8, no commit, and end only after complete returned Ok. -/
def from_client_validate_rule : phase_rule
  | none, .TR_BEGIN => true
  | some (.TR_BEGIN, false), .TR_VALIDATE => true
  | some (.TR_VALIDATE, false), .TR_COMPLETE => true
  | some (.TR_COMPLETE, false), .TR_END => true
  | _, _ => false

/-- The chain as `startup_validate` follows it: like `from_client_validate`, and end
may be the first callback of the run (empty startup tree). -/
def startup_validate_rule : phase_rule
  | none, .TR_END => true
  | last, ph => from_client_validate_rule last ph

/-- Whether a call is a plugin callback. -/
def Label.is_plugin : Label → Bool
  | .plugin _ _ => true
  | _ => false

/-- The plugin callbacks of a run, abort included, in the order of their invocation. -/
def plugin_calls (ls : List Label) : List Label := ls.filter Label.is_plugin

/-- Whether a call is a step before plugin begin that failed: a datastore read, an
upgrade hook, schema binding or sorting, the baseline validation or the differ. -/
def Label.failed_before_begin : Label → Bool
  | .xmldb_get0 _ true => true
  | .clixon_plugin_datastore_upgrade true => true
  | .clixon_module_upgrade .neg => true
  | .clixon_module_upgrade .zero => true
  | .xml_bind_yang true => true
  | .xml_sort true => true
  | .xml_yang_validate_all_top .neg => true
  | .xml_yang_validate_all_top .zero => true
  | .xml_diff true => true
  | _ => false

/-- The calls of a run before the first plugin abort. -/
def before_abort (ls : List Label) : List Label :=
  ls.takeWhile (fun l => !Label.is_phase .TR_ABORT l)

/-- The property of C9 as amended, for one run: abort is invoked only after the
transaction was created, and a run with a failed step before begin invokes exactly one
plugin callback, abort. -/
def abort_without_begin (ls : List Label) : Bool :=
  (!invoked .TR_ABORT ls || (before_abort ls).contains .transaction_new) &&
  (!ls.any Label.failed_before_begin || plugin_calls ls == [.plugin .TR_ABORT false])

/-- Whether a call changed a datastore: a put that returned Ok, or a copy, delete or
create that succeeded. -/
def Label.is_write : Label → Bool
  | .xmldb_put _ r => decide (r = res3.pos)
  | .xmldb_copy _ _ failed => !failed
  | .xmldb_delete _ deleted => deleted
  | .xmldb_create _ failed => !failed
  | _ => false

/-- Whether a call is a datastore copy. -/
def Label.is_copy : Label → Bool
  | .xmldb_copy _ _ _ => true
  | _ => false

/-- Whether a call is one of the checks of a commit: validation of the whole target,
the differ, generic validation, or a plugin callback. -/
def Label.is_check : Label → Bool
  | .xml_yang_validate_all_top _ => true
  | .xml_diff _ => true
  | .generic_validate _ => true
  | .plugin _ _ => true
  | _ => false

/-- The calls of a run before the first datastore copy. -/
def before_copy (ls : List Label) : List Label :=
  ls.takeWhile (fun l => !Label.is_copy l)

/-- The property of C2 on the calls of one run of `candidate_commit` with return value
`ret`: every call that changes a datastore is the write-back put to the candidate or
the copy of the candidate onto running; there is at most one copy; before a copy the
checks made are exactly the baseline validation, the differ, plugin begin, generic
validation, plugin validate, plugin complete and plugin commit, each successful; and
a run without plugin commit changes no datastore and returns 0 or -1. -/
def running_written_once (candidate : String) (ret : Int) (ls : List Label) : Bool :=
  ls.all (fun l => !l.is_write || l == .xmldb_put candidate .pos ||
    l == .xmldb_copy candidate "running" false) &&
  decide ((ls.filter Label.is_copy).length ≤ 1) &&
  (!ls.any Label.is_copy ||
    (before_copy ls).filter Label.is_check ==
      [.xml_yang_validate_all_top .pos, .xml_diff false, .plugin .TR_BEGIN false,
        .generic_validate .pos, .plugin .TR_VALIDATE false, .plugin .TR_COMPLETE false,
        .plugin .TR_COMMIT false]) &&
  (invoked .TR_COMMIT ls ||
    (ls.all (fun l => !l.is_write) && (ret == 0 || ret == -1)))

/-- The property of C7 as amended, on the calls of one run of `candidate_commit` with
return value `ret`: if plugin validate or plugin complete failed, the return value is
-1 and plugin abort was invoked. -/
def veto_is_fatal (ret : Int) (ls : List Label) : Bool :=
  !(ls.contains (.plugin .TR_VALIDATE true) || ls.contains (.plugin .TR_COMPLETE true)) ||
    (ret == -1 && invoked .TR_ABORT ls)

/-- Whether a call is a plugin callback whose failure the engine detected. -/
def Label.is_plugin_failure : Label → Bool
  | .plugin _ failed => failed
  | _ => false

/-- Whether a call is a put that returned 0 (failed, error in the reply). -/
def Label.is_put_failed : Label → Bool
  | .xmldb_put _ r => decide (r = res3.zero)
  | _ => false

/-- The property of the runs of `candidate_commit` with return value 0: a validation of
the whole target, the generic validation or a put returned 0, and no plugin callback
failed. -/
def failed_by_validation (ret : Int) (ls : List Label) : Bool :=
  ret != 0 ||
    ((ls.contains (.xml_yang_validate_all_top .zero) || ls.contains (.generic_validate .zero) ||
        ls.any Label.is_put_failed) &&
      !ls.any Label.is_plugin_failure)

/-- The contract of the validators of the library: a validation that returns 0 (failed)
hands an error tree to the caller. -/
def Env.reports_errors (env : Env) : Prop :=
  (∀ x, (env.xml_yang_validate_all_top x).1 = 0 →
    (env.xml_yang_validate_all_top x).2.isSome = true) ∧
  (∀ x p, (env.xml_yang_validate_add x p).1 = 0 →
    (env.xml_yang_validate_add x p).2.isSome = true)

/-- The first deleted entry, in the order of the deleted vector, whose schema node
makes `generic_validate` fail: mandatory, config, and not directly below a module or
submodule. -/
def first_mandatory_deleted (src : Option cxobj) (dvec : List xpath_t) : Option cxobj :=
  (dvec.filterMap (fun x => src.bind (xml_find x))).find?
    (fun n => mandatory_removed (xml_spec n))

/-- The missing-element error that `generic_validate` builds for the deleted node `n`. -/
def missing_mandatory (env : Env) (n : cxobj) : cxobj :=
  env.netconf_missing_element_xml "protocol" (xml_name n) "May not remove mandatory variable"

/-- Whether a call asks the datastore service to change a datastore (put, copy, delete
or create), whatever the call returned. -/
def Label.is_mutation : Label → Bool
  | .xmldb_put _ _ => true
  | .xmldb_copy _ _ _ => true
  | .xmldb_delete _ _ => true
  | .xmldb_create _ _ => true
  | _ => false

/-- Whether a call is a put to the datastore "candidate". -/
def Label.is_put_candidate : Label → Bool
  | .xmldb_put db _ => decide (db = "candidate")
  | _ => false

/-- The property of C12 on the calls of one run of `from_client_validate`; `mod` is the
option CLICON_TRANSACTION_MOD.  Every request to change a datastore is a put to
"candidate"; there is at most one; plugin commit is not invoked; no call writes running;
and a run with such a request has the option set, plugin complete returned Ok, and no
clearing of a tree failed. -/
def validate_only_writes (mod : Bool) (ls : List Label) : Bool :=
  ls.all (fun l => !l.is_mutation || l.is_put_candidate) &&
  decide ((ls.filter Label.is_mutation).length ≤ 1) &&
  !invoked .TR_COMMIT ls &&
  ls.all (fun l => !l.writes "running") &&
  (!ls.any Label.is_mutation ||
    (mod && ls.contains (.plugin .TR_COMPLETE false) && !ls.contains (.xmldb_get0_clear true)))

/-- The tree that `from_client_validate` hands to `xmldb_put` when the write-back option
is set: the target of the transaction as `from_validate_common` left it, cleared of
defaults and marks, after the plugin abort callbacks. -/
def from_client_validate_target (env : Env) (xe : cxobj) (w : World) : Option cxobj :=
  match env.netconf_db_find xe "source" with
  | none => none
  | some db =>
    (plugin_target env .TR_ABORT
      (((from_validate_common env db (transaction_new w).1 none (transaction_new w).2).2.1.set_src
        (env.xmldb_get0_clear
          (from_validate_common env db (transaction_new w).1 none
            (transaction_new w).2).2.1.td_src).2).set_target
        (env.xmldb_get0_clear
          (from_validate_common env db (transaction_new w).1 none
            (transaction_new w).2).2.1.td_target).2)).td_target

/-- The target tree of `startup_validate` after plugin end and the clearing of defaults
and marks: the tree that a successful run hands to the caller or releases. -/
def startup_validate_target (env : Env) (db : String) (w : World) : Option cxobj :=
  (env.xmldb_get0_clear
    (plugin_target env .TR_END
      (startup_common env db (transaction_new w).1 (transaction_new w).2).2.1).td_target).2

/-- The property of C17 on the calls of one run: the transaction is created at most
once and released as often as it is created; if it is created, `transaction_new` is the
first call of the run and `transaction_free` the last. -/
def released_once (ls : List Label) : Bool :=
  decide (ls.count .transaction_new ≤ 1) &&
  (ls.count .transaction_free == ls.count .transaction_new) &&
  (!ls.contains .transaction_new ||
    (ls.head? == some .transaction_new && ls.getLast? == some .transaction_free))

/-- Whether a run created a transaction. -/
def created (ls : List Label) : Bool := ls.count .transaction_new == 1

/-- The four steps that `from_validate_common` and `startup_common` share. -/
inductive step_kind where
  | begin
  | generic
  | validate
  | complete
  deriving DecidableEq, Repr

/-- The step that a call is, if it is one of the four, and whether it succeeded: a
plugin callback succeeds unless its return value is negative, generic validation
succeeds with return value 1. -/
def Label.step : Label → Option (step_kind × Bool)
  | .plugin .TR_BEGIN failed => some (.begin, !failed)
  | .generic_validate r => some (.generic, decide (r = res3.pos))
  | .plugin .TR_VALIDATE failed => some (.validate, !failed)
  | .plugin .TR_COMPLETE failed => some (.complete, !failed)
  | _ => none

/-- The steps of a run, in the order of their invocation. -/
def steps (ls : List Label) : List (step_kind × Bool) := ls.filterMap Label.step

/-- Whether a sequence of steps walks the chain `chain` and stops at the first step that
did not succeed: each step is the next of the chain, a step that failed is the last, and
a step that succeeded is followed by the rest of the chain. -/
def chain_run : List step_kind → List (step_kind × Bool) → Bool
  | [], s => s.isEmpty
  | _ :: _, [] => false
  | k :: chain, (k1, ok) :: rest =>
    decide (k = k1) && (if ok then chain_run chain rest else rest.isEmpty)

/-- The property of C20 on the calls of one run, without its last clause: none of the
four steps was invoked, or the steps walk the chain begin, generic validation, validate,
complete and stop at the first that did not succeed. -/
def steps_in_order (ls : List Label) : Bool :=
  (steps ls).isEmpty ||
    chain_run [.begin, .generic, .validate, .complete] (steps ls)

/-- The four steps, each successful. -/
def all_steps_ok : List (step_kind × Bool) :=
  [(.begin, true), (.generic, true), (.validate, true), (.complete, true)]

/-- Whether a call is a datastore read that succeeded. -/
def Label.is_read_ok : Label → Bool
  | .xmldb_get0 _ failed => !failed
  | _ => false

/-- The plugin callbacks logged in a list of events, oldest first, each with the
transaction the callback was given. -/
def plugin_events : List Event → List (trans_phase × transaction_data_t)
  | [] => []
  | .plugin ph td _ :: rest => (ph, td) :: plugin_events rest
  | _ :: rest => plugin_events rest

/-- A run from world `w` to world `w1` appended events to the log, and every plugin
callback among them, with the transaction it was given, satisfies `Q`. -/
def PRun (w w1 : World) (Q : trans_phase × transaction_data_t → Prop) : Prop :=
  ∃ evs, w1.trace = w.trace ++ evs ∧ ∀ p ∈ plugin_events evs, Q p

/-- The startup tree after the datastore upgrade, the module upgrade, schema binding
and sorting, when the tree read is not empty and each of these steps succeeds; `none`
otherwise.  It is the tree that `startup_common` takes as the target of the
transaction. -/
def startup_tree (env : Env) (db : String) (w : World) : Option cxobj :=
  let msd := env.clicon_option_bool "CLICON_XMLDB_MODSTATE"
  match env.read w.dbs db with
  | none => none
  | some xt0 =>
    let xt := xml_apply0 cxobj_type.CX_ELMNT (flag_reset (XML_FLAG_MARK ||| XML_FLAG_CHANGE)) xt0
    if xml_child_nr xt = 0 then none
    else
      let u := env.clixon_plugin_datastore_upgrade db xt msd
      if u.1 < 0 then none
      else
        let m := env.clixon_module_upgrade u.2 msd
        if m.1 < 0 then none
        else if m.1 = 0 then none
        else
          match env.clicon_dbspec_yang with
          | none => none
          | some yspec =>
            let b := env.xml_bind_yang m.2.1 yspec
            if b.1 < 0 then none
            else
              let s := env.xml_sort b.2
              if s.1 < 0 then none else some s.2

/-- The outcome of a list of rules that are applied in order until one is not Ok: -1 if
the first result that is not positive is negative, 0 if it is 0, and 1 if every result
is positive. -/
def first_not_ok : List Int → Int
  | [] => 1
  | r :: rest => if r < 0 then -1 else if r = 0 then 0 else first_not_ok rest

/-- The result of the mandatory check of `generic_validate` on one deleted entry: 0 for a
mandatory config node whose schema parent is absent or neither a module nor a submodule,
1 otherwise. -/
def deleted_outcome (src : Option cxobj) (x : xpath_t) : Int :=
  match src.bind (xml_find x) with
  | some n => if mandatory_removed (xml_spec n) then 0 else 1
  | none => 1

/-- The results of the rules of `generic_validate` in the order in which the code applies
them: the validation of the whole target, the per-node validation of every changed-target
entry, the mandatory check of every deleted entry, the per-node validation of every added
entry. -/
def rule_outcomes (env : Env) (td : transaction_data_t) : List Int :=
  (env.xml_yang_validate_all_top td.td_target).1 ::
    ((td.td_tcvec.take td.td_clen).map (fun c => (env.xml_yang_validate_add td.td_target c).1) ++
      ((td.td_dvec.take td.td_dlen).map (deleted_outcome td.td_src) ++
        (td.td_avec.take td.td_alen).map
          (fun a => (env.xml_yang_validate_add td.td_target a).1)))

/-- A node whose removal C22 forbids: its bound schema node is mandatory and has config
true, and the schema parent is absent or neither a module nor a submodule. -/
def removal_forbidden (n : cxobj) : Prop :=
  ∃ ys, xml_spec n = some ys ∧ yang_mandatory ys ≠ 0 ∧ yang_config ys = 1 ∧
    (yang_parent_get ys = none ∨
      ∃ yp, yang_parent_get ys = some yp ∧ yang_keyword_get yp ≠ rfc_6020.Y_MODULE ∧
        yang_keyword_get yp ≠ rfc_6020.Y_SUBMODULE)

/-- The number of invocations of plugin abort in a run. -/
def abort_count (ls : List Label) : Nat :=
  ls.countP (Label.is_phase .TR_ABORT)

/-- Whether plugin abort and plugin end were both invoked in a run. -/
def abort_and_end (ls : List Label) : Bool :=
  invoked .TR_ABORT ls && invoked .TR_END ls

/-- Every proper ancestor of the node at `p`, the root included, carries the flag. -/
def ancestors_flagged (flag : Nat) (p : xpath_t) (t : cxobj) : Prop :=
  ∀ q, q <+: p → q ≠ p → ∃ a, xml_find q t = some a ∧ xml_flag a flag ≠ 0

/-- The node at `p` and each of its element descendants carry `flag`, and every proper
ancestor of the node carries CHANGE. -/
def marked_down (flag : Nat) (p : xpath_t) (t : cxobj) : Prop :=
  (∃ n, xml_find p t = some n ∧ flagged flag n) ∧ ancestors_flagged XML_FLAG_CHANGE p t

/-- The node at `p` and every proper ancestor of it carry CHANGE. -/
def marked_up (p : xpath_t) (t : cxobj) : Prop :=
  (∃ n, xml_find p t = some n ∧ xml_flag n XML_FLAG_CHANGE ≠ 0) ∧
    ancestors_flagged XML_FLAG_CHANGE p t

/-- The marks of C24 on the trees of a transaction: every deleted entry and each of its
element descendants carries DEL, every added entry and each of its element descendants
carries ADD, every changed entry of either tree carries CHANGE, and every proper ancestor
of an entry of the four vectors carries CHANGE.  An entry is a path that leads to a node
of its tree. -/
def marked (td : transaction_data_t) : Prop :=
  (∀ s, td.td_src = some s →
    (∀ x ∈ td.td_dvec.take td.td_dlen, (xml_find x s).isSome → marked_down XML_FLAG_DEL x s) ∧
    (∀ x ∈ td.td_scvec.take td.td_clen, (xml_find x s).isSome → marked_up x s)) ∧
  (∀ t, td.td_target = some t →
    (∀ x ∈ td.td_avec.take td.td_alen, (xml_find x t).isSome → marked_down XML_FLAG_ADD x t) ∧
    (∀ x ∈ td.td_tcvec.take td.td_clen, (xml_find x t).isSome → marked_up x t))

/-! ## Test fixtures: a cooperative environment and a world with three datastores -/

/-- An environment in which every collaborator succeeds, the differ reports no
difference, plugins edit nothing, and write-back is off. -/
def env_ok : Env where
  clicon_option_bool := fun _ => false
  clicon_dbspec_yang := some (.mk .Y_MODULE 0 1 none)
  xmldb_get0_rc := fun _ => 0
  xmldb_get0_clear := fun x => (0, x)
  xmldb_put_rc := fun _ _ => 1
  xmldb_put_reply := fun _ _ => "<rpc-reply><rpc-error/></rpc-reply>"
  xmldb_copy_rc := fun _ _ => 0
  xmldb_delete_rc := fun _ => 0
  xmldb_delete_errno := fun _ => 0
  xmldb_create_rc := fun _ => 0
  clixon_plugin_datastore_upgrade := fun _ x _ => (0, x)
  clixon_module_upgrade := fun x _ => (1, x, "")
  xml_bind_yang := fun x _ => (0, x)
  xml_sort := fun x => (0, x)
  xml_yang_validate_all_top := fun _ => (1, none)
  xml_yang_validate_add := fun _ _ => (1, none)
  xml_diff := fun _ _ _ => ⟨0, [], [], []⟩
  plugin_rc := fun _ _ => 0
  plugin_edit := fun _ _ x => x
  netconf_lock_denied := fun info msg =>
    "<rpc-reply><rpc-error><error-tag>lock-denied</error-tag><error-info>" ++ info ++
      "</error-info><error-message>" ++ msg ++ "</error-message></rpc-error></rpc-reply>"
  netconf_operation_failed := fun type msg =>
    "<rpc-reply><rpc-error><error-type>" ++ type ++
      "</error-type><error-tag>operation-failed</error-tag><error-message>" ++ msg ++
      "</error-message></rpc-error></rpc-reply>"
  netconf_missing_element := fun type elem =>
    "<rpc-reply><rpc-error><error-type>" ++ type ++
      "</error-type><error-tag>missing-element</error-tag><error-info><bad-element>" ++ elem ++
      "</bad-element></error-info></rpc-error></rpc-reply>"
  netconf_missing_element_xml := fun _ elem msg =>
    .mk "rpc-error" .CX_ELMNT 0 none "" [.mk "bad-element" .CX_BODY 0 none elem [],
      .mk "error-message" .CX_BODY 0 none msg []]
  clicon_xml2cbuf := fun x => "<" ++ xml_name x ++ "/>"
  netconf_db_find := fun _ _ => some "candidate"

/-- A configuration tree with one leaf `name` holding `value`. -/
def tree_leaf (name value : String) : cxobj :=
  .mk "config" .CX_ELMNT 0 none ""
    [.mk name .CX_ELMNT 0 none "" [.mk "body" .CX_BODY 0 none value []]]

/-- A world in which candidate holds mtu 9000, running and startup hold mtu 1500, no
datastore is locked and nothing is logged. -/
def world0 : World where
  dbs := fun n =>
    if n = "candidate" then some (tree_leaf "mtu" "9000")
    else if n = "running" then some (tree_leaf "mtu" "1500")
    else if n = "startup" then some (tree_leaf "mtu" "1500")
    else none
  locks := fun _ => 0
  cbret := ""
  clicon_err_reason := ""
  trace := []

/-- The world `world0` with running locked by session 7. -/
def world_locked : World :=
  { world0 with locks := fun n => if n = "running" then 7 else 0 }

/-- An environment like `env_ok` in which the plugin validate callback fails. -/
def env_veto : Env :=
  { env_ok with
    plugin_rc := fun ph _ => if ph = .TR_VALIDATE then -1 else 0 }

/-- An environment like `env_ok` in which every datastore read fails. -/
def env_read_fails : Env :=
  { env_ok with xmldb_get0_rc := fun _ => -1 }

/-- An environment like `env_ok` with the write-back option set, a plugin commit
callback that rewrites the target, and a copy onto running that fails. -/
def env_writeback_copy_fails : Env :=
  { env_ok with
    clicon_option_bool := fun o => decide (o = "CLICON_TRANSACTION_MOD")
    plugin_edit := fun ph _ x => if ph = .TR_COMMIT then tree_leaf "mtu" "1400" else x
    xmldb_copy_rc := fun _ _ => -1 }

/-- An environment like `env_ok` in which the validation of the whole target ends with
an error. -/
def env_validate_error : Env :=
  { env_ok with xml_yang_validate_all_top := fun _ => (-1, none) }

/-- A schema node of a mandatory config leaf inside a container. -/
def yang_mandatory_leaf : yang_stmt :=
  .mk .Y_LEAF 1 1 (some (.mk .Y_CONTAINER 0 1 (some (.mk .Y_MODULE 0 1 none))))

/-- A transaction that deletes the mandatory leaf `mtu` of the source tree. -/
def td_delete_mandatory : transaction_data_t where
  td_src := some (.mk "config" .CX_ELMNT 0 none ""
    [.mk "mtu" .CX_ELMNT 0 (some yang_mandatory_leaf) "" []])
  td_target := some xml_empty_config
  td_dvec := [[0]]
  td_dlen := 1
  td_avec := []
  td_alen := 0
  td_scvec := []
  td_tcvec := []
  td_clen := 0

/-- The world `world0` with an empty startup datastore. -/
def world_empty_startup : World :=
  world0.setdb "startup" (some xml_empty_config)

/-- An environment like `env_ok` with the write-back option set. -/
def env_writeback : Env :=
  { env_ok with clicon_option_bool := fun o => decide (o = "CLICON_TRANSACTION_MOD") }

/-- A startup tree with an interface container that holds a mandatory leaf, and an
attribute on the root. -/
def tree_startup : cxobj :=
  .mk "config" .CX_ELMNT 0 none ""
    [.mk "xmlns" .CX_ATTR 0 none "urn:example" [],
     .mk "iface" .CX_ELMNT 0 none ""
       [.mk "mtu" .CX_ELMNT 0 (some yang_mandatory_leaf) ""
         [.mk "body" .CX_BODY 0 none "1500" []]]]

/-- The world `world0` with the startup datastore holding `tree_startup`. -/
def world_startup : World :=
  world0.setdb "startup" (some tree_startup)

/-- A running tree whose leaf `mtu` carries a stale ADD flag. -/
def tree_stale_add : cxobj :=
  .mk "config" .CX_ELMNT 0 none "" [.mk "mtu" .CX_ELMNT XML_FLAG_ADD none "" []]

/-- The world `world0` with an empty candidate and with running holding
`tree_stale_add`. -/
def world_stale_add : World :=
  (world0.setdb "running" (some tree_stale_add)).setdb "candidate" (some xml_empty_config)

/-- An environment like `env_ok` in which the differ reports the first child of the
source root as deleted. -/
def env_deleted : Env :=
  { env_ok with xml_diff := fun _ _ _ => ⟨0, [[0]], [], []⟩ }

/-- The error tree of a failed per-node validation. -/
def tree_bad_value : cxobj :=
  .mk "rpc-error" .CX_ELMNT 0 none "" [.mk "error-tag" .CX_BODY 0 none "bad-element" []]

/-- An environment like `env_ok` in which the per-node validation of every entry fails
with the error `tree_bad_value`. -/
def env_add_invalid : Env :=
  { env_ok with xml_yang_validate_add := fun _ _ => (0, some tree_bad_value) }

/-- A transaction that deletes the mandatory leaf `mtu` of the source tree and adds the
leaf `speed` to the target tree. -/
def td_add_delete_mandatory : transaction_data_t :=
  { td_delete_mandatory with
    td_target := some (tree_leaf "speed" "fast")
    td_avec := [[0]]
    td_alen := 1 }

/-- A transaction whose deleted vector holds the mandatory leaf `mtu`; the leaf and the
container above it carry the ADD flag. -/
def td_delete_added : transaction_data_t :=
  { td_delete_mandatory with
    td_src := some (.mk "config" .CX_ELMNT 0 none ""
      [.mk "iface" .CX_ELMNT XML_FLAG_ADD none ""
        [.mk "mtu" .CX_ELMNT XML_FLAG_ADD (some yang_mandatory_leaf) "" []]])
    td_dvec := [[0, 0]] }

/-- The transaction `td_delete_added` without the ADD flags. -/
def td_delete_plain : transaction_data_t :=
  { td_delete_mandatory with
    td_src := some (.mk "config" .CX_ELMNT 0 none ""
      [.mk "iface" .CX_ELMNT 0 none ""
        [.mk "mtu" .CX_ELMNT 0 (some yang_mandatory_leaf) "" []]])
    td_dvec := [[0, 0]] }

/-- An environment like `env_ok` in which `xmldb_get0_clear` fails. -/
def env_clear_fails : Env :=
  { env_ok with xmldb_get0_clear := fun x => (-1, x) }

/-- An environment like `env_writeback` in which the put to the candidate fails. -/
def env_writeback_put_fails : Env :=
  { env_writeback with xmldb_put_rc := fun _ _ => -1 }

/-- A configuration tree with one interface `eth0` whose leaf `mtu` holds `value`. -/
def tree_iface (value : String) : cxobj :=
  .mk "config" .CX_ELMNT 0 none ""
    [.mk "iface" .CX_ELMNT 0 none ""
      [.mk "name" .CX_ELMNT 0 none "" [.mk "body" .CX_BODY 0 none "eth0" []],
       .mk "mtu" .CX_ELMNT 0 none "" [.mk "body" .CX_BODY 0 none value []]]]

/-- A world in which candidate holds mtu 9000 and running holds mtu 1500, both below the
interface `eth0`. -/
def world_iface : World :=
  (world0.setdb "candidate" (some (tree_iface "9000"))).setdb "running"
    (some (tree_iface "1500"))

/-- An environment like `env_ok` in which the differ reports one changed pair, the leaf
`mtu` of the interface in either tree, and no added or deleted node. -/
def env_changed_mtu : Env :=
  { env_ok with xml_diff := fun _ _ _ => ⟨0, [], [], [([0, 1], [0, 1])]⟩ }

/-- An environment like `env_ok` in which the validation of the whole target fails with
the error `tree_bad_value`. -/
def env_validate_failed : Env :=
  { env_ok with xml_yang_validate_all_top := fun _ => (0, some tree_bad_value) }

/-! ## The client list (`clixon_backend_handle.c`) -/

/-- The value of a C `int` after an arithmetic result `n` is stored in it on a machine
with 32 bit two's complement integers. -/
def int32_wrap (n : Int) : Int := (n + 2 ^ 31) % 2 ^ 32 - 2 ^ 31

/-- An allocated `struct client_entry`: the address that `malloc` returned for it and
its fields.  The field `ce_next` is the position in the list. -/
structure client_cell where
  ptr : Nat
  ce : client_entry

/-- The backend specific part of the handle (`struct backend_handle`): the client list,
from its head on, and the client counter. -/
structure backend_handle where
  bh_ce_list : List client_cell
  bh_ce_nr : Int

/-- Modelled from the spec: the handle that `backend_handle_init` returns: the library's
`clicon_handle_init0` gives a zeroed structure. -/
def backend_handle_init : backend_handle where
  bh_ce_list := []
  bh_ce_nr := 0

/-- The function `backend_client_add(h, addr)`, where `malloc` returned the address
`ptr`: the new entry is zeroed, numbered with the counter, and put at the head of the
list; the counter is incremented.  Returns the new entry and the handle. -/
def backend_client_add (h : backend_handle) (ptr : Nat) : client_cell × backend_handle :=
  let ce : client_cell := { ptr := ptr, ce := { ce_nr := h.bh_ce_nr, ce_id := 0 } }
  (ce, { bh_ce_list := ce :: h.bh_ce_list, bh_ce_nr := int32_wrap (h.bh_ce_nr + 1) })

/-- The function `backend_client_list(h)`: the head of the client list, `none` for
`NULL`. -/
def backend_client_list (h : backend_handle) : Option Nat :=
  h.bh_ce_list.head?.map client_cell.ptr

/-- The loop of `backend_client_delete` over the list: the first entry whose address is
`ce` is unlinked and the loop ends. -/
def backend_client_delete_loop (ce : Nat) : List client_cell → List client_cell
  | [] => []
  | c :: rest => if c.ptr = ce then rest else c :: backend_client_delete_loop ce rest

/-- The function `backend_client_delete(h, ce)`. -/
def backend_client_delete (h : backend_handle) (ce : Nat) : backend_handle :=
  { h with bh_ce_list := backend_client_delete_loop ce h.bh_ce_list }

/-- The loop `while ((ce = backend_client_list(h)) != NULL) backend_client_delete(h, ce)`
of `backend_handle_exit`, run for at most `fuel` turns: the handle when the loop is
left, `none` if it is not left within `fuel` turns. -/
def backend_handle_exit_loop : Nat → backend_handle → Option backend_handle
  | 0, _ => none
  | fuel + 1, h =>
    match backend_client_list h with
    | none => some h
    | some ce => backend_handle_exit_loop fuel (backend_client_delete h ce)

/-- A request to the client list: a new client whose entry `malloc` puts at `ptr`, or
the removal of the entry at `ce`. -/
inductive client_request where
  | add (ptr : Nat)
  | delete (ce : Nat)

/-- The handle after a sequence of requests, and the numbers given to the new clients,
in the order of the requests. -/
def client_requests : List client_request → backend_handle → backend_handle × List Int
  | [], h => (h, [])
  | .add ptr :: rest, h =>
    let a := backend_client_add h ptr
    let r := client_requests rest a.2
    (r.1, a.1.ce.ce_nr :: r.2)
  | .delete ce :: rest, h => client_requests rest (backend_client_delete h ce)

/-- The number of new clients in a sequence of requests. -/
def client_adds : List client_request → Nat
  | [] => 0
  | .add _ :: rest => client_adds rest + 1
  | .delete _ :: rest => client_adds rest

/-- The requests of `n` clients that connect and disconnect one after the other; each
entry is allocated at address 100, free again after the delete. -/
def client_churn : Nat → List client_request
  | 0 => []
  | n + 1 => .add 100 :: .delete 100 :: client_churn n


/-! ## Appending a path to a path (`cli_show.c`) -/

/-- Modelled from the spec: the library's `clicon_strsep(string, delim, &nvec)`: the
pieces of `string` between the characters of `delim`, in order; `n` delimiters give
`n + 1` pieces, some of which may be empty. -/
def clicon_strsep (delim : List Char) : List Char → List (List Char)
  | [] => [[]]
  | c :: rest =>
    if c ∈ delim then [] :: clicon_strsep delim rest
    else
      match clicon_strsep delim rest with
      | [] => [[c]]
      | v :: vs => (c :: v) :: vs

/-- Modelled from the spec: the library's `nodeid_split(nodeid, &prefix, &id)`: a node
identifier with a colon is cut at its first colon into prefix and id; one without a
colon has no prefix (`NULL`) and is the id. -/
def nodeid_split (nodeid : List Char) : Option (List Char) × List Char :=
  if ':' ∈ nodeid then
    (some (nodeid.takeWhile (fun c => c != ':')),
      (nodeid.dropWhile (fun c => c != ':')).drop 1)
  else (none, nodeid)

/-- Modelled from the spec: cligen's `cbuf_trunc(cb, i)`: a buffer longer than `i` is
cut to its first `i` characters. -/
def cbuf_trunc (cb : List Char) (i : Nat) : List Char :=
  if i < cb.length then cb.take i else cb

/-- The loop `for (j=cbuf_len(cb0); j >= 0; j--)` of `xpath_append` ("Subtract from
xpath0"), entered at index `j`: the buffer is cut at the last `/` at or before `j`; a
buffer without one is left as it is.  Index `cbuf_len(cb0)` holds the terminator. -/
def xpath_append_subtract (cb0 : List Char) : Nat → List Char
  | 0 => if cb0[0]? = some '/' then cbuf_trunc cb0 0 else cb0
  | j + 1 =>
    if cb0[j + 1]? = some '/' then cbuf_trunc cb0 (j + 1)
    else xpath_append_subtract cb0 j

/-- The loop of `xpath_append` over the pieces of the second path, with the flag
`initialups` and the buffer as they stand. -/
def xpath_append_loop (mypfx : List Char) : List (List Char) → Bool → List Char → List Char
  | [], _, cb0 => cb0
  | v :: rest, initialups, cb0 =>
    if v.length = 0 then xpath_append_loop mypfx rest initialups cb0
    else
      let s := nodeid_split v
      if s.2 = ['.'] then xpath_append_loop mypfx rest false cb0
      else if s.2 = ['.', '.'] then
        if initialups then
          /- Subtract from xpath0 -/
          xpath_append_loop mypfx rest initialups (xpath_append_subtract cb0 cb0.length)
        else xpath_append_loop mypfx rest false (cb0 ++ '/' :: s.2)
      else
        xpath_append_loop mypfx rest false (cb0 ++ '/' :: (s.1.getD mypfx ++ ':' :: s.2))

/-- The function `xpath_append(cb0, xpath1, y, nsc)`: return value and buffer.  The
argument `mypfx` is what the library's `yang_find_myprefix(y)` returns for the node
`y`: the prefix of its module, `none` for `NULL`. -/
def xpath_append (cb0 : Option (List Char)) (xpath1 : Option (List Char))
    (mypfx : Option (List Char)) : Int × Option (List Char) :=
  match cb0 with
  | none => (-1, none)
  | some cb =>
    match xpath1 with
    | none => (0, some cb)
    | some x1 =>
      if x1.length = 0 then (0, some cb)
      else
        match mypfx with
        | none => (-1, some cb)
        | some mp =>
          let vec := clicon_strsep ['/'] x1
          let cb1 := if x1.head? = some '/' then [] else cb
          (0, some (xpath_append_loop mp vec true cb1))

/-- The text `/s1/.../sn` of an absolute path with the segments `s1` ... `sn`. -/
def xpath_of_segments (segs : List (List Char)) : List Char :=
  segs.flatMap (fun s => '/' :: s)

/-- The pieces of a path joined with `/`. -/
def xpath_join : List (List Char) → List Char
  | [] => []
  | [v] => v
  | v :: w :: rest => v ++ '/' :: xpath_join (w :: rest)

/-- The text of a step with its prefix, if it has one: `p:id` or `id`. -/
def step_text (r : Option (List Char) × List Char) : List Char :=
  match r.1 with
  | some p => p ++ ':' :: r.2
  | none => r.2

/-- A step that names a node: its id is not `.` or `..`, neither prefix nor id holds a
`/`, the prefix holds no `:`, and a step without prefix is a non-empty id without `:`. -/
def step_names_node (r : Option (List Char) × List Char) : Prop :=
  '/' ∉ r.2 ∧ r.2 ≠ ['.'] ∧ r.2 ≠ ['.', '.'] ∧
    match r.1 with
    | some p => '/' ∉ p ∧ ':' ∉ p
    | none => ':' ∉ r.2 ∧ r.2 ≠ []

/-- The text of a relative path: `k` segments `..` followed by the steps. -/
def xpath_relative (k : Nat) (steps : List (Option (List Char) × List Char)) : List Char :=
  xpath_join (List.replicate k ['.', '.'] ++ steps.map step_text)

/-! ## The HTTP/2 front end (`restconf_nghttp2.c`) -/

/-- Modelled from the spec: the stream data of a request (`restconf_stream_data` of the
restconf library), as far as `restconf_nghttp2.c` reads and writes it: status code,
request path, protocol, reply headers in the order they were added, reply body, its
length, and the offset of the next byte to send.  The body is a byte buffer, `none` for
`NULL`. -/
structure restconf_stream_data where
  sd_code : Int
  sd_path : Option String
  sd_proto : Nat
  sd_outp_hdrs : List (String × String)
  sd_body : Option (List Nat)
  sd_body_len : Nat
  sd_body_offset : Nat

/-- The value of `NGHTTP2_DATA_FLAG_EOF` in `nghttp2.h`. -/
def NGHTTP2_DATA_FLAG_EOF : Nat := 0x01

/-- Modelled from the spec: the value of `HTTP_2` in the protocol enumeration of the
restconf library. -/
def HTTP_2 : Nat := 2

/-- Modelled from the spec: the path of the host meta-data resource
(`RESTCONF_WELL_KNOWN` of the restconf library). -/
def RESTCONF_WELL_KNOWN : String := "/.well-known/host-meta"

/-- The function `restconf_sd_read(session, stream_id, buf, length, data_flags, source,
user_data)` on the stream data `sd`: the return value, the bytes copied to `buf`, the
flag word and the stream data afterwards.  `none` stands for the abort of the process by
the failed assertion `cbuf_len(cb) > sd->sd_body_offset`. -/
def restconf_sd_read (length : Nat) (data_flags : Nat) (sd : restconf_stream_data) :
    Option (Nat × List Nat × Nat × restconf_stream_data) :=
  match sd.sd_body with
  | none =>
    /- shouldnt happen -/
    some (0, [], data_flags ||| NGHTTP2_DATA_FLAG_EOF, sd)
  | some cb =>
    if cb.length > sd.sd_body_offset then
      let remain := cb.length - sd.sd_body_offset
      let len := if remain ≤ length then remain else length
      let flags := if remain ≤ length then data_flags ||| NGHTTP2_DATA_FLAG_EOF else data_flags
      some (len, (cb.drop sd.sd_body_offset).take len, flags,
        { sd with sd_body_offset := sd.sd_body_offset + len })
    else none

/-- The calls of `restconf_sd_read` that the sender of one response makes: one call for
each buffer length of the list, each with a cleared flag word, until a call sets the EOF
flag.  The result lists, call by call, the bytes delivered and the flag word; `none`
if the assertion of a call failed. -/
def restconf_sd_read_calls : List Nat → restconf_stream_data → Option (List (List Nat × Nat))
  | [], _ => some []
  | length :: rest, sd =>
    match restconf_sd_read length 0 sd with
    | none => none
    | some r =>
      if r.2.2.1 &&& NGHTTP2_DATA_FLAG_EOF ≠ 0 then some [(r.2.1, r.2.2.1)]
      else (restconf_sd_read_calls rest r.2.2.2).map (fun k => (r.2.1, r.2.2.1) :: k)

/-- A stream with a body of five bytes and nothing sent. -/
def sd_five_bytes : restconf_stream_data where
  sd_code := 200
  sd_path := some "/restconf/data"
  sd_proto := HTTP_2
  sd_outp_hdrs := []
  sd_body := some [104, 101, 108, 108, 111]
  sd_body_len := 5
  sd_body_offset := 0

/-- The restconf library, the TLS layer and the connection behind a request, as far as
`restconf_nghttp2_path` and `http2_exec` call them: every field is the outcome of the
call of that name.  `rc_h` and `rc_ssl` tell whether the pointers of the connection are
set, `restconf_connection_sanity` also gives `rc_exit` as it stands after the call, and
`restconf_param_del_all` is given the place of the call (0: in `restconf_nghttp2_path`,
1: in `http2_exec`), so that the two calls of one request may end differently. -/
structure restconf_env where
  rc_h : Bool
  rc_ssl : Bool
  restconf_uripath : Option String
  api_path_is_restconf : Bool
  api_path_is_data : Bool
  ssl_x509_name_oneline : Int × Option String
  uri_str2cvec : String → Int × Option String
  restconf_param_set : String → String → Int
  restconf_connection_sanity : restconf_stream_data → Int × restconf_stream_data × Bool
  api_well_known : restconf_stream_data → Int × restconf_stream_data
  api_root_restconf : restconf_stream_data → Int × restconf_stream_data
  api_http_data : restconf_stream_data → Int × restconf_stream_data
  restconf_param_del_all : Nat → Int
  restconf_reply_header : restconf_stream_data → String → String → Int
  nghttp2_submit_response : List (String × String) → Int

/-- The first part of `restconf_nghttp2_path`: the subject of the client certificate is
added to the request parameters.  The value is -1 where the C text leaves through
`goto done`. -/
def restconf_nghttp2_path_ssl (env : restconf_env) : Int :=
  if env.rc_ssl then
    if env.ssl_x509_name_oneline.1 < 0 then -1
    else
      match env.ssl_x509_name_oneline.2 with
      | none => 0
      | some oneline =>
        if (env.uri_str2cvec oneline).1 < 0 then -1
        else
          match (env.uri_str2cvec oneline).2 with
          | none => 0
          | some cn => if env.restconf_param_set "SSL_CN" cn < 0 then -1 else 0
  else 0

/-- The matching algorithm of `restconf_nghttp2_path`: well-known, then `/restconf`,
then `/data`, and the restconf handler for anything else. -/
def restconf_nghttp2_path_match (env : restconf_env) (sd : restconf_stream_data) :
    Int × restconf_stream_data :=
  if sd.sd_path = some RESTCONF_WELL_KNOWN then env.api_well_known sd
  else if env.api_path_is_restconf then env.api_root_restconf sd
  else if env.api_path_is_data then env.api_http_data sd
  else env.api_root_restconf sd

/-- The function `restconf_nghttp2_path(sd)`: return value and stream data. -/
def restconf_nghttp2_path (env : restconf_env) (sd : restconf_stream_data) :
    Int × restconf_stream_data :=
  if env.rc_h = false then (-1, sd)
  else if restconf_nghttp2_path_ssl env < 0 then (-1, sd)
  else
    /- Check sanity of session, eg ssl client cert validation, may set rc_exit -/
    let s := env.restconf_connection_sanity sd
    if s.1 < 0 then (-1, s.2.1)
    else
      let r := if s.2.2 = false then restconf_nghttp2_path_match env s.2.1 else (0, s.2.1)
      if r.1 < 0 then (-1, r.2)
      /- Clear (fcgi) paramaters from this request -/
      else if env.restconf_param_del_all 0 < 0 then (-1, r.2)
      else (0, r.2)

/-- Modelled from the spec: the library's `restconf_reply_header(sd, name, fmt, ...)`:
appends the header to the reply headers of the stream; a failed call appends nothing. -/
def restconf_reply_header (env : restconf_env) (sd : restconf_stream_data)
    (name value : String) : Int × restconf_stream_data :=
  (env.restconf_reply_header sd name value,
    if env.restconf_reply_header sd name value < 0 then sd
    else { sd with sd_outp_hdrs := sd.sd_outp_hdrs ++ [(name, value)] })

/-- The header list that `restconf_submit_response` builds: `:status` with the status
code printed by `%u`, then the reply headers of the stream in their order. -/
def response_headers (sd : restconf_stream_data) : List (String × String) :=
  (":status", Nat.repr (sd.sd_code % 2 ^ 32).toNat) :: sd.sd_outp_hdrs

/-- The function `restconf_submit_response(session, rc, stream_id, sd)`: return value
and the response handed to `nghttp2_submit_response`, if that call succeeded. -/
def restconf_submit_response (env : restconf_env) (sd : restconf_stream_data) :
    Int × Option (List (String × String)) :=
  if env.nghttp2_submit_response (response_headers sd) < 0 then (-1, none)
  else (0, some (response_headers sd))

/-- The first part of `http2_exec`: the path of the request is stored and the request is
handed to `restconf_nghttp2_path`, or answered with 404.  A negative value stands for
`goto done`. -/
def http2_exec_route (env : restconf_env) (sd : restconf_stream_data) :
    Int × restconf_stream_data :=
  match env.restconf_uripath with
  | none => (-1, { sd with sd_path := none })
  | some path =>
    let sd1 := { sd with sd_path := some path, sd_proto := HTTP_2 }
    if path = RESTCONF_WELL_KNOWN ∨ env.api_path_is_restconf = true ∨
        env.api_path_is_data = true then
      (if (restconf_nghttp2_path env sd1).1 < 0 then -1 else 0, (restconf_nghttp2_path env sd1).2)
    else
      /- not found -/
      (0, { sd1 with sd_code := 404 })

/-- The second part of `http2_exec`, from the clearing of the parameters on: the
Content-Length header ("If body, add a content-length header") and the submission of the
response.  Return value, stream data, and the response submitted, if any. -/
def http2_exec_reply (env : restconf_env) (sd : restconf_stream_data) :
    Int × restconf_stream_data × Option (List (String × String)) :=
  if env.restconf_param_del_all 1 < 0 then (-1, sd, none)
  else
    let hd :=
      if sd.sd_code ≠ 204 ∧ sd.sd_code > 199 ∧ sd.sd_body_len ≠ 0 then
        restconf_reply_header env sd "Content-Length" (Nat.repr sd.sd_body_len)
      else (0, sd)
    if hd.1 < 0 then (-1, hd.2, none)
    else if hd.2.sd_code ≠ 0 then
      let r := restconf_submit_response env hd.2
      if r.1 < 0 then (-1, hd.2, none) else (0, hd.2, r.2)
    else
      /- 500 Internal server error ? -/
      (0, hd.2, none)

/-- The function `http2_exec(rc, sd, session, stream_id)`: return value, stream data,
and the response submitted, if any. -/
def http2_exec (env : restconf_env) (sd : restconf_stream_data) :
    Int × restconf_stream_data × Option (List (String × String)) :=
  let r := http2_exec_route env sd
  if r.1 < 0 then (-1, r.2, none) else http2_exec_reply env r.2

/-- The condition under which a response gets a Content-Length header: the status code
is greater than 199 and is not 204, and the body length is not 0. -/
def content_length_due (sd : restconf_stream_data) : Prop :=
  sd.sd_code > 199 ∧ sd.sd_code ≠ 204 ∧ sd.sd_body_len ≠ 0

/-- A restconf library in which every call succeeds; the request path is `/nowhere`,
which is neither a restconf path nor a data path; the restconf handler answers 200 with
a body of five bytes. -/
def restconf_env_ok : restconf_env where
  rc_h := true
  rc_ssl := false
  restconf_uripath := some "/nowhere"
  api_path_is_restconf := false
  api_path_is_data := false
  ssl_x509_name_oneline := (0, none)
  uri_str2cvec := fun _ => (0, none)
  restconf_param_set := fun _ _ => 0
  restconf_connection_sanity := fun sd => (0, sd, false)
  api_well_known := fun sd => (0, sd)
  api_root_restconf := fun sd =>
    (0, { sd with sd_code := 200, sd_body := some [104, 101, 108, 108, 111], sd_body_len := 5,
                  sd_body_offset := 0 })
  api_http_data := fun sd => (0, sd)
  restconf_param_del_all := fun _ => 0
  restconf_reply_header := fun _ _ _ => 0
  nghttp2_submit_response := fun _ => 0

/-- The library `restconf_env_ok` for a request with the path `/restconf/data`. -/
def restconf_env_data : restconf_env :=
  { restconf_env_ok with
    restconf_uripath := some "/restconf/data"
    api_path_is_restconf := true }

/-- A stream on which nothing was received or sent. -/
def sd_new : restconf_stream_data where
  sd_code := 0
  sd_path := none
  sd_proto := 0
  sd_outp_hdrs := []
  sd_body := none
  sd_body_len := 0
  sd_body_offset := 0

/-! ## The prompt (`cli_plugin.c`) -/

/-- The terminator of a C string. -/
def NUL : Char := Char.ofNat 0

/-- The characters of a C string that is stored in the given bytes: the bytes before the
first terminator. -/
def c_string (bytes : List Char) : List Char :=
  bytes.takeWhile (fun c => c != NUL)

/-- What a C program reads at index `i` of the string `s`: a character of the string,
the terminator at index `strlen(s)`; an index beyond the terminator is outside the
string (`none`). -/
def c_string_at (s : List Char) (i : Nat) : Option Char :=
  if i < s.length then s[i]?
  else if i = s.length then some NUL
  else none

/-- What the system calls of `prompt_fmt` return.  `gethostname`: the return value and
the string that the array `hname` holds after the call.  `getenv_USER`: the value of the
environment variable `USER`, `none` for `NULL`.  `ttyname_r`: the return value and the
string that the array `tty` holds after the call; the array is not initialised, so after a
failed call the string is whatever the stack held.  POSIX gives `ttyname_r` the return
value 0 on success and a positive error number on failure. -/
structure prompt_env where
  gethostname : Int × List Char
  getenv_USER : Option (List Char)
  ttyname_r : Int × List Char

/-- The `switch(*s)` of `prompt_fmt`: the text printed for the character after a `%`.
`unknown` is printed when `gethostname(...) != 0`, `nobody` when `USER` is not set, and
`notty` when `ttyname_r(...) < 0`; otherwise the array is printed as the call left it. -/
def prompt_fmt_switch (env : prompt_env) (c : Char) : List Char :=
  if c = 'H' then (if env.gethostname.1 ≠ 0 then "unknown".toList else env.gethostname.2)
  else if c = 'U' then env.getenv_USER.getD "nobody".toList
  else if c = 'T' then (if env.ttyname_r.1 < 0 then "notty".toList else env.ttyname_r.2)
  else ['%', c]

/-- How the scan loop of `prompt_fmt` ends: it leaves the loop at a terminator with the
text `cb`; or it reads index `pos`, which lies beyond the terminator of the format, with
the text `cb` printed so far; or the model ran out of steps. -/
inductive scan_result where
  | done (cb : List Char)
  | out_of_bounds (pos : Nat) (cb : List Char)
  | out_of_fuel
  deriving DecidableEq, Repr

/-- The loop `while(*s)` of `prompt_fmt` with the pointer `s` at index `s` of the format
and the text `cb` printed so far.  The test `*s == '%' && *++s` advances the pointer
before it reads the next character, also when that character is the terminator; the
`else` branch then prints the character under the pointer, and `s++` follows. -/
def prompt_fmt_loop (env : prompt_env) (fmt : List Char) : Nat → Nat → List Char → scan_result
  | 0, _, _ => .out_of_fuel
  | fuel + 1, s, cb =>
    match c_string_at fmt s with
    | none => .out_of_bounds s cb
    | some c =>
      if c = NUL then .done cb
      else if c = '%' then
        match c_string_at fmt (s + 1) with
        | none => .out_of_bounds (s + 1) cb
        | some c1 =>
          if c1 ≠ NUL then prompt_fmt_loop env fmt fuel (s + 2) (cb ++ prompt_fmt_switch env c1)
          else prompt_fmt_loop env fmt fuel (s + 2) (cb ++ [c1])
      else prompt_fmt_loop env fmt fuel (s + 1) (cb ++ [c])

/-- The scan of `prompt_fmt` over the format `fmt`, from its first character and with
an empty text.  Every turn of the loop advances the pointer, so `strlen(fmt) + 2` turns
are enough to see how the loop ends. -/
def prompt_fmt_scan (env : prompt_env) (fmt : List Char) : scan_result :=
  prompt_fmt_loop env fmt (fmt.length + 2) 0 []

/-- The text that the scan loop prints for a format: for `%H`, `%U` and `%T` what
`prompt_fmt_switch` gives, any other `%c` as the two characters, every other character
as it is. -/
def prompt_text (env : prompt_env) : List Char → List Char
  | [] => []
  | [c] => [c]
  | c :: d :: rest =>
    if c = '%' then prompt_fmt_switch env d ++ prompt_text env rest
    else c :: prompt_text env (d :: rest)

/-- Whether the last character of a format is a `%` that is not the second character of
an escape. -/
def prompt_dangling : List Char → Bool
  | [] => false
  | [c] => c = '%'
  | c :: d :: rest => if c = '%' then prompt_dangling rest else prompt_dangling (d :: rest)

/-- The text that the C library's `printf` family makes of a format when the argument
list is empty: `%%` gives `%`, every character outside a conversion is copied, and any
other conversion has no argument to read, which the C standard leaves undefined
(`none`). -/
def printf_no_args : List Char → Option (List Char)
  | [] => some []
  | [c] => if c = '%' then none else some [c]
  | c :: d :: rest =>
    if c = '%' then
      if d = '%' then (printf_no_args rest).map (fun t => '%' :: t) else none
    else (printf_no_args (d :: rest)).map (fun t => c :: t)

/-- The call `vsnprintf(prompt, plen, fmt, ap)` of the C library with an empty argument
list: the return value (the length of the whole text, -1 if it does not fit an `int`)
and the string left in `prompt`, which holds at most `plen - 1` characters.  The format
is the C string that the buffer holds.  `none`: the behaviour is undefined. -/
def vsnprintf_no_args (plen : Nat) (fmt : List Char) : Option (Int × List Char) :=
  (printf_no_args (c_string fmt)).map (fun t =>
    (if t.length < 2 ^ 31 then (t.length : Int) else -1,
      if plen = 0 then [] else t.take (plen - 1)))

/-- The function `prompt_fmt(prompt, plen, fmt)` as `cli_prompt` calls it, without
further arguments: the scan loop builds a text in a `cbuf`, and that text is then handed
to `vsnprintf` as its format.  Return value and prompt; `none` where the behaviour is
undefined (a read outside the format, a conversion without argument). -/
def prompt_fmt (env : prompt_env) (plen : Nat) (fmt : List Char) : Option (Int × List Char) :=
  match prompt_fmt_scan env fmt with
  | .done cb => vsnprintf_no_args plen cb
  | .out_of_bounds _ _ => none
  | .out_of_fuel => none

/-- The function `cli_prompt(fmt)`; the length `CLI_PROMPT_LEN` of the static array and
the text `CLI_DEFAULT_PROMPT` are macros of a header outside the sources and are
arguments here. -/
def cli_prompt (env : prompt_env) (CLI_PROMPT_LEN : Nat) (CLI_DEFAULT_PROMPT : List Char)
    (fmt : List Char) : Option (List Char) :=
  (prompt_fmt env CLI_PROMPT_LEN fmt).map (fun r => if r.1 < 0 then CLI_DEFAULT_PROMPT else r.2)

/-- An environment with host `r1`, user `admin` and a terminal `/dev/pts/0`. -/
def prompt_env_r1 : prompt_env where
  gethostname := (0, "r1".toList)
  getenv_USER := some "admin".toList
  ttyname_r := (0, "/dev/pts/0".toList)

/-- The environment `prompt_env_r1` without a terminal on standard input: `ttyname_r`
returns `ENOTTY` (25) and leaves the array as it was, here holding the stale characters
`stale`. -/
def prompt_env_no_tty : prompt_env :=
  { prompt_env_r1 with ttyname_r := (25, "stale".toList) }

/-! ## Runs and their paths -/

theorem replay_append (e1 e2 : List Event) (d : String → Option cxobj) :
    replay (e1 ++ e2) d = replay e2 (replay e1 d) := by
  induction e1 generalizing d with
  | nil => rfl
  | cons e rest ih => simp [replay, ih]

theorem labels_append (e1 e2 : List Event) : labels (e1 ++ e2) = labels e1 ++ labels e2 := by
  simp [labels]

theorem Run.of_drop {w w1 : World} {ret : Int} {P : List (Int × List Label)}
    (h1 : w1.trace = w.trace ++ run_events w w1)
    (h2 : w1.dbs = replay (run_events w w1) w.dbs)
    (h3 : w1.locks = w.locks)
    (h4 : (ret, labels (run_events w w1)) ∈ P) : Run w ret w1 P :=
  ⟨_, h1, h2, h3, h4⟩

theorem Run.events {w w1 : World} {ret : Int} {P : List (Int × List Label)}
    (h : Run w ret w1 P) :
    w1.trace = w.trace ++ run_events w w1 ∧ w1.dbs = replay (run_events w w1) w.dbs ∧
      w1.locks = w.locks ∧ (ret, labels (run_events w w1)) ∈ P := by
  obtain ⟨evs, h1, h2, h3, h4⟩ := h
  have : run_events w w1 = evs := by simp [run_events, h1]
  rw [this]
  exact ⟨h1, h2, h3, h4⟩

theorem Run.seq {w w0 w1 : World} {r0 r1 : Int} {P : List (Int × List Label)}
    {k : Int → List (Int × List Label)}
    (h0 : Run w r0 w0 P) (h1 : Run w0 r1 w1 (k r0)) : Run w r1 w1 (paths_seq P k) := by
  obtain ⟨e0, a0, b0, c0, d0⟩ := h0
  obtain ⟨e1, a1, b1, c1, d1⟩ := h1
  refine ⟨e0 ++ e1, ?_, ?_, ?_, ?_⟩
  · rw [a1, a0, List.append_assoc]
  · rw [b1, b0, replay_append]
  · rw [c1, c0]
  · simp only [paths_seq, List.mem_flatMap, List.mem_map]
    exact ⟨(r0, labels e0), d0, (r1, labels e1), d1, by simp [labels_append]⟩

theorem Run.after {w w0 w1 : World} {ret : Int} {P : List (Int × List Label)}
    {pre : List Label}
    (h : Run w0 ret w1 P)
    (h1 : w0.trace = w.trace ++ run_events w w0)
    (h2 : w0.dbs = replay (run_events w w0) w.dbs)
    (h3 : w0.locks = w.locks)
    (h4 : labels (run_events w w0) = pre) : Run w ret w1 (paths_after pre P) := by
  obtain ⟨e1, a1, b1, c1, d1⟩ := h
  refine ⟨run_events w w0 ++ e1, ?_, ?_, ?_, ?_⟩
  · rw [a1, ← List.append_assoc, ← h1]
  · rw [b1, h2, replay_append]
  · rw [c1, h3]
  · simp only [paths_after, List.mem_map]
    exact ⟨(ret, labels e1), d1, by simp [labels_append, h4]⟩

theorem Run.mono {w w1 : World} {ret : Int} {P Q : List (Int × List Label)}
    (h : Run w ret w1 P) (hPQ : ∀ p ∈ P, p ∈ Q) : Run w ret w1 Q := by
  obtain ⟨e, a, b, c, d⟩ := h
  exact ⟨e, a, b, c, hPQ _ d⟩

theorem Run.check {w w1 : World} {ret : Int} {P : List (Int × List Label)}
    (pred : Int × List Label → Bool) (hP : P.all pred = true) (h : Run w ret w1 P) :
    pred (ret, labels (run_events w w1)) = true :=
  List.all_eq_true.1 hP _ h.events.2.2.2

theorem paths_after_nil (P : List (Int × List Label)) : paths_after [] P = P := by
  simp [paths_after]

theorem clicon_xml2cbuf_trace (env : Env) (xret : Option cxobj) (w : World) :
    (clicon_xml2cbuf env xret w).trace = w.trace := by
  cases xret <;> rfl

theorem clicon_xml2cbuf_dbs (env : Env) (xret : Option cxobj) (w : World) :
    (clicon_xml2cbuf env xret w).dbs = w.dbs := by
  cases xret <;> rfl

theorem clicon_xml2cbuf_locks (env : Env) (xret : Option cxobj) (w : World) :
    (clicon_xml2cbuf env xret w).locks = w.locks := by
  cases xret <;> rfl

theorem from_validate_common_phases_run (env : Env) (td : transaction_data_t)
    (xret : Option cxobj) (w : World) :
    Run w (from_validate_common_phases env td xret w).1
      (from_validate_common_phases env td xret w).2.2.2 phases_paths := by
  simp only [from_validate_common_phases, plugin_transaction, generic_validate, World.log]
  split_ifs <;> refine Run.of_drop ?_ ?_ ?_ ?_ <;>
    simp [run_events, phases_paths, labels, Event.label, res3.of, replay, Event.apply,
      trans_phase.tested, *]

theorem from_validate_common_run (env : Env) (candidate : String) (td : transaction_data_t)
    (xret : Option cxobj) (w : World) :
    Run w (from_validate_common env candidate td xret w).1
      (from_validate_common env candidate td xret w).2.2.2
      (from_validate_common_paths candidate) := by
  simp only [from_validate_common, xmldb_get0, World.log, World.clicon_err]
  cases hy : env.clicon_dbspec_yang with
  | none =>
    refine Run.of_drop ?_ ?_ ?_ ?_ <;>
      simp [run_events, from_validate_common_paths, labels, replay]
  | some yspec =>
    cases h1 : env.read w.dbs candidate with
    | none =>
      refine Run.of_drop ?_ ?_ ?_ ?_ <;>
        simp [run_events, from_validate_common_paths, labels, Event.label, replay, Event.apply]
    | some x =>
      cases h2 : env.read w.dbs "running" with
      | none =>
        simp only []
        split_ifs <;> refine Run.of_drop ?_ ?_ ?_ ?_ <;>
          simp [run_events, from_validate_common_paths, labels, Event.label, res3.of, replay,
            Event.apply, *]
      | some x2 =>
        simp only []
        split_ifs
        · refine Run.of_drop ?_ ?_ ?_ ?_ <;>
          simp [run_events, from_validate_common_paths, labels, Event.label, res3.of, replay,
            Event.apply, *]
        · refine Run.of_drop ?_ ?_ ?_ ?_ <;>
          simp [run_events, from_validate_common_paths, labels, Event.label, res3.of, replay,
            Event.apply, *]
        · refine Run.of_drop ?_ ?_ ?_ ?_ <;>
          simp [run_events, from_validate_common_paths, labels, Event.label, res3.of, replay,
            Event.apply, *]
        · refine Run.mono (Run.after (from_validate_common_phases_run env _ _ _)
            ?_ ?_ ?_ rfl) ?_
          · simp [run_events]
          · simp [run_events, replay, Event.apply]
          · simp
          · intro p hp
            refine List.mem_append_right _ ?_
            simpa [run_events, labels, Event.label, res3.of, *] using hp

theorem candidate_commit_done_run (env : Env) (ret : Int) (td : transaction_data_t)
    (w : World) :
    Run w (candidate_commit_done env ret td w).1 (candidate_commit_done env ret td w).2
      (done_paths ret 2) := by
  simp only [candidate_commit_done, plugin_transaction, transaction_free, xmldb_get0_free,
    World.log]
  split_ifs <;> refine Run.of_drop ?_ ?_ ?_ ?_ <;>
    simp [run_events, done_paths, labels, Event.label, replay, Event.apply, trans_phase.tested, *]

theorem candidate_commit_copy_run (env : Env) (candidate : String) (td : transaction_data_t)
    (w : World) :
    Run w (candidate_commit_copy env candidate td w).1
      (candidate_commit_copy env candidate td w).2
      (candidate_commit_copy_paths candidate) := by
  simp only [candidate_commit_copy, xmldb_copy, plugin_transaction, World.log]
  split_ifs with h <;>
    refine Run.mono (Run.after (candidate_commit_done_run env _ _ _) ?_ ?_ ?_ rfl) ?_ <;>
    first
    | (intro p hp
       simp [run_events, labels, Event.label, res3.of, World.setdb, trans_phase.tested, *] at hp
       simp [candidate_commit_copy_paths, hp])
    | simp [run_events, replay, Event.apply, World.setdb, *]

theorem candidate_commit_clear_run (env : Env) (candidate : String)
    (td : transaction_data_t) (w : World) :
    Run w (candidate_commit_clear env candidate td w).1
      (candidate_commit_clear env candidate td w).2
      (candidate_commit_clear_paths candidate
        (env.clicon_option_bool "CLICON_TRANSACTION_MOD")) := by
  simp only [candidate_commit_clear, xmldb_get0_clear, xmldb_put, World.log]
  split_ifs with h1 h2 hm h3 h4 <;>
    (first
      | refine Run.mono (Run.after (candidate_commit_done_run env _ _ _) ?_ ?_ ?_ rfl) ?_
      | refine Run.mono (Run.after (candidate_commit_copy_run env _ _ _) ?_ ?_ ?_ rfl) ?_) <;>
    first
    | (intro p hp
       simp [run_events, labels, Event.label, res3.of, World.setdb, World.cprintf,
         trans_phase.tested, *] at hp
       simp [candidate_commit_clear_paths, hp, *])
    | simp [run_events, replay, Event.apply, World.setdb, World.cprintf, *]

theorem candidate_commit_run (env : Env) (candidate : String) (w : World) :
    Run w (candidate_commit env candidate w).1 (candidate_commit env candidate w).2
      (candidate_commit_paths candidate (env.clicon_option_bool "CLICON_TRANSACTION_MOD")) := by
  simp only [candidate_commit, candidate_commit_paths]
  refine Run.after (Run.seq (from_validate_common_run env candidate (transaction_new w).1
    none (transaction_new w).2) ?_) ?_ ?_ ?_ ?_
  · generalize from_validate_common env candidate (transaction_new w).1 none
      (transaction_new w).2 = c
    obtain ⟨r, td1, xr, w1⟩ := c
    simp only [plugin_transaction, World.log]
    split_ifs with h1 h2 h3
    · exact candidate_commit_done_run env _ _ _
    · refine Run.mono (Run.after (candidate_commit_done_run env _ _ _) ?_ ?_ ?_ rfl) ?_ <;>
      first
      | (intro p hp
         simpa [run_events, labels, clicon_xml2cbuf_trace, paths_after_nil] using hp)
      | simp [run_events, replay, clicon_xml2cbuf_trace, clicon_xml2cbuf_dbs,
          clicon_xml2cbuf_locks]
    · refine Run.mono (Run.after (candidate_commit_done_run env _ _ _) ?_ ?_ ?_ rfl) ?_ <;>
      first
      | (intro p hp
         simp [run_events, labels, Event.label, trans_phase.tested, *] at hp
         simp [hp])
      | simp [run_events, replay, Event.apply]
    · refine Run.mono (Run.after (candidate_commit_clear_run env _ _ _) ?_ ?_ ?_ rfl) ?_ <;>
      first
      | (intro p hp
         simp [run_events, labels, Event.label, trans_phase.tested, *] at hp
         simp [hp])
      | simp [run_events, replay, Event.apply]
  · simp [run_events, transaction_new, World.log]
  · simp [run_events, transaction_new, World.log, replay, Event.apply]
  · simp [transaction_new, World.log]
  · simp [run_events, transaction_new, World.log, labels, Event.label]

theorem startup_common_phases_run (env : Env) (td : transaction_data_t) (w : World) :
    Run w (startup_common_phases env td w).1 (startup_common_phases env td w).2.2
      phases_paths := by
  simp only [startup_common_phases, plugin_transaction, generic_validate, World.log]
  split_ifs <;> refine Run.of_drop ?_ ?_ ?_ ?_ <;>
    simp [run_events, phases_paths, labels, Event.label, res3.of, replay, Event.apply,
      trans_phase.tested, clicon_xml2cbuf_trace, clicon_xml2cbuf_dbs, clicon_xml2cbuf_locks, *]

theorem startup_common_run (env : Env) (db : String) (td : transaction_data_t) (w : World) :
    Run w (startup_common env db td w).1 (startup_common env db td w).2.2
      (startup_common_paths db) := by
  simp only [startup_common, xmldb_get0, World.log, World.clicon_err, World.cprintf]
  cases h1 : env.read w.dbs db with
  | none =>
    refine Run.of_drop ?_ ?_ ?_ ?_ <;>
      simp [run_events, startup_common_paths, labels, Event.label, replay, Event.apply]
  | some x =>
    simp only []
    cases hy : env.clicon_dbspec_yang with
    | none =>
      simp only []
      split_ifs <;> refine Run.of_drop ?_ ?_ ?_ ?_ <;>
        simp [run_events, startup_common_paths, labels, Event.label, res3.of, replay,
          Event.apply, *]
    | some yspec =>
      simp only []
      split_ifs
      case neg =>
        refine Run.mono (Run.after (startup_common_phases_run env _ _) ?_ ?_ ?_ rfl) ?_
        · simp [run_events]
        · simp [run_events, replay, Event.apply]
        · simp
        · intro p hp
          refine List.mem_append_right _ ?_
          simpa [run_events, labels, Event.label, res3.of, *] using hp
      all_goals
        refine Run.of_drop ?_ ?_ ?_ ?_ <;>
        simp [run_events, startup_common_paths, labels, Event.label, res3.of, replay,
          Event.apply, *]

theorem startup_validate_run (env : Env) (db : String) (want_xtr : Bool) (w : World) :
    Run w (startup_validate env db want_xtr w).1 (startup_validate env db want_xtr w).2.2
      (startup_validate_paths db) := by
  simp only [startup_validate, startup_validate_paths]
  refine Run.after (Run.seq (startup_common_run env db (transaction_new w).1
    (transaction_new w).2) ?_) ?_ ?_ ?_ ?_
  · generalize startup_common env db (transaction_new w).1 (transaction_new w).2 = c
    obtain ⟨r, td1, w1⟩ := c
    simp only [plugin_transaction, xmldb_get0_clear, startup_validate_done, transaction_free,
      xmldb_get0_free, World.log]
    split_ifs <;> refine Run.of_drop ?_ ?_ ?_ ?_ <;>
      simp [run_events, labels, Event.label, replay, Event.apply, trans_phase.tested, *]
  · simp [run_events, transaction_new, World.log]
  · simp [run_events, transaction_new, World.log, replay, Event.apply]
  · simp [transaction_new, World.log]
  · simp [run_events, transaction_new, World.log, labels, Event.label]

theorem startup_commit_done_run (env : Env) (ret : Int) (td : transaction_data_t)
    (w : World) :
    Run w (startup_commit_done env ret td w).1 (startup_commit_done env ret td w).2
      (done_paths ret 1) := by
  simp only [startup_commit_done, plugin_transaction, transaction_free, xmldb_get0_free,
    World.log]
  split_ifs <;> refine Run.of_drop ?_ ?_ ?_ ?_ <;>
    simp [run_events, done_paths, labels, Event.label, replay, Event.apply, trans_phase.tested, *]

theorem startup_commit_create_run (env : Env) (td : transaction_data_t) (w : World) :
    Run w (startup_commit_create env td w).1 (startup_commit_create env td w).2
      startup_commit_create_paths := by
  simp only [startup_commit_create, xmldb_create, xmldb_put, plugin_transaction, World.log]
  split_ifs <;>
    refine Run.mono (Run.after (startup_commit_done_run env _ _ _) ?_ ?_ ?_ rfl) ?_ <;>
    first
    | (intro p hp
       simp [run_events, labels, Event.label, res3.of, World.setdb, World.cprintf,
         trans_phase.tested, *] at hp
       simp [startup_commit_create_paths, hp])
    | simp [run_events, replay, Event.apply, World.setdb, World.cprintf, *]

theorem startup_commit_write_run (env : Env) (td : transaction_data_t) (w : World) :
    Run w (startup_commit_write env td w).1 (startup_commit_write env td w).2
      startup_commit_write_paths := by
  simp only [startup_commit_write, xmldb_exists, xmldb_delete, World.log]
  cases hx : (w.dbs "running").isSome
  · simp only [Bool.false_eq_true, if_false, zero_ne_one]
    refine Run.mono (Run.after (startup_commit_create_run env _ _) ?_ ?_ ?_ rfl) ?_ <;>
    first
    | (intro p hp
       simp [run_events, labels, Event.label] at hp
       simp [startup_commit_write_paths, hp])
    | simp [run_events, replay, Event.apply]
  · simp only [if_true]
    split_ifs with h1 h2 <;>
    first
    | exact absurd h2 h1.1
    | ((first
        | refine Run.mono (Run.after (startup_commit_done_run env _ _ _) ?_ ?_ ?_ rfl) ?_
        | refine Run.mono (Run.after (startup_commit_create_run env _ _) ?_ ?_ ?_ rfl) ?_) <;>
       first
       | (intro p hp
          simp [run_events, labels, Event.label, World.setdb, *] at hp
          simp [startup_commit_write_paths, hp])
       | simp [run_events, replay, Event.apply, World.setdb, *])

theorem startup_commit_run (env : Env) (db : String) (w : World) :
    Run w (startup_commit env db w).1 (startup_commit env db w).2
      (startup_commit_paths db) := by
  simp only [startup_commit, startup_commit_paths]
  by_cases hdb : db = "running"
  · rw [if_pos hdb]
    refine Run.of_drop ?_ ?_ ?_ ?_ <;> simp [run_events, World.clicon_err, labels, replay]
  · rw [if_neg hdb]
    refine Run.mono (Run.after (Run.seq (startup_common_run env db (transaction_new w).1
      (transaction_new w).2) ?_) ?_ ?_ ?_ ?_) (fun p hp => List.mem_cons_of_mem _ hp)
    · generalize startup_common env db (transaction_new w).1 (transaction_new w).2 = c
      obtain ⟨r, td1, w1⟩ := c
      simp only [plugin_transaction, xmldb_get0_clear, World.log]
      split_ifs with h1 h2
      · exact startup_commit_done_run env _ _ _
      · exact startup_commit_done_run env _ _ _
      all_goals
        (first
          | refine Run.mono (Run.after (startup_commit_done_run env _ _ _) ?_ ?_ ?_ rfl) ?_
          | refine Run.mono (Run.after (startup_commit_write_run env _ _) ?_ ?_ ?_ rfl) ?_) <;>
        first
        | (intro p hp
           simp [run_events, labels, Event.label, trans_phase.tested, *] at hp
           simp [hp])
        | simp [run_events, replay, Event.apply, *]
    · simp [run_events, transaction_new, World.log]
    · simp [run_events, transaction_new, World.log, replay, Event.apply]
    · simp [transaction_new, World.log]
    · simp [run_events, transaction_new, World.log, labels, Event.label]

theorem from_client_validate_done_run (env : Env) (ret : Int) (td : transaction_data_t)
    (w : World) :
    Run w (from_client_validate_done env ret td w).1 (from_client_validate_done env ret td w).2
      (from_client_validate_done_paths ret) := by
  simp only [from_client_validate_done, plugin_transaction, transaction_free, xmldb_get0_free,
    World.log]
  split_ifs <;> refine Run.of_drop ?_ ?_ ?_ ?_ <;>
    simp [run_events, from_client_validate_done_paths, labels, Event.label, replay, Event.apply,
      trans_phase.tested, *]

theorem from_client_validate_ok_run (env : Env) (td : transaction_data_t) (w : World) :
    Run w (from_client_validate_ok env td w).1 (from_client_validate_ok env td w).2
      (from_client_validate_ok_paths (env.clicon_option_bool "CLICON_TRANSACTION_MOD")) := by
  simp only [from_client_validate_ok, xmldb_get0_clear, xmldb_put, plugin_transaction,
    World.log]
  split_ifs with h1 h2 hm h3 h4 <;>
    refine Run.mono (Run.after (from_client_validate_done_run env _ _ _) ?_ ?_ ?_ rfl) ?_ <;>
    first
    | (intro p hp
       simp [run_events, labels, Event.label, res3.of, World.setdb, World.cprintf,
         trans_phase.tested, *] at hp
       simp [from_client_validate_ok_paths, hp, *])
    | simp [run_events, replay, Event.apply, World.setdb, World.cprintf, *]

theorem from_client_validate_run (env : Env) (xe : cxobj) (w : World) :
    Run w (from_client_validate env xe w).1 (from_client_validate env xe w).2
      (from_client_validate_paths (env.netconf_db_find xe "source")
        (env.clicon_option_bool "CLICON_TRANSACTION_MOD")) := by
  simp only [from_client_validate, from_client_validate_paths]
  cases hdb : env.netconf_db_find xe "source" with
  | none =>
    refine Run.of_drop ?_ ?_ ?_ ?_ <;>
      simp [run_events, World.cprintf, World.log, labels, Event.label, replay, Event.apply]
  | some db =>
    simp only []
    refine Run.after (Run.seq (from_validate_common_run env db (transaction_new w).1
      none (transaction_new w).2) ?_) ?_ ?_ ?_ ?_
    · generalize from_validate_common env db (transaction_new w).1 none
        (transaction_new w).2 = c
      obtain ⟨r, td1, xr, w1⟩ := c
      simp only [plugin_transaction, World.log]
      split_ifs with h1 h2
      · refine Run.mono (Run.after (from_client_validate_done_run env _ _ _) ?_ ?_ ?_ rfl) ?_ <;>
        first
        | (intro p hp
           simp [run_events, labels, Event.label, trans_phase.tested, World.cprintf,
             clicon_xml2cbuf_trace] at hp
           simp [hp])
        | simp [run_events, replay, Event.apply, World.cprintf, clicon_xml2cbuf_trace,
            clicon_xml2cbuf_dbs, clicon_xml2cbuf_locks]
      · refine Run.mono (Run.after (from_client_validate_done_run env _ _ _) ?_ ?_ ?_ rfl) ?_ <;>
        first
        | (intro p hp
           simp [run_events, labels, Event.label, trans_phase.tested, World.cprintf,
             clicon_xml2cbuf_trace] at hp
           simp [hp])
        | simp [run_events, replay, Event.apply, World.cprintf, clicon_xml2cbuf_trace,
            clicon_xml2cbuf_dbs, clicon_xml2cbuf_locks]
      · exact from_client_validate_ok_run env _ _
    · simp [run_events, transaction_new, World.log]
    · simp [run_events, transaction_new, World.log, replay, Event.apply]
    · simp [transaction_new, World.log]
    · simp [run_events, transaction_new, World.log, labels, Event.label]

theorem from_client_commit_run (env : Env) (ce : client_entry) (w : World) :
    Run w (from_client_commit env ce w).1 (from_client_commit env ce w).2
      (from_client_commit_paths
        (decide (w.locks "running" ≠ 0 ∧ ce.ce_id ≠ w.locks "running"))
        (env.clicon_option_bool "CLICON_TRANSACTION_MOD")) := by
  simp only [from_client_commit, from_client_commit_paths, xmldb_islocked]
  by_cases hl : w.locks "running" ≠ 0 ∧ ce.ce_id ≠ w.locks "running"
  · rw [if_pos hl, decide_eq_true hl, if_pos rfl]
    refine Run.of_drop ?_ ?_ ?_ ?_ <;>
      simp [run_events, World.cprintf, World.log, labels, Event.label, replay, Event.apply]
  · rw [if_neg hl, decide_eq_false hl, if_neg Bool.false_ne_true]
    refine Run.after (Run.seq (candidate_commit_run env "candidate"
      (w.log (.xmldb_islocked "running" (w.locks "running")))) ?_) ?_ ?_ ?_ ?_
    · generalize candidate_commit env "candidate"
        (w.log (.xmldb_islocked "running" (w.locks "running"))) = c
      obtain ⟨r, w1⟩ := c
      simp only []
      split_ifs with h1 h2 <;> refine Run.of_drop ?_ ?_ ?_ ?_ <;>
        simp [run_events, World.cprintf, World.log, labels, Event.label, replay, Event.apply]
    · simp [run_events, World.log]
    · simp [run_events, World.log, replay, Event.apply]
    · simp [World.log]
    · simp [run_events, World.log, labels, Event.label]

/-! ## Datastore frame lemmas -/

theorem Event.apply_of_not_write (e : Event) (d : String → Option cxobj)
    (h : e.label.is_write = false) : e.apply d = d := by
  cases e <;> simp_all [Event.label, Label.is_write, Event.apply, res3.of]
  all_goals split_ifs at h <;> simp_all

theorem replay_of_no_write (evs : List Event) (d : String → Option cxobj)
    (h : (labels evs).all (fun l => !l.is_write) = true) : replay evs d = d := by
  induction evs generalizing d with
  | nil => rfl
  | cons e rest ih =>
    simp only [labels, List.map_cons, List.all_cons, Bool.and_eq_true,
      Bool.not_eq_true'] at h
    rw [replay, Event.apply_of_not_write e d h.1]
    exact ih d (by simpa [labels] using h.2)

theorem Event.apply_other (e : Event) (d : String → Option cxobj) (db : String)
    (h : e.label.writes db = false) : e.apply d db = d db := by
  cases e <;> simp_all [Event.label, Label.writes, Event.apply, res3.of]
  all_goals split_ifs <;> simp_all
  all_goals
    intro hdb
    exact absurd hdb.symm h

theorem replay_other (evs : List Event) (d : String → Option cxobj) (db : String)
    (h : (labels evs).all (fun l => !l.writes db) = true) : replay evs d db = d db := by
  induction evs generalizing d with
  | nil => rfl
  | cons e rest ih =>
    simp only [labels, List.map_cons, List.all_cons, Bool.and_eq_true,
      Bool.not_eq_true'] at h
    rw [replay, ih (e.apply d) (by simpa [labels] using h.2), Event.apply_other e d db h.1]

theorem from_validate_common_phases_cbret (env : Env) (td : transaction_data_t)
    (xret : Option cxobj) (w : World) :
    (from_validate_common_phases env td xret w).2.2.2.cbret = w.cbret := by
  simp only [from_validate_common_phases, plugin_transaction, generic_validate, World.log]
  split_ifs <;> rfl

theorem from_validate_common_cbret (env : Env) (candidate : String) (td : transaction_data_t)
    (xret : Option cxobj) (w : World) :
    (from_validate_common env candidate td xret w).2.2.2.cbret = w.cbret := by
  simp only [from_validate_common, xmldb_get0, World.log, World.clicon_err]
  cases env.clicon_dbspec_yang with
  | none => rfl
  | some yspec =>
    cases env.read w.dbs candidate with
    | none => rfl
    | some x =>
      cases env.read w.dbs "running" with
      | none => simp only []; split_ifs <;> rfl
      | some x2 =>
        simp only []
        split_ifs
        any_goals rfl
        exact from_validate_common_phases_cbret env _ _ _

theorem candidate_commit_done_cbret (env : Env) (ret : Int) (td : transaction_data_t)
    (w : World) : (candidate_commit_done env ret td w).2.cbret = w.cbret := by
  simp only [candidate_commit_done, plugin_transaction, transaction_free, xmldb_get0_free,
    World.log]
  split_ifs <;> rfl

theorem candidate_commit_done_ret (env : Env) (ret : Int) (td : transaction_data_t)
    (w : World) : (candidate_commit_done env ret td w).1 = ret := rfl

theorem candidate_commit_copy_cbret (env : Env) (candidate : String) (td : transaction_data_t)
    (w : World) : (candidate_commit_copy env candidate td w).2.cbret = w.cbret := by
  simp only [candidate_commit_copy, xmldb_copy, plugin_transaction, World.log]
  split_ifs <;> simp [candidate_commit_done_cbret, World.setdb]

theorem candidate_commit_clear_cbret (env : Env) (candidate : String)
    (td : transaction_data_t) (w : World)
    (h : (candidate_commit_clear env candidate td w).1 ≠ 0) :
    (candidate_commit_clear env candidate td w).2.cbret = w.cbret := by
  revert h
  simp only [candidate_commit_clear, xmldb_get0_clear, xmldb_put, World.log]
  split_ifs <;>
    simp [candidate_commit_done_cbret, candidate_commit_copy_cbret, candidate_commit_done_ret,
      World.setdb]

theorem candidate_commit_cbret (env : Env) (candidate : String) (w : World)
    (h : (candidate_commit env candidate w).1 ≠ 0) :
    (candidate_commit env candidate w).2.cbret = w.cbret := by
  revert h
  simp only [candidate_commit]
  have hc := from_validate_common_cbret env candidate (transaction_new w).1 none
    (transaction_new w).2
  generalize from_validate_common env candidate (transaction_new w).1 none
    (transaction_new w).2 = c at hc
  obtain ⟨r, td1, xr, w1⟩ := c
  simp only [plugin_transaction, World.log] at hc ⊢
  split_ifs
  · intro _
    simpa [candidate_commit_done_cbret, transaction_new, World.log] using hc
  · simp [candidate_commit_done_ret]
  · intro _
    simpa [candidate_commit_done_cbret, transaction_new, World.log] using hc
  · intro h
    rw [candidate_commit_clear_cbret env candidate _ _ h]
    simpa [transaction_new, World.log] using hc

/-! ## Facts about `generic_validate` -/

theorem mandatory_removed_iff (ys : Option yang_stmt) :
    mandatory_removed ys = true ↔
      ∃ y, ys = some y ∧ yang_mandatory y ≠ 0 ∧ yang_config y = 1 ∧
        ∀ yp, yang_parent_get y = some yp →
          yang_keyword_get yp ≠ rfc_6020.Y_MODULE ∧
            yang_keyword_get yp ≠ rfc_6020.Y_SUBMODULE := by
  cases ys with
  | none => simp [mandatory_removed]
  | some y =>
    cases hp : yang_parent_get y with
    | none => simp [mandatory_removed, hp]
    | some yp => simp [mandatory_removed, hp, and_assoc]

theorem generic_validate_add_ok (env : Env) (target : Option cxobj) (l : List xpath_t)
    (xret : Option cxobj)
    (h : ∀ x ∈ l, 0 < (env.xml_yang_validate_add target x).1) :
    (generic_validate_add env target l xret).1 = 1 := by
  induction l generalizing xret with
  | nil => rfl
  | cons x rest ih =>
    have hx := h x (List.mem_cons_self _ _)
    have h1 : ¬ (env.xml_yang_validate_add target x).1 < 0 := by omega
    have h2 : ¬ (env.xml_yang_validate_add target x).1 = 0 := by omega
    simp only [generic_validate_add, h1, h2, if_false]
    exact ih _ (fun y hy => h y (List.mem_cons_of_mem _ hy))

theorem generic_validate_deleted_eq (env : Env) (src : Option cxobj) (l : List xpath_t)
    (xret : Option cxobj) :
    generic_validate_deleted env src l xret =
      match first_mandatory_deleted src l with
      | some n => (0, some (missing_mandatory env n))
      | none => (1, xret) := by
  induction l with
  | nil => rfl
  | cons x rest ih =>
    simp only [generic_validate_deleted, first_mandatory_deleted, List.filterMap_cons]
    cases hx : src.bind (xml_find x) with
    | none => simpa [first_mandatory_deleted] using ih
    | some n =>
      by_cases hm : mandatory_removed (xml_spec n) = true
      · simp [hm, missing_mandatory]
      · simp only [hm, if_false, List.find?_cons]
        simpa [first_mandatory_deleted, hm] using ih

/-! ## The error reply of `candidate_commit` -/

theorem clicon_xml2cbuf_cbret (env : Env) (xret : Option cxobj) (w : World) :
    (clicon_xml2cbuf env xret w).cbret = w.cbret ++ error_text env xret := by
  cases xret with
  | none => simp [clicon_xml2cbuf, error_text]
  | some x => simp [clicon_xml2cbuf, error_text, World.cprintf]

theorem candidate_commit_copy_ne_zero (env : Env) (candidate : String)
    (td : transaction_data_t) (w : World) :
    (candidate_commit_copy env candidate td w).1 ≠ 0 := by
  simp only [candidate_commit_copy]
  split_ifs <;> simp [candidate_commit_done_ret]

theorem candidate_commit_clear_failed (env : Env) (candidate : String)
    (td : transaction_data_t) (w : World)
    (h0 : (candidate_commit_clear env candidate td w).1 = 0) :
    env.clicon_option_bool "CLICON_TRANSACTION_MOD" = true ∧
      ∃ t, env.xmldb_put_rc candidate t = 0 ∧
        (candidate_commit_clear env candidate td w).2.cbret =
          w.cbret ++ env.xmldb_put_reply candidate t := by
  revert h0
  simp only [candidate_commit_clear]
  split_ifs with h1 h2 hmod h3 h4
  · intro h; simp [candidate_commit_done_ret] at h
  · intro h; simp [candidate_commit_done_ret] at h
  · intro h; simp [candidate_commit_done_ret] at h
  · intro _
    refine ⟨hmod, ?_⟩
    simp only [xmldb_put] at h4
    cases ht : (td.set_target (xmldb_get0_clear env td.td_target w).2.1).set_src
        (xmldb_get0_clear env
          (td.set_target (xmldb_get0_clear env td.td_target w).2.1).td_src
          (xmldb_get0_clear env td.td_target w).2.2).2.1 |>.td_target with
    | none =>
      rw [ht] at h4
      simp [Env.put_rc] at h4
    | some t =>
      rw [ht] at h4
      refine ⟨t, by simpa [Env.put_rc] using h4, ?_⟩
      simp only [candidate_commit_done_cbret, xmldb_put, ht]
      have h4' : env.put_rc candidate (some t) = 0 := h4
      simp [h4', Env.put_reply, World.cprintf, World.log, xmldb_get0_clear]
  · intro h
    exact absurd h (candidate_commit_copy_ne_zero env candidate _ _)
  · intro h
    exact absurd h (candidate_commit_copy_ne_zero env candidate _ _)

theorem candidate_commit_failed_reply (env : Env) (candidate : String) (w : World)
    (h0 : (candidate_commit env candidate w).1 = 0) :
    ((commit_validation env candidate w).1 = 0 ∧
      (candidate_commit env candidate w).2.cbret =
        w.cbret ++ error_text env (commit_validation env candidate w).2.2.1) ∨
    (0 < (commit_validation env candidate w).1 ∧
      env.clicon_option_bool "CLICON_TRANSACTION_MOD" = true ∧
      ∃ t, env.xmldb_put_rc candidate t = 0 ∧
        (candidate_commit env candidate w).2.cbret =
          w.cbret ++ env.xmldb_put_reply candidate t) := by
  revert h0
  simp only [candidate_commit, commit_validation]
  have hc := from_validate_common_cbret env candidate (transaction_new w).1 none
    (transaction_new w).2
  generalize from_validate_common env candidate (transaction_new w).1 none
    (transaction_new w).2 = c at hc
  obtain ⟨r, td1, xr, w1⟩ := c
  have hw : w1.cbret = w.cbret := by simpa [transaction_new, World.log] using hc
  simp only [plugin_transaction]
  split_ifs with h1 h2 h3
  · intro h; simp [candidate_commit_done_ret] at h
  · intro _
    left
    refine ⟨h2, ?_⟩
    rw [candidate_commit_done_cbret, clicon_xml2cbuf_cbret, hw]
  · intro h; simp [candidate_commit_done_ret] at h
  · intro h
    right
    obtain ⟨hmod, t, ht, hcb⟩ := candidate_commit_clear_failed env candidate _ _ h
    refine ⟨by omega, hmod, t, ht, ?_⟩
    rw [hcb]
    simp [World.log, hw]

theorem xret_set_isSome (old new : Option cxobj) (h : new.isSome = true) :
    (xret_set old new).isSome = true := by
  cases new with
  | none => simp at h
  | some x => rfl

theorem generic_validate_add_zero (env : Env) (hrep : env.reports_errors)
    (target : Option cxobj) (l : List xpath_t) :
    ∀ xret, (generic_validate_add env target l xret).1 = 0 →
      (generic_validate_add env target l xret).2.1.isSome = true := by
  induction l with
  | nil => intro xret h; simp [generic_validate_add] at h
  | cons x rest ih =>
    intro xret
    simp only [generic_validate_add]
    split_ifs with h1 h2
    · intro h; simp at h
    · intro _
      exact xret_set_isSome _ _ (hrep.2 target x h2)
    · intro h
      exact ih _ h

theorem generic_validate_zero (env : Env) (hrep : env.reports_errors)
    (td : transaction_data_t) (xret : Option cxobj)
    (h0 : (generic_validate env td xret).1 = 0) :
    (generic_validate env td xret).2.1.isSome = true := by
  revert h0
  simp only [generic_validate, generic_validate_body]
  split_ifs with h1 h2 h3 h4
  · intro h; simp at h
  · intro _
    exact xret_set_isSome _ _ (hrep.1 td.td_target h2)
  · intro h
    exact generic_validate_add_zero env hrep _ _ _ h
  · intro _
    rw [generic_validate_deleted_eq] at h4 ⊢
    cases hm : first_mandatory_deleted td.td_src (List.take td.td_dlen td.td_dvec) with
    | none => rw [hm] at h4; simp at h4
    | some m => simp
  · intro h
    exact generic_validate_add_zero env hrep _ _ _ h

theorem from_validate_common_phases_zero (env : Env) (hrep : env.reports_errors)
    (td : transaction_data_t) (xret : Option cxobj) (w : World)
    (h0 : (from_validate_common_phases env td xret w).1 = 0) :
    (from_validate_common_phases env td xret w).2.2.1.isSome = true := by
  revert h0
  simp only [from_validate_common_phases, plugin_transaction]
  split_ifs with h1 h2 h3 h4 h5
  · intro h; simp at h
  · intro h; simp at h
  · intro _
    exact generic_validate_zero env hrep _ _ h3
  · intro h; simp at h
  · intro h; simp at h
  · intro h; simp at h

theorem from_validate_common_zero (env : Env) (hrep : env.reports_errors)
    (candidate : String) (td : transaction_data_t) (xret : Option cxobj) (w : World)
    (h0 : (from_validate_common env candidate td xret w).1 = 0) :
    (from_validate_common env candidate td xret w).2.2.1.isSome = true := by
  revert h0
  simp only [from_validate_common, xmldb_get0, World.log, World.clicon_err]
  cases env.clicon_dbspec_yang with
  | none => intro h; simp at h
  | some yspec =>
    cases env.read w.dbs candidate with
    | none => intro h; simp at h
    | some x =>
      cases env.read w.dbs "running" with
      | none =>
        simp only []
        split_ifs with h1 h2
        · intro h; simp at h
        · intro _
          exact xret_set_isSome _ _ (hrep.1 _ h2)
        · intro h; simp at h
      | some x2 =>
        simp only []
        split_ifs with h1 h2 h3
        · intro h; simp at h
        · intro _
          exact xret_set_isSome _ _ (hrep.1 _ h2)
        · intro h; simp at h
        · intro h
          exact from_validate_common_phases_zero env hrep _ _ _ h

theorem commit_validation_zero (env : Env) (hrep : env.reports_errors)
    (candidate : String) (w : World) (h0 : (commit_validation env candidate w).1 = 0) :
    ∃ x, (commit_validation env candidate w).2.2.1 = some x :=
  Option.isSome_iff_exists.1 (from_validate_common_zero env hrep candidate _ _ _ h0)

theorem Label.is_plugin_failure_iff (l : Label) :
    l.is_plugin_failure = true ↔ ∃ ph, l = .plugin ph true := by
  cases l <;> simp [Label.is_plugin_failure]

theorem Label.is_put_failed_iff (l : Label) :
    l.is_put_failed = true ↔ ∃ db, l = .xmldb_put db .zero := by
  cases l <;> simp [Label.is_put_failed]

theorem candidate_commit_failed_labels (env : Env) (candidate : String) (w : World)
    (h0 : (candidate_commit env candidate w).1 = 0) :
    (Label.xml_yang_validate_all_top .zero ∈
        labels (run_events w (candidate_commit env candidate w).2) ∨
      Label.generic_validate .zero ∈
        labels (run_events w (candidate_commit env candidate w).2) ∨
      ∃ db, Label.xmldb_put db .zero ∈
        labels (run_events w (candidate_commit env candidate w).2)) ∧
    ∀ ph, Label.plugin ph true ∉
      labels (run_events w (candidate_commit env candidate w).2) := by
  have hk := Run.check (fun p => failed_by_validation p.1 p.2)
    (by cases env.clicon_option_bool "CLICON_TRANSACTION_MOD" <;> rfl)
    (candidate_commit_run env candidate w)
  simp only [failed_by_validation, h0, bne_self_eq_false, Bool.false_or, Bool.and_eq_true,
    Bool.or_eq_true, Bool.not_eq_true'] at hk
  obtain ⟨hv, hp⟩ := hk
  constructor
  · rcases hv with (hv | hv) | hv
    · exact Or.inl (by simpa using hv)
    · exact Or.inr (Or.inl (by simpa using hv))
    · obtain ⟨l, hl, hlp⟩ := List.any_eq_true.1 hv
      obtain ⟨db, rfl⟩ := (Label.is_put_failed_iff l).1 hlp
      exact Or.inr (Or.inr ⟨db, hl⟩)
  · intro ph hmem
    have : (labels (run_events w (candidate_commit env candidate w).2)).any
        Label.is_plugin_failure = true :=
      List.any_eq_true.2 ⟨_, hmem, rfl⟩
    rw [hp] at this
    exact Bool.noConfusion this

theorem env_validate_failed_reports_errors : env_validate_failed.reports_errors :=
  ⟨fun _ _ => rfl, fun _ _ h => absurd h (show ¬ ((1 : Int) = 0) by decide)⟩

/-! ## Facts about trees -/

theorem xml_apply0_of_no_children (type : cxobj_type) (fn : Nat → Nat) (x : cxobj)
    (h : xml_child_nr x = 0) : xml_apply0 type fn x = xml_flag_apply fn x := by
  obtain ⟨n, t, f, s, v, cs⟩ := x
  have hcs : cs = [] := List.length_eq_zero.1 h
  subst hcs
  simp [xml_apply0, xml_flag_apply, xml_apply, xml_apply_children]

theorem xml_child_nr_flag_apply (fn : Nat → Nat) (x : cxobj) :
    xml_child_nr (xml_flag_apply fn x) = xml_child_nr x := by
  obtain ⟨n, t, f, s, v, cs⟩ := x
  rfl

/-! ## Events of a run -/

theorem Event.label_mem {e : Event} {evs : List Event} (h : e ∈ evs) :
    e.label ∈ labels evs :=
  List.mem_map_of_mem _ h

theorem Label.writes_elsewhere (l : Label) (target db : String) (hdb : db ≠ target)
    (h : (!l.is_write || l.writes target) = true) : l.writes db = false := by
  cases l <;> simp_all [Label.is_write, Label.writes]
  all_goals
    intro hx
    subst hx
    simp_all

theorem from_validate_common_dbs (env : Env) (candidate : String) (td : transaction_data_t)
    (xret : Option cxobj) (w : World) :
    (from_validate_common env candidate td xret w).2.2.2.dbs = w.dbs := by
  have hrun := from_validate_common_run env candidate td xret w
  rw [hrun.events.2.1]
  exact replay_of_no_write _ _
    (Run.check (fun p => p.2.all (fun l => !l.is_write)) (by rfl) hrun)

theorem startup_common_dbs (env : Env) (db : String) (td : transaction_data_t) (w : World) :
    (startup_common env db td w).2.2.dbs = w.dbs := by
  have hrun := startup_common_run env db td w
  rw [hrun.events.2.1]
  exact replay_of_no_write _ _
    (Run.check (fun p => p.2.all (fun l => !l.is_write)) (by rfl) hrun)

theorem Label.put_candidate_of_mutation (l : Label)
    (h : (!l.is_mutation || l.is_put_candidate) = true) :
    (l.is_mutation = true → ∃ r, l = .xmldb_put "candidate" r) ∧
      ∀ n, n ≠ "candidate" → l.writes n = false := by
  cases l <;> simp_all [Label.is_mutation, Label.is_put_candidate, Label.writes]
  intro n hn hx
  exact absurd hx.symm hn

theorem from_client_validate_paths_writes (db : Option String) (mod : Bool) :
    (from_client_validate_paths db mod).all (fun p => validate_only_writes mod p.2) = true := by
  cases db <;> cases mod <;> rfl

theorem startup_commit_run_created (env : Env) (db : String) (w : World)
    (hdb : db ≠ "running") :
    Run w (startup_commit env db w).1 (startup_commit env db w).2
      (startup_commit_paths db).tail := by
  simp only [startup_commit, startup_commit_paths, List.tail_cons]
  rw [if_neg hdb]
  refine Run.after (Run.seq (startup_common_run env db (transaction_new w).1
    (transaction_new w).2) ?_) ?_ ?_ ?_ ?_
  · generalize startup_common env db (transaction_new w).1 (transaction_new w).2 = c
    obtain ⟨r, td1, w1⟩ := c
    simp only [plugin_transaction, xmldb_get0_clear, World.log]
    split_ifs with h1 h2
    · exact startup_commit_done_run env _ _ _
    · exact startup_commit_done_run env _ _ _
    all_goals
      (first
        | refine Run.mono (Run.after (startup_commit_done_run env _ _ _) ?_ ?_ ?_ rfl) ?_
        | refine Run.mono (Run.after (startup_commit_write_run env _ _) ?_ ?_ ?_ rfl) ?_) <;>
      first
      | (intro p hp
         simp [run_events, labels, Event.label, trans_phase.tested, *] at hp
         simp [hp])
      | simp [run_events, replay, Event.apply, *]
  · simp [run_events, transaction_new, World.log]
  · simp [run_events, transaction_new, World.log, replay, Event.apply]
  · simp [transaction_new, World.log]
  · simp [run_events, transaction_new, World.log, labels, Event.label]

/-! ## The transaction that the plugin callbacks are given -/

theorem plugin_events_append (a b : List Event) :
    plugin_events (a ++ b) = plugin_events a ++ plugin_events b := by
  induction a with
  | nil => rfl
  | cons e rest ih => cases e <;> simp [plugin_events, ih]

theorem PRun.of_log {w w1 : World} {Q : trans_phase × transaction_data_t → Prop}
    (h1 : w1.trace = w.trace ++ run_events w w1)
    (h2 : ∀ p ∈ plugin_events (run_events w w1), Q p) : PRun w w1 Q :=
  ⟨_, h1, h2⟩

theorem PRun.callbacks {w w1 : World} {Q : trans_phase × transaction_data_t → Prop}
    (h : PRun w w1 Q) : ∀ p ∈ plugin_events (run_events w w1), Q p := by
  obtain ⟨evs, h1, h2⟩ := h
  have : run_events w w1 = evs := by simp [run_events, h1]
  rw [this]
  exact h2

theorem PRun.chain {w w0 w1 : World} {Q : trans_phase × transaction_data_t → Prop}
    (h0 : PRun w w0 Q) (h1 : PRun w0 w1 Q) : PRun w w1 Q := by
  obtain ⟨e0, a0, b0⟩ := h0
  obtain ⟨e1, a1, b1⟩ := h1
  refine ⟨e0 ++ e1, by rw [a1, a0, List.append_assoc], ?_⟩
  intro p hp
  rw [plugin_events_append, List.mem_append] at hp
  exact hp.elim (b0 p) (b1 p)

theorem PRun.weaken {w w1 : World} {Q R : trans_phase × transaction_data_t → Prop}
    (h : PRun w w1 Q) (hQR : ∀ p, Q p → R p) : PRun w w1 R := by
  obtain ⟨e, a, b⟩ := h
  exact ⟨e, a, fun p hp => hQR p (b p hp)⟩

theorem PRun.prepend {w w0 w1 : World} {Q : trans_phase × transaction_data_t → Prop}
    (h : PRun w0 w1 Q) (h1 : w0.trace = w.trace ++ run_events w w0)
    (h2 : ∀ p ∈ plugin_events (run_events w w0), Q p) : PRun w w1 Q :=
  PRun.chain (PRun.of_log h1 h2) h

theorem flag_or_and (f a b : Nat) : (f ||| a) &&& b = (f &&& b) ||| (a &&& b) := by
  apply Nat.eq_of_testBit_eq
  intro i
  simp only [Nat.testBit_and, Nat.testBit_or]
  cases f.testBit i <;> cases a.testBit i <;> cases b.testBit i <;> rfl

theorem flags_le_refl (f : Nat) : flags_le f f := Nat.and_self f

theorem flags_le_trans {f g h : Nat} (h1 : flags_le f g) (h2 : flags_le g h) :
    flags_le f h := by
  unfold flags_le at *
  rw [← h1, Nat.and_assoc, h2]

theorem flags_le_set (a f : Nat) : flags_le f (flag_set a f) := by
  unfold flags_le flag_set
  apply Nat.eq_of_testBit_eq
  intro i
  simp only [Nat.testBit_and, Nat.testBit_or]
  cases f.testBit i <;> cases a.testBit i <;> rfl

theorem flags_le_carry {f f1 : Nat} (a : Nat) (h : flags_le f f1) (hc : f &&& a ≠ 0) :
    f1 &&& a ≠ 0 := by
  intro h0
  apply hc
  unfold flags_le at h
  rw [← h, Nat.and_assoc, h0, Nat.and_zero]

theorem flag_set_carry (a f : Nat) : flag_set a f &&& a = a := by
  unfold flag_set
  apply Nat.eq_of_testBit_eq
  intro i
  simp only [Nat.testBit_and, Nat.testBit_or]
  cases f.testBit i <;> cases a.testBit i <;> rfl

theorem flags_keep_refl (b f : Nat) : flags_keep b f f := rfl

theorem flags_keep_trans {b f g h : Nat} (h1 : flags_keep b f g) (h2 : flags_keep b g h) :
    flags_keep b f h := by
  unfold flags_keep at *
  rw [h2, h1]

theorem flags_keep_set (a b f : Nat) (h : a &&& b = 0) : flags_keep b f (flag_set a f) := by
  unfold flags_keep flag_set
  rw [flag_or_and, h, Nat.or_zero]

theorem flags_keep_reset (m b f : Nat) (h : (0xffff ^^^ m) &&& b = b) :
    flags_keep b f (flag_reset m f) := by
  unfold flags_keep flag_reset
  rw [Nat.and_assoc, h]

theorem cxobj.induct {motive : cxobj → Prop}
    (h : ∀ n t f s v cs, (∀ c ∈ cs, motive c) → motive (.mk n t f s v cs)) (x : cxobj) :
    motive x :=
  @cxobj.rec motive (fun cs => ∀ c ∈ cs, motive c)
    (fun n t f s v cs ih => h n t f s v cs ih)
    (fun c hc => absurd hc (List.not_mem_nil c))
    (fun _ _ ihd ihrest c hc =>
      (List.mem_cons.1 hc).elim (fun e => e ▸ ihd) (fun h1 => ihrest c h1)) x

theorem xml_rel_children_iff (R : Nat → Nat → Prop) (cs ys : List cxobj) :
    xml_rel_children R cs ys ↔ List.Forall₂ (xml_rel R) cs ys := by
  induction cs generalizing ys with
  | nil =>
    rw [xml_rel_children]
    constructor
    · intro h; rw [h]; exact List.Forall₂.nil
    · intro h; cases h; rfl
  | cons c rest ih =>
    cases ys with
    | nil =>
      rw [xml_rel_children]
      constructor
      · intro h; exact h.elim
      · intro h; cases h
    | cons y ys1 =>
      rw [xml_rel_children]
      simp only [List.forall₂_cons, ih]

theorem xml_rel_mk (R : Nat → Nat → Prop) (n : String) (t : cxobj_type) (f : Nat)
    (s : Option yang_stmt) (v : String) (cs : List cxobj) (n1 : String) (t1 : cxobj_type)
    (f1 : Nat) (s1 : Option yang_stmt) (v1 : String) (cs1 : List cxobj) :
    xml_rel R (.mk n t f s v cs) (.mk n1 t1 f1 s1 v1 cs1) ↔
      n1 = n ∧ t1 = t ∧ R f f1 ∧ s1 = s ∧ v1 = v ∧ List.Forall₂ (xml_rel R) cs cs1 := by
  rw [xml_rel, xml_rel_children_iff]
  rfl

theorem xml_apply_children_eq (type : cxobj_type) (fn : Nat → Nat) (cs : List cxobj) :
    xml_apply_children type fn cs = cs.map (xml_apply_child type fn) := by
  induction cs with
  | nil => rw [xml_apply_children]; rfl
  | cons c rest ih => rw [xml_apply_children, ih]; rfl

theorem xml_rel_refl (R : Nat → Nat → Prop) (hr : ∀ f, R f f) (x : cxobj) : xml_rel R x x := by
  induction x using cxobj.induct with
  | h n t f s v cs ih =>
    rw [xml_rel_mk]
    exact ⟨rfl, rfl, hr f, rfl, rfl, List.forall₂_same.2 ih⟩

theorem forall₂_trans_of_mem {r : cxobj → cxobj → Prop} {l1 l2 : List cxobj}
    (h12 : List.Forall₂ r l1 l2) :
    ∀ {l3 : List cxobj}, (∀ a ∈ l1, ∀ b c, r a b → r b c → r a c) →
      List.Forall₂ r l2 l3 → List.Forall₂ r l1 l3 := by
  induction h12 with
  | nil =>
    intro l3 _ h23
    cases h23
    exact List.Forall₂.nil
  | cons hab _ ih =>
    intro l3 htr h23
    cases h23 with
    | cons hbc hrest =>
      exact List.Forall₂.cons (htr _ (List.mem_cons_self _ _) _ _ hab hbc)
        (ih (fun a ha => htr a (List.mem_cons_of_mem _ ha)) hrest)

theorem xml_rel_trans (R : Nat → Nat → Prop) (ht : ∀ f g h, R f g → R g h → R f h)
    (x : cxobj) : ∀ y z, xml_rel R x y → xml_rel R y z → xml_rel R x z := by
  induction x using cxobj.induct with
  | h n t f s v cs ih =>
    intro y z hxy hyz
    obtain ⟨n1, t1, f1, s1, v1, cs1⟩ := y
    obtain ⟨n2, t2, f2, s2, v2, cs2⟩ := z
    rw [xml_rel_mk] at hxy hyz ⊢
    obtain ⟨a1, a2, a3, a4, a5, a6⟩ := hxy
    obtain ⟨b1, b2, b3, b4, b5, b6⟩ := hyz
    exact ⟨b1.trans a1, b2.trans a2, ht _ _ _ a3 b3, b4.trans a4, b5.trans a5,
      forall₂_trans_of_mem a6 ih b6⟩

theorem xml_rel_flag_apply (R : Nat → Nat → Prop) (hr : ∀ f, R f f) (fn : Nat → Nat)
    (hfn : ∀ f, R f (fn f)) (x : cxobj) : xml_rel R x (xml_flag_apply fn x) := by
  obtain ⟨n, t, f, s, v, cs⟩ := x
  rw [xml_flag_apply, xml_rel_mk]
  exact ⟨rfl, rfl, hfn f, rfl, rfl, List.forall₂_same.2 (fun c _ => xml_rel_refl R hr c)⟩

theorem xml_rel_apply_both (R : Nat → Nat → Prop) (hr : ∀ f, R f f) (type : cxobj_type)
    (fn : Nat → Nat) (hfn : ∀ f, R f (fn f)) (x : cxobj) :
    xml_rel R x (xml_apply type fn x) ∧ xml_rel R x (xml_apply_child type fn x) := by
  induction x using cxobj.induct with
  | h n t f s v cs ih =>
    have hc : List.Forall₂ (xml_rel R) cs (xml_apply_children type fn cs) := by
      rw [xml_apply_children_eq, List.forall₂_map_right_iff, List.forall₂_same]
      exact fun c hc => (ih c hc).2
    constructor
    · rw [xml_apply, xml_rel_mk]
      exact ⟨rfl, rfl, hr f, rfl, rfl, hc⟩
    · rw [xml_apply_child]
      split_ifs
      · rw [xml_rel_mk]
        exact ⟨rfl, rfl, hfn f, rfl, rfl, hc⟩
      · exact xml_rel_refl R hr _

theorem xml_rel_apply (R : Nat → Nat → Prop) (hr : ∀ f, R f f) (type : cxobj_type)
    (fn : Nat → Nat) (hfn : ∀ f, R f (fn f)) (x : cxobj) :
    xml_rel R x (xml_apply type fn x) :=
  (xml_rel_apply_both R hr type fn hfn x).1

theorem xml_rel_apply0 (R : Nat → Nat → Prop) (hr : ∀ f, R f f) (type : cxobj_type)
    (fn : Nat → Nat) (hfn : ∀ f, R f (fn f)) (x : cxobj) :
    xml_rel R x (xml_apply0 type fn x) := by
  obtain ⟨n, t, f, s, v, cs⟩ := x
  have h := xml_rel_apply R hr type fn hfn (.mk n t f s v cs)
  rw [xml_apply, xml_rel_mk] at h
  rw [xml_apply0, xml_flag_apply, xml_apply, xml_rel_mk]
  exact ⟨rfl, rfl, hfn f, rfl, rfl, h.2.2.2.2.2⟩

theorem xml_update_children_eq (g : cxobj → cxobj) (i : Nat) (p : xpath_t)
    (cs : List cxobj) :
    xml_update_children g i p cs = cs.modify (xml_update g p) i := by
  induction cs generalizing i with
  | nil => rw [xml_update_children, List.modify_nil]
  | cons c rest ih =>
    cases i with
    | zero => rw [xml_update_children, List.modify_zero_cons]
    | succ j => rw [xml_update_children, ih, List.modify_succ_cons]

theorem forall₂_modify {r : cxobj → cxobj → Prop} (f : cxobj → cxobj)
    (hf : ∀ c, r c (f c)) (hr : ∀ c, r c c) (i : Nat) (cs : List cxobj) :
    List.Forall₂ r cs (cs.modify f i) := by
  induction cs generalizing i with
  | nil => rw [List.modify_nil]; exact List.Forall₂.nil
  | cons c rest ih =>
    cases i with
    | zero =>
      rw [List.modify_zero_cons]
      exact List.Forall₂.cons (hf c) (List.forall₂_same.2 (fun c _ => hr c))
    | succ j =>
      rw [List.modify_succ_cons]
      exact List.Forall₂.cons (hr c) (ih j)

theorem xml_rel_update (R : Nat → Nat → Prop) (hr : ∀ f, R f f) (g : cxobj → cxobj)
    (hg : ∀ y, xml_rel R y (g y)) (p : xpath_t) :
    ∀ x, xml_rel R x (xml_update g p x) := by
  induction p with
  | nil =>
    intro x
    obtain ⟨n, t, f, s, v, cs⟩ := x
    rw [xml_update]
    exact hg _
  | cons i p ih =>
    intro x
    obtain ⟨n, t, f, s, v, cs⟩ := x
    rw [xml_update, xml_update_children_eq, xml_rel_mk]
    exact ⟨rfl, rfl, hr f, rfl, rfl, forall₂_modify _ ih (xml_rel_refl R hr) i cs⟩

theorem xml_rel_apply_ancestor (R : Nat → Nat → Prop) (hr : ∀ f, R f f) (fn : Nat → Nat)
    (hfn : ∀ f, R f (fn f)) (p : xpath_t) :
    ∀ x, xml_rel R x (xml_apply_ancestor fn p x) := by
  induction p with
  | nil =>
    intro x
    rw [xml_apply_ancestor]
    exact xml_rel_refl R hr x
  | cons i p ih =>
    intro x
    obtain ⟨n, t, f, s, v, cs⟩ := x
    simp only [xml_apply_ancestor, xml_flag_apply]
    rw [xml_rel_mk]
    exact ⟨rfl, rfl, hfn f, rfl, rfl, forall₂_modify _ ih (xml_rel_refl R hr) i cs⟩

theorem xml_rel_flag_set_down (R : Nat → Nat → Prop) (hr : ∀ f, R f f) (flag : Nat)
    (hfn : ∀ f, R f (flag_set flag f)) (p : xpath_t) (x : cxobj) :
    xml_rel R x (xml_flag_set_down flag p x) :=
  xml_rel_update R hr _ (fun y => xml_rel_apply0 R hr _ _ hfn y) p x

theorem xml_rel_type (R : Nat → Nat → Prop) (x y : cxobj) (h : xml_rel R x y) :
    xml_type y = xml_type x := by
  obtain ⟨n, t, f, s, v, cs⟩ := x
  rw [xml_rel] at h
  exact h.2.1

theorem xml_rel_flags (R : Nat → Nat → Prop) (x y : cxobj) (h : xml_rel R x y) :
    R (xml_flags x) (xml_flags y) := by
  obtain ⟨n, t, f, s, v, cs⟩ := x
  rw [xml_rel] at h
  exact h.2.2.1

theorem forall₂_getElem? {r : cxobj → cxobj → Prop} {l1 l2 : List cxobj}
    (h : List.Forall₂ r l1 l2) :
    ∀ (i : Nat) (a : cxobj), l1[i]? = some a → ∃ b, l2[i]? = some b ∧ r a b := by
  induction h with
  | nil =>
    intro i a ha
    simp at ha
  | cons hab _ ih =>
    intro i a ha
    cases i with
    | zero =>
      simp only [List.getElem?_cons_zero, Option.some.injEq] at ha
      subst ha
      exact ⟨_, by simp, hab⟩
    | succ j =>
      simp only [List.getElem?_cons_succ] at ha ⊢
      exact ih j a ha

theorem forall₂_mem_right {r : cxobj → cxobj → Prop} {l1 l2 : List cxobj}
    (h : List.Forall₂ r l1 l2) : ∀ b ∈ l2, ∃ a ∈ l1, r a b := by
  induction h with
  | nil =>
    intro b hb
    cases hb
  | cons hab _ ih =>
    intro b hb
    rcases List.mem_cons.1 hb with e | hb1
    · subst e
      exact ⟨_, List.mem_cons_self _ _, hab⟩
    · obtain ⟨a, ha, hr⟩ := ih b hb1
      exact ⟨a, List.mem_cons_of_mem _ ha, hr⟩

theorem xml_rel_find (R : Nat → Nat → Prop) (p : xpath_t) :
    ∀ x y n, xml_rel R x y → xml_find p x = some n →
      ∃ n1, xml_find p y = some n1 ∧ xml_rel R n n1 := by
  induction p with
  | nil =>
    intro x y n h hf
    simp only [xml_find, Option.some.injEq] at hf
    subst hf
    exact ⟨y, by simp [xml_find], h⟩
  | cons i p ih =>
    intro x y n h hf
    obtain ⟨n0, t, f, s, v, cs⟩ := x
    obtain ⟨n1, t1, f1, s1, v1, cs1⟩ := y
    rw [xml_rel_mk] at h
    simp only [xml_find, xml_children] at hf ⊢
    cases hc : cs[i]? with
    | none => simp [hc] at hf
    | some c =>
      obtain ⟨c1, hc1, hr1⟩ := forall₂_getElem? h.2.2.2.2.2 i c hc
      simp only [hc] at hf
      simp only [hc1]
      exact ih c c1 n hr1 hf

theorem xml_find_update (g : cxobj → cxobj) (p : xpath_t) :
    ∀ t, xml_find p (xml_update g p t) = (xml_find p t).map g := by
  induction p with
  | nil =>
    intro t
    obtain ⟨n, ty, f, s, v, cs⟩ := t
    rw [xml_update]
    simp [xml_find]
  | cons i p ih =>
    intro t
    obtain ⟨n, ty, f, s, v, cs⟩ := t
    rw [xml_update, xml_update_children_eq]
    simp only [xml_find, xml_children]
    rw [List.getElem?_modify_eq]
    cases cs[i]? with
    | none => rfl
    | some c => exact ih c

theorem xml_nodes_children_eq (cs : List cxobj) :
    xml_nodes_children cs = cs.flatMap xml_nodes := by
  induction cs with
  | nil => rw [xml_nodes_children]; rfl
  | cons c rest ih => rw [xml_nodes_children, ih]; rfl

theorem xml_nodes_mk (n : String) (t : cxobj_type) (f : Nat) (s : Option yang_stmt)
    (v : String) (cs : List cxobj) :
    xml_nodes (.mk n t f s v cs) = .mk n t f s v cs :: cs.flatMap xml_nodes := by
  rw [xml_nodes, xml_nodes_children_eq]

theorem xml_rel_nodes (R : Nat → Nat → Prop) (x : cxobj) :
    ∀ y, xml_rel R x y →
      ∀ b ∈ xml_nodes y, ∃ a ∈ xml_nodes x, R (xml_flags a) (xml_flags b) := by
  induction x using cxobj.induct with
  | h n t f s v cs ih =>
    intro y h b hb
    obtain ⟨n1, t1, f1, s1, v1, cs1⟩ := y
    rw [xml_rel_mk] at h
    rw [xml_nodes_mk] at hb ⊢
    rcases List.mem_cons.1 hb with e | hb1
    · subst e
      exact ⟨_, List.mem_cons_self _ _, h.2.2.1⟩
    · obtain ⟨c1, hc1, hb2⟩ := List.mem_flatMap.1 hb1
      obtain ⟨c, hc, hrel⟩ := forall₂_mem_right h.2.2.2.2.2 c1 hc1
      obtain ⟨a, ha, hR⟩ := ih c hc c1 hrel b hb2
      exact ⟨a, List.mem_cons_of_mem _ (List.mem_flatMap.2 ⟨c, hc, ha⟩), hR⟩

theorem xml_elmnt_descendants_children_eq (cs : List cxobj) :
    xml_elmnt_descendants_children cs = cs.flatMap xml_elmnt_descendants_child := by
  induction cs with
  | nil => rw [xml_elmnt_descendants_children]; rfl
  | cons c rest ih => rw [xml_elmnt_descendants_children, ih]; rfl

theorem xml_elmnt_descendants_mk (n : String) (t : cxobj_type) (f : Nat)
    (s : Option yang_stmt) (v : String) (cs : List cxobj) :
    xml_elmnt_descendants (.mk n t f s v cs) = cs.flatMap xml_elmnt_descendants_child := by
  rw [xml_elmnt_descendants, xml_elmnt_descendants_children_eq]

theorem xml_elmnt_descendants_child_mk (n : String) (t : cxobj_type) (f : Nat)
    (s : Option yang_stmt) (v : String) (cs : List cxobj) :
    xml_elmnt_descendants_child (.mk n t f s v cs) =
      if t = cxobj_type.CX_ELMNT then
        .mk n t f s v cs :: cs.flatMap xml_elmnt_descendants_child
      else [] := by
  rw [xml_elmnt_descendants_child, xml_elmnt_descendants_children_eq]

theorem xml_rel_elmnt_descendants_both (R : Nat → Nat → Prop) (x : cxobj) :
    ∀ y, xml_rel R x y →
      (∀ b ∈ xml_elmnt_descendants y,
        ∃ a ∈ xml_elmnt_descendants x, R (xml_flags a) (xml_flags b)) ∧
      (∀ b ∈ xml_elmnt_descendants_child y,
        ∃ a ∈ xml_elmnt_descendants_child x, R (xml_flags a) (xml_flags b)) := by
  induction x using cxobj.induct with
  | h n t f s v cs ih =>
    intro y h
    obtain ⟨n1, t1, f1, s1, v1, cs1⟩ := y
    rw [xml_rel_mk] at h
    obtain ⟨-, ht, hf, -, -, hcs⟩ := h
    subst ht
    have key : ∀ b ∈ cs1.flatMap xml_elmnt_descendants_child,
        ∃ a ∈ cs.flatMap xml_elmnt_descendants_child, R (xml_flags a) (xml_flags b) := by
      intro b hb
      obtain ⟨c1, hc1, hb2⟩ := List.mem_flatMap.1 hb
      obtain ⟨c, hc, hrel⟩ := forall₂_mem_right hcs c1 hc1
      obtain ⟨a, ha, hR⟩ := (ih c hc c1 hrel).2 b hb2
      exact ⟨a, List.mem_flatMap.2 ⟨c, hc, ha⟩, hR⟩
    constructor
    · rw [xml_elmnt_descendants_mk, xml_elmnt_descendants_mk]
      exact key
    · rw [xml_elmnt_descendants_child_mk, xml_elmnt_descendants_child_mk]
      split_ifs
      · intro b hb
        rcases List.mem_cons.1 hb with e | hb1
        · subst e
          exact ⟨_, List.mem_cons_self _ _, hf⟩
        · obtain ⟨a, ha, hR⟩ := key b hb1
          exact ⟨a, List.mem_cons_of_mem _ ha, hR⟩
      · intro b hb
        cases hb

theorem xml_apply_elmnt_descendants_both (fn : Nat → Nat) (P : Nat → Prop)
    (hP : ∀ f, P (fn f)) (x : cxobj) :
    (∀ d ∈ xml_elmnt_descendants (xml_apply cxobj_type.CX_ELMNT fn x), P (xml_flags d)) ∧
    (∀ d ∈ xml_elmnt_descendants_child (xml_apply_child cxobj_type.CX_ELMNT fn x),
      P (xml_flags d)) := by
  induction x using cxobj.induct with
  | h n t f s v cs ih =>
    have key : ∀ d ∈ (xml_apply_children cxobj_type.CX_ELMNT fn cs).flatMap
        xml_elmnt_descendants_child, P (xml_flags d) := by
      intro d hd
      rw [xml_apply_children_eq] at hd
      obtain ⟨c1, hc1, hd2⟩ := List.mem_flatMap.1 hd
      obtain ⟨c, hc, e⟩ := List.mem_map.1 hc1
      subst e
      exact (ih c hc).2 d hd2
    constructor
    · rw [xml_apply, xml_elmnt_descendants_mk]
      exact key
    · rw [xml_apply_child]
      split_ifs with ht
      · rw [xml_elmnt_descendants_child_mk, if_pos ht]
        intro d hd
        rcases List.mem_cons.1 hd with e | hd1
        · subst e
          exact hP f
        · exact key d hd1
      · rw [xml_elmnt_descendants_child_mk, if_neg ht]
        intro d hd
        cases hd

theorem flagged_set_down (flag : Nat) (hflag : flag ≠ 0) (x : cxobj) :
    flagged flag
      (xml_apply cxobj_type.CX_ELMNT (flag_set flag) (xml_flag_apply (flag_set flag) x)) := by
  obtain ⟨n, t, f, s, v, cs⟩ := x
  constructor
  · rw [xml_flag_apply, xml_apply]
    simp only [xml_flag, xml_flags]
    rw [flag_set_carry]
    exact hflag
  · intro d hd
    have := (xml_apply_elmnt_descendants_both (flag_set flag)
      (fun f => f &&& flag ≠ 0)
      (fun f => by show flag_set flag f &&& flag ≠ 0; rw [flag_set_carry]; exact hflag) _).1 d hd
    exact this

theorem flagged_of_rel (flag : Nat) (x y : cxobj) (h : xml_rel flags_le x y)
    (hx : flagged flag x) : flagged flag y := by
  constructor
  · exact flags_le_carry flag (xml_rel_flags _ x y h) hx.1
  · intro d hd
    obtain ⟨a, ha, hR⟩ := (xml_rel_elmnt_descendants_both flags_le x y h).1 d hd
    exact flags_le_carry flag hR (hx.2 a ha)

theorem xml_rel_child_each (R : Nat → Nat → Prop) (x y : cxobj) (h : xml_rel R x y) :
    xml_child_each_elmnt y = xml_child_each_elmnt x := by
  obtain ⟨n, t, f, s, v, cs⟩ := x
  obtain ⟨n1, t1, f1, s1, v1, cs1⟩ := y
  rw [xml_rel_mk] at h
  have hcs := h.2.2.2.2.2
  simp only [xml_child_each_elmnt, xml_child_nr, xml_children]
  rw [← hcs.length_eq]
  apply List.filter_congr
  intro i hi
  have hlt : i < cs.length := List.mem_range.1 hi
  obtain ⟨c, hc⟩ : ∃ c, cs[i]? = some c := ⟨cs[i], List.getElem?_eq_getElem hlt⟩
  obtain ⟨c1, hc1, hr⟩ := forall₂_getElem? hcs i c hc
  simp only [hc, hc1, xml_rel_type R c c1 hr]

/-! ## The marking of the trees -/

theorem run_events_trans {w w0 w1 : World} (h0 : w0.trace = w.trace ++ run_events w w0)
    (h1 : w1.trace = w0.trace ++ run_events w0 w1) :
    run_events w w1 = run_events w w0 ++ run_events w0 w1 := by
  have e : run_events w w1 = w1.trace.drop w.trace.length := rfl
  rw [e, h1]
  generalize run_events w0 w1 = e1
  rw [h0]
  generalize run_events w w0 = e0
  simp

theorem invoked_after {w w0 w1 : World} (ph : trans_phase)
    (h0 : w0.trace = w.trace ++ run_events w w0)
    (h1 : w1.trace = w0.trace ++ run_events w0 w1)
    (hi : invoked ph (labels (run_events w0 w1)) = true) :
    invoked ph (labels (run_events w w1)) = true := by
  rw [run_events_trans h0 h1, labels_append]
  simp only [invoked, List.any_append, Bool.or_eq_true] at hi ⊢
  exact Or.inr hi

theorem Env.read_some (env : Env) (dbs : String → Option cxobj) (db : String) (t : cxobj)
    (h : env.read dbs db = some t) : dbs db = some t := by
  unfold Env.read at h
  split_ifs at h
  exact h

theorem mark_deleted_rel (R : Nat → Nat → Prop) (hr : ∀ f, R f f)
    (ht : ∀ f g h, R f g → R g h → R f h)
    (hD : ∀ f, R f (flag_set XML_FLAG_DEL f)) (hC : ∀ f, R f (flag_set XML_FLAG_CHANGE f))
    (l : List xpath_t) :
    ∀ t, ∃ t1, mark_deleted l (some t) = some t1 ∧ xml_rel R t t1 := by
  induction l with
  | nil => exact fun t => ⟨t, rfl, xml_rel_refl R hr t⟩
  | cons xn rest ih =>
    intro t
    obtain ⟨t1, h1, h2⟩ := ih (xml_apply_ancestor (flag_set XML_FLAG_CHANGE) xn
      (xml_flag_set_down XML_FLAG_DEL xn t))
    refine ⟨t1, h1, ?_⟩
    exact xml_rel_trans R ht _ _ _
      (xml_rel_trans R ht _ _ _ (xml_rel_flag_set_down R hr _ hD xn t)
        (xml_rel_apply_ancestor R hr _ hC xn _)) h2

theorem mark_added_rel (R : Nat → Nat → Prop) (hr : ∀ f, R f f)
    (ht : ∀ f g h, R f g → R g h → R f h)
    (hA : ∀ f, R f (flag_set XML_FLAG_ADD f)) (hC : ∀ f, R f (flag_set XML_FLAG_CHANGE f))
    (l : List xpath_t) :
    ∀ t, ∃ t1, mark_added l (some t) = some t1 ∧ xml_rel R t t1 := by
  induction l with
  | nil => exact fun t => ⟨t, rfl, xml_rel_refl R hr t⟩
  | cons xn rest ih =>
    intro t
    obtain ⟨t1, h1, h2⟩ := ih (xml_apply_ancestor (flag_set XML_FLAG_CHANGE) xn
      (xml_flag_set_down XML_FLAG_ADD xn t))
    refine ⟨t1, h1, ?_⟩
    exact xml_rel_trans R ht _ _ _
      (xml_rel_trans R ht _ _ _ (xml_rel_flag_set_down R hr _ hA xn t)
        (xml_rel_apply_ancestor R hr _ hC xn _)) h2

theorem mark_changed_rel (R : Nat → Nat → Prop) (hr : ∀ f, R f f)
    (ht : ∀ f g h, R f g → R g h → R f h)
    (hC : ∀ f, R f (flag_set XML_FLAG_CHANGE f)) (l : List xpath_t) :
    ∀ t, ∃ t1, mark_changed l (some t) = some t1 ∧ xml_rel R t t1 := by
  induction l with
  | nil => exact fun t => ⟨t, rfl, xml_rel_refl R hr t⟩
  | cons xn rest ih =>
    intro t
    obtain ⟨t1, h1, h2⟩ := ih (xml_apply_ancestor (flag_set XML_FLAG_CHANGE) xn
      (xml_update (xml_flag_apply (flag_set XML_FLAG_CHANGE)) xn t))
    refine ⟨t1, h1, ?_⟩
    exact xml_rel_trans R ht _ _ _
      (xml_rel_trans R ht _ _ _
        (xml_rel_update R hr _ (fun y => xml_rel_flag_apply R hr _ hC y) xn t)
        (xml_rel_apply_ancestor R hr _ hC xn _)) h2

theorem startup_add_loop_rel (R : Nat → Nat → Prop) (hr : ∀ f, R f f)
    (ht : ∀ f g h, R f g → R g h → R f h)
    (hA : ∀ f, R f (flag_set XML_FLAG_ADD f)) (l : List Nat) :
    ∀ td t, td.td_target = some t →
      ∃ t1, (startup_add_loop l td).td_target = some t1 ∧ xml_rel R t t1 := by
  induction l with
  | nil => exact fun td t h => ⟨t, h, xml_rel_refl R hr t⟩
  | cons i rest ih =>
    intro td t h
    rw [startup_add_loop]
    obtain ⟨t1, h1, h2⟩ := ih
      { td with
        td_target := td.td_target.map (xml_flag_set_down XML_FLAG_ADD [i])
        td_avec := td.td_avec ++ [[i]]
        td_alen := td.td_alen + 1 } (xml_flag_set_down XML_FLAG_ADD [i] t) (by simp [h])
    exact ⟨t1, h1, xml_rel_trans R ht _ _ _ (xml_rel_flag_set_down R hr _ hA [i] t) h2⟩

theorem startup_add_loop_vecs (l : List Nat) :
    ∀ td, (startup_add_loop l td).td_src = td.td_src ∧
      (startup_add_loop l td).td_dvec = td.td_dvec ∧
      (startup_add_loop l td).td_dlen = td.td_dlen ∧
      (startup_add_loop l td).td_scvec = td.td_scvec ∧
      (startup_add_loop l td).td_tcvec = td.td_tcvec ∧
      (startup_add_loop l td).td_clen = td.td_clen ∧
      (startup_add_loop l td).td_avec = td.td_avec ++ l.map (fun i => [i]) ∧
      (startup_add_loop l td).td_alen = td.td_alen + l.length := by
  induction l with
  | nil => intro td; simp [startup_add_loop]
  | cons i rest ih =>
    intro td
    rw [startup_add_loop]
    obtain ⟨h1, h2, h3, h4, h5, h6, h7, h8⟩ := ih
      { td with
        td_target := td.td_target.map (xml_flag_set_down XML_FLAG_ADD [i])
        td_avec := td.td_avec ++ [[i]]
        td_alen := td.td_alen + 1 }
    refine ⟨h1, h2, h3, h4, h5, h6, ?_, ?_⟩
    · rw [h7]; simp
    · rw [h8]; simp; omega

theorem startup_add_loop_flagged (l : List Nat) :
    ∀ td t, td.td_target = some t →
      ∃ t1, (startup_add_loop l td).td_target = some t1 ∧ xml_rel flags_le t t1 ∧
        ∀ i ∈ l, ∀ n, xml_find [i] t = some n →
          ∃ n1, xml_find [i] t1 = some n1 ∧ xml_rel flags_le n n1 ∧
            flagged XML_FLAG_ADD n1 := by
  induction l with
  | nil =>
    intro td t h
    exact ⟨t, h, xml_rel_refl flags_le flags_le_refl t, fun i hi => absurd hi (List.not_mem_nil i)⟩
  | cons i rest ih =>
    intro td t h
    rw [startup_add_loop]
    have hstep : xml_rel flags_le t (xml_flag_set_down XML_FLAG_ADD [i] t) :=
      xml_rel_flag_set_down flags_le flags_le_refl _ (flags_le_set _) [i] t
    obtain ⟨t1, h1, h2, h3⟩ := ih
      { td with
        td_target := td.td_target.map (xml_flag_set_down XML_FLAG_ADD [i])
        td_avec := td.td_avec ++ [[i]]
        td_alen := td.td_alen + 1 } (xml_flag_set_down XML_FLAG_ADD [i] t) (by simp [h])
    refine ⟨t1, h1, xml_rel_trans flags_le (fun _ _ _ => flags_le_trans) _ _ _ hstep h2, ?_⟩
    intro j hj n hn
    rcases List.mem_cons.1 hj with e | hj1
    · subst e
      have hf : xml_find [j] (xml_flag_set_down XML_FLAG_ADD [j] t) =
          some (xml_apply cxobj_type.CX_ELMNT (flag_set XML_FLAG_ADD)
            (xml_flag_apply (flag_set XML_FLAG_ADD) n)) := by
        rw [xml_flag_set_down, xml_find_update, hn]
        rfl
      obtain ⟨n1, hn1, hr1⟩ := xml_rel_find flags_le [j] _ _ _ h2 hf
      refine ⟨n1, hn1, ?_, flagged_of_rel _ _ _ hr1 (flagged_set_down _ (by decide) n)⟩
      exact xml_rel_trans flags_le (fun _ _ _ => flags_le_trans) _ _ _
        (xml_rel_apply0 flags_le flags_le_refl _ _ (flags_le_set _) n) hr1
    · obtain ⟨n0, hn0, hr0⟩ := xml_rel_find flags_le [j] _ _ _ hstep hn
      obtain ⟨n1, hn1, hr1, hfl⟩ := h3 j hj1 n0 hn0
      exact ⟨n1, hn1, xml_rel_trans flags_le (fun _ _ _ => flags_le_trans) _ _ _ hr0 hr1, hfl⟩

theorem xml_child_each_find (t : cxobj) (i : Nat) (hi : i ∈ xml_child_each_elmnt t) :
    ∃ n, xml_find [i] t = some n ∧ xml_type n = cxobj_type.CX_ELMNT := by
  simp only [xml_child_each_elmnt, List.mem_filter] at hi
  obtain ⟨-, h2⟩ := hi
  cases hc : (xml_children t)[i]? with
  | none => simp [hc] at h2
  | some c =>
    simp only [hc, decide_eq_true_eq] at h2
    exact ⟨c, by simp [xml_find, hc], h2⟩

theorem no_add_del_of_keep_add (s0 s1 : cxobj) (h : xml_rel (flags_keep XML_FLAG_ADD) s0 s1)
    (hf : ∀ y ∈ xml_nodes s0, xml_flag y XML_FLAG_ADD = 0) :
    ∀ y ∈ xml_nodes s1,
      ¬ (xml_flag y XML_FLAG_ADD ≠ 0 ∧ xml_flag y XML_FLAG_DEL ≠ 0) := by
  intro y hy hboth
  obtain ⟨a, ha, hk⟩ := xml_rel_nodes _ s0 s1 h y hy
  apply hboth.1
  unfold flags_keep at hk
  unfold xml_flag
  rw [hk]
  exact hf a ha

theorem no_add_del_of_keep_del (s0 s1 : cxobj) (h : xml_rel (flags_keep XML_FLAG_DEL) s0 s1)
    (hf : ∀ y ∈ xml_nodes s0, xml_flag y XML_FLAG_DEL = 0) :
    ∀ y ∈ xml_nodes s1,
      ¬ (xml_flag y XML_FLAG_ADD ≠ 0 ∧ xml_flag y XML_FLAG_DEL ≠ 0) := by
  intro y hy hboth
  obtain ⟨a, ha, hk⟩ := xml_rel_nodes _ s0 s1 h y hy
  apply hboth.2
  unfold flags_keep at hk
  unfold xml_flag
  rw [hk]
  exact hf a ha

theorem startup_common_phases_begin (env : Env) (td : transaction_data_t) (w : World) :
    PRun w (startup_common_phases env td w).2.2 (fun p => p.1 = .TR_BEGIN → p.2 = td) := by
  simp only [startup_common_phases, plugin_transaction, generic_validate, World.log]
  split_ifs <;> refine PRun.of_log ?_ ?_ <;>
    simp [run_events, plugin_events, clicon_xml2cbuf_trace]

theorem startup_common_phases_invoked (env : Env) (td : transaction_data_t) (w : World) :
    invoked .TR_BEGIN (labels (run_events w (startup_common_phases env td w).2.2)) = true :=
  Run.check (fun p => invoked .TR_BEGIN p.2) (by rfl) (startup_common_phases_run env td w)

theorem from_validate_common_phases_begin (env : Env) (td : transaction_data_t)
    (xret : Option cxobj) (w : World) :
    PRun w (from_validate_common_phases env td xret w).2.2.2
      (fun p => p.1 = .TR_BEGIN → p.2 = td) := by
  simp only [from_validate_common_phases, plugin_transaction, generic_validate, World.log]
  split_ifs <;> refine PRun.of_log ?_ ?_ <;> simp [run_events, plugin_events]

theorem startup_common_begin (env : Env) (db : String) (td : transaction_data_t)
    (w : World) :
    PRun w (startup_common env db td w).2.2
      (fun p => p.1 = .TR_BEGIN →
        ∃ t, startup_tree env db w = some t ∧
          p.2 = startup_add_loop (xml_child_each_elmnt t) (td.set_target (some t))) := by
  simp only [startup_common, startup_tree, xmldb_get0, World.log, World.clicon_err,
    World.cprintf]
  cases h1 : env.read w.dbs db with
  | none => refine PRun.of_log ?_ ?_ <;> simp [run_events, plugin_events]
  | some x =>
    simp only []
    cases hy : env.clicon_dbspec_yang with
    | none =>
      simp only []
      split_ifs <;> refine PRun.of_log ?_ ?_ <;> simp [run_events, plugin_events]
    | some yspec =>
      simp only []
      split_ifs
      case neg =>
        refine PRun.prepend (PRun.weaken (startup_common_phases_begin env _ _) ?_) ?_ ?_
        · intro p hp hb
          exact ⟨_, rfl, hp hb⟩
        · simp [run_events]
        · simp [run_events, plugin_events]
      all_goals
        refine PRun.of_log ?_ ?_ <;> simp [run_events, plugin_events]

theorem startup_common_invoked (env : Env) (db : String) (td : transaction_data_t)
    (w : World) (h : (startup_tree env db w).isSome = true) :
    invoked .TR_BEGIN (labels (run_events w (startup_common env db td w).2.2)) = true := by
  revert h
  simp only [startup_common, startup_tree, xmldb_get0, World.log, World.clicon_err,
    World.cprintf]
  cases h1 : env.read w.dbs db with
  | none => simp
  | some x =>
    simp only []
    cases hy : env.clicon_dbspec_yang with
    | none =>
      simp only []
      split_ifs <;> simp
    | some yspec =>
      simp only []
      split_ifs
      case neg =>
        intro _
        refine invoked_after _ ?_ (startup_common_phases_run env _ _).events.1
          (startup_common_phases_invoked env _ _)
        simp [run_events]
      all_goals simp

theorem from_validate_common_begin (env : Env) (candidate : String)
    (td : transaction_data_t) (xret : Option cxobj) (w : World) :
    PRun w (from_validate_common env candidate td xret w).2.2.2
      (fun p => p.1 = .TR_BEGIN →
        ∃ yspec t0 s0, w.dbs candidate = some t0 ∧ w.dbs "running" = some s0 ∧
          p.2 = mark_transaction
            (((td.set_target (some (xml_apply0 cxobj_type.CX_ELMNT
                (flag_reset (XML_FLAG_MARK ||| XML_FLAG_CHANGE)) t0))).set_src
              (some (xml_apply0 cxobj_type.CX_ELMNT
                (flag_reset (XML_FLAG_MARK ||| XML_FLAG_CHANGE)) s0))).set_diff
              (env.xml_diff yspec
                (some (xml_apply0 cxobj_type.CX_ELMNT
                  (flag_reset (XML_FLAG_MARK ||| XML_FLAG_CHANGE)) s0))
                (some (xml_apply0 cxobj_type.CX_ELMNT
                  (flag_reset (XML_FLAG_MARK ||| XML_FLAG_CHANGE)) t0))))) := by
  simp only [from_validate_common, xmldb_get0, World.log, World.clicon_err]
  cases hy : env.clicon_dbspec_yang with
  | none => refine PRun.of_log ?_ ?_ <;> simp [run_events, plugin_events]
  | some yspec =>
    cases h1 : env.read w.dbs candidate with
    | none => refine PRun.of_log ?_ ?_ <;> simp [run_events, plugin_events]
    | some x =>
      cases h2 : env.read w.dbs "running" with
      | none =>
        simp only []
        split_ifs <;> refine PRun.of_log ?_ ?_ <;> simp [run_events, plugin_events]
      | some x2 =>
        simp only []
        split_ifs
        · refine PRun.of_log ?_ ?_ <;> simp [run_events, plugin_events]
        · refine PRun.of_log ?_ ?_ <;> simp [run_events, plugin_events]
        · refine PRun.of_log ?_ ?_ <;> simp [run_events, plugin_events]
        · refine PRun.prepend (PRun.weaken (from_validate_common_phases_begin env _ _ _) ?_) ?_ ?_
          · intro p hp hb
            exact ⟨yspec, x, x2, Env.read_some _ _ _ _ h1, Env.read_some _ _ _ _ h2, hp hb⟩
          · simp [run_events]
          · simp [run_events, plugin_events]

theorem mark_transaction_src_rel (R : Nat → Nat → Prop) (hr : ∀ f, R f f)
    (ht : ∀ f g h, R f g → R g h → R f h)
    (hD : ∀ f, R f (flag_set XML_FLAG_DEL f)) (hC : ∀ f, R f (flag_set XML_FLAG_CHANGE f))
    (td : transaction_data_t) (s : cxobj) (h : td.td_src = some s) :
    ∃ s2, (mark_transaction td).td_src = some s2 ∧ xml_rel R s s2 := by
  obtain ⟨s1, hs1, hr1⟩ := mark_deleted_rel R hr ht hD hC (td.td_dvec.take td.td_dlen) s
  obtain ⟨s2, hs2, hr2⟩ := mark_changed_rel R hr ht hC (td.td_scvec.take td.td_clen) s1
  refine ⟨s2, ?_, xml_rel_trans R ht _ _ _ hr1 hr2⟩
  simp only [mark_transaction]
  rw [h, hs1, hs2]

theorem mark_transaction_target_rel (R : Nat → Nat → Prop) (hr : ∀ f, R f f)
    (ht : ∀ f g h, R f g → R g h → R f h)
    (hA : ∀ f, R f (flag_set XML_FLAG_ADD f)) (hC : ∀ f, R f (flag_set XML_FLAG_CHANGE f))
    (td : transaction_data_t) (t : cxobj) (h : td.td_target = some t) :
    ∃ t2, (mark_transaction td).td_target = some t2 ∧ xml_rel R t t2 := by
  obtain ⟨t1, ht1, hr1⟩ := mark_added_rel R hr ht hA hC (td.td_avec.take td.td_alen) t
  obtain ⟨t2, ht2, hr2⟩ := mark_changed_rel R hr ht hC (td.td_tcvec.take td.td_clen) t1
  refine ⟨t2, ?_, xml_rel_trans R ht _ _ _ hr1 hr2⟩
  simp only [mark_transaction]
  rw [h, ht1, ht2]

theorem mark_transaction_no_add_del (td : transaction_data_t) (s t s0 t0 : cxobj)
    (hs : td.td_src = some s) (ht : td.td_target = some t)
    (hrs : xml_rel (flags_keep XML_FLAG_ADD) s0 s)
    (hrt : xml_rel (flags_keep XML_FLAG_DEL) t0 t)
    (hfs : ∀ y ∈ xml_nodes s0, xml_flag y XML_FLAG_ADD = 0)
    (hft : ∀ y ∈ xml_nodes t0, xml_flag y XML_FLAG_DEL = 0) :
    no_add_del (mark_transaction td).td_src ∧ no_add_del (mark_transaction td).td_target := by
  constructor
  · obtain ⟨s2, hs2, hr2⟩ := mark_transaction_src_rel (flags_keep XML_FLAG_ADD)
      (flags_keep_refl _) (fun _ _ _ => flags_keep_trans)
      (fun f => flags_keep_set _ _ f (by decide)) (fun f => flags_keep_set _ _ f (by decide))
      td s hs
    rw [hs2]
    intro x hx
    cases hx
    exact no_add_del_of_keep_add s0 _
      (xml_rel_trans (flags_keep XML_FLAG_ADD) (fun _ _ _ => flags_keep_trans) _ _ _ hrs hr2)
      hfs
  · obtain ⟨t2, ht2, hr2⟩ := mark_transaction_target_rel (flags_keep XML_FLAG_DEL)
      (flags_keep_refl _) (fun _ _ _ => flags_keep_trans)
      (fun f => flags_keep_set _ _ f (by decide)) (fun f => flags_keep_set _ _ f (by decide))
      td t ht
    rw [ht2]
    intro x hx
    cases hx
    exact no_add_del_of_keep_del t0 _
      (xml_rel_trans (flags_keep XML_FLAG_DEL) (fun _ _ _ => flags_keep_trans) _ _ _ hrt hr2)
      hft

/-! ## The rules of `generic_validate` in order -/

theorem first_not_ok_append (a b : List Int) :
    first_not_ok (a ++ b) = if first_not_ok a < 1 then first_not_ok a else first_not_ok b := by
  induction a with
  | nil => simp [first_not_ok]
  | cons r rest ih =>
    simp only [List.cons_append, first_not_ok]
    split_ifs <;> simp_all

theorem generic_validate_add_rules (env : Env) (target : Option cxobj) (l : List xpath_t) :
    ∀ xret, (generic_validate_add env target l xret).1 =
      first_not_ok (l.map (fun c => (env.xml_yang_validate_add target c).1)) := by
  induction l with
  | nil => intro _; rfl
  | cons x rest ih =>
    intro xret
    simp only [generic_validate_add, List.map_cons, first_not_ok]
    split_ifs
    · rfl
    · rfl
    · exact ih _

theorem generic_validate_deleted_rules (env : Env) (src : Option cxobj) (l : List xpath_t) :
    ∀ xret, (generic_validate_deleted env src l xret).1 =
      first_not_ok (l.map (deleted_outcome src)) := by
  induction l with
  | nil => intro _; rfl
  | cons x rest ih =>
    intro xret
    cases hx : src.bind (xml_find x) with
    | none =>
      simp only [generic_validate_deleted, List.map_cons, first_not_ok, deleted_outcome, hx]
      simpa using ih xret
    | some n =>
      by_cases hm : mandatory_removed (xml_spec n) = true
      · simp [generic_validate_deleted, first_not_ok, deleted_outcome, hx, hm]
      · simp only [generic_validate_deleted, List.map_cons, first_not_ok, deleted_outcome, hx,
          hm]
        simpa using ih xret

theorem first_not_ok_le (l : List Int) : first_not_ok l ≤ 1 ∧ -1 ≤ first_not_ok l := by
  induction l with
  | nil => simp [first_not_ok]
  | cons r rest ih =>
    simp only [first_not_ok]
    split_ifs <;> omega

theorem deleted_rules_nonneg (src : Option cxobj) (l : List xpath_t) :
    0 ≤ first_not_ok (l.map (deleted_outcome src)) := by
  induction l with
  | nil => simp [first_not_ok]
  | cons x rest ih =>
    simp only [List.map_cons, first_not_ok]
    split_ifs with h1 h2
    · exfalso
      simp only [deleted_outcome] at h1
      split at h1
      · split_ifs at h1 <;> omega
      · omega
    · omega
    · exact ih

theorem generic_validate_rules (env : Env) (td : transaction_data_t) (xret : Option cxobj) :
    (generic_validate env td xret).1 = first_not_ok (rule_outcomes env td) := by
  simp only [generic_validate, generic_validate_body, rule_outcomes, first_not_ok,
    first_not_ok_append]
  have hd := generic_validate_deleted_rules env td.td_src (td.td_dvec.take td.td_dlen)
  have ha := generic_validate_add_rules env td.td_target
  have h3 := deleted_rules_nonneg td.td_src (td.td_dvec.take td.td_dlen)
  have h4 := first_not_ok_le ((td.td_dvec.take td.td_dlen).map (deleted_outcome td.td_src))
  by_cases h1 : (env.xml_yang_validate_all_top td.td_target).1 < 0
  · simp [h1]
  · by_cases h2 : (env.xml_yang_validate_all_top td.td_target).1 = 0
    · simp [h2]
    · simp only [h1, h2, if_false, ha, hd]
      generalize first_not_ok ((td.td_dvec.take td.td_dlen).map (deleted_outcome td.td_src))
        = D at h3 h4 ⊢
      split_ifs <;> omega

theorem removal_forbidden_iff (n : cxobj) :
    mandatory_removed (xml_spec n) = true ↔ removal_forbidden n := by
  rw [mandatory_removed_iff]
  constructor
  · rintro ⟨y, hy, hm, hc, hp⟩
    refine ⟨y, hy, hm, hc, ?_⟩
    cases hpar : yang_parent_get y with
    | none => exact Or.inl rfl
    | some yp => exact Or.inr ⟨yp, rfl, hp yp hpar⟩
  · rintro ⟨y, hy, hm, hc, hp⟩
    refine ⟨y, hy, hm, hc, ?_⟩
    intro yp hyp
    rcases hp with h | ⟨yp1, h1, h2⟩
    · rw [h] at hyp; cases hyp
    · rw [h1] at hyp; cases hyp; exact h2

theorem first_mandatory_deleted_first (src : Option cxobj) (n : cxobj) (x : xpath_t)
    (post : List xpath_t) (hn : src.bind (xml_find x) = some n)
    (hf : mandatory_removed (xml_spec n) = true) :
    ∀ pre : List xpath_t,
      (∀ y ∈ pre, ∀ k, src.bind (xml_find y) = some k → mandatory_removed (xml_spec k) = false) →
      first_mandatory_deleted src (pre ++ x :: post) = some n := by
  intro pre
  induction pre with
  | nil => intro _; simp [first_mandatory_deleted, hn, hf]
  | cons y rest ih =>
    intro h
    have ih1 := ih (fun z hz => h z (List.mem_cons_of_mem _ hz))
    simp only [first_mandatory_deleted] at ih1 ⊢
    cases hy : src.bind (xml_find y) with
    | none => simpa [hy] using ih1
    | some k =>
      have hk := h y (List.mem_cons_self _ _) k hy
      simpa [hy, hk] using ih1

theorem first_mandatory_deleted_none (src : Option cxobj) (l : List xpath_t)
    (h : ∀ x ∈ l, ∀ n, src.bind (xml_find x) = some n → mandatory_removed (xml_spec n) = false) :
    first_mandatory_deleted src l = none := by
  simp only [first_mandatory_deleted, List.find?_eq_none, List.mem_filterMap]
  rintro n ⟨x, hx, hn⟩
  simp [h x hx n hn]

theorem generic_validate_deleted_hit (env : Env) (td : transaction_data_t)
    (xret : Option cxobj) (m : cxobj)
    (hall : 0 < (env.xml_yang_validate_all_top td.td_target).1)
    (hchg : ∀ c ∈ td.td_tcvec.take td.td_clen,
      0 < (env.xml_yang_validate_add td.td_target c).1)
    (hm : first_mandatory_deleted td.td_src (td.td_dvec.take td.td_dlen) = some m) :
    (generic_validate env td xret).1 = 0 ∧
      (generic_validate env td xret).2.1 = some (missing_mandatory env m) := by
  have h1 : ¬ (env.xml_yang_validate_all_top td.td_target).1 < 0 := by omega
  have h2 : ¬ (env.xml_yang_validate_all_top td.td_target).1 = 0 := by omega
  constructor <;>
    simp [generic_validate, generic_validate_body, h1, h2,
      generic_validate_add_ok env _ _ _ hchg, generic_validate_deleted_eq, hm]

theorem generic_validate_deleted_miss (env : Env) (td : transaction_data_t)
    (xret : Option cxobj)
    (hall : 0 < (env.xml_yang_validate_all_top td.td_target).1)
    (hchg : ∀ c ∈ td.td_tcvec.take td.td_clen,
      0 < (env.xml_yang_validate_add td.td_target c).1)
    (hm : first_mandatory_deleted td.td_src (td.td_dvec.take td.td_dlen) = none) :
    (generic_validate env td xret).1 = (generic_validate env { td with td_dlen := 0 } xret).1 ∧
      (generic_validate env td xret).2.1 =
        (generic_validate env { td with td_dlen := 0 } xret).2.1 := by
  have h1 : ¬ (env.xml_yang_validate_all_top td.td_target).1 < 0 := by omega
  have h2 : ¬ (env.xml_yang_validate_all_top td.td_target).1 = 0 := by omega
  constructor <;>
    simp [generic_validate, generic_validate_body, h1, h2,
      generic_validate_add_ok env _ _ _ hchg, generic_validate_deleted_eq, hm,
      generic_validate_deleted]

theorem generic_validate_add_calls (env : Env) (target : Option cxobj) (l : List xpath_t)
    (xret : Option cxobj)
    (h : ∀ x ∈ l, 0 < (env.xml_yang_validate_add target x).1) :
    (generic_validate_add env target l xret).2.2 =
      l.map (fun x => Event.xml_yang_validate_add (env.xml_yang_validate_add target x).1) := by
  induction l generalizing xret with
  | nil => rfl
  | cons x rest ih =>
    have hx := h x (List.mem_cons_self _ _)
    have h1 : ¬ (env.xml_yang_validate_add target x).1 < 0 := by omega
    have h2 : ¬ (env.xml_yang_validate_add target x).1 = 0 := by omega
    simp only [generic_validate_add, h1, h2, if_false, List.map_cons]
    rw [ih _ (fun y hy => h y (List.mem_cons_of_mem _ hy))]

theorem generic_validate_deleted_calls (env : Env) (td : transaction_data_t)
    (xret : Option cxobj) (m : cxobj)
    (hall : 0 < (env.xml_yang_validate_all_top td.td_target).1)
    (hchg : ∀ c ∈ td.td_tcvec.take td.td_clen,
      0 < (env.xml_yang_validate_add td.td_target c).1)
    (hm : first_mandatory_deleted td.td_src (td.td_dvec.take td.td_dlen) = some m) :
    (generic_validate env td xret).2.2 =
      .generic_validate 0
        (.xml_yang_validate_all_top (env.xml_yang_validate_all_top td.td_target).1 ::
          (td.td_tcvec.take td.td_clen).map
            (fun c => Event.xml_yang_validate_add (env.xml_yang_validate_add td.td_target c).1)) := by
  have h1 : ¬ (env.xml_yang_validate_all_top td.td_target).1 < 0 := by omega
  have h2 : ¬ (env.xml_yang_validate_all_top td.td_target).1 = 0 := by omega
  simp [generic_validate, generic_validate_body, h1, h2,
    generic_validate_add_ok env _ _ _ hchg, generic_validate_add_calls env _ _ _ hchg,
    generic_validate_deleted_eq, hm]

theorem xml_rel_symm (R : Nat → Nat → Prop) (x : cxobj) :
    ∀ y, xml_rel R x y → xml_rel (fun a b => R b a) y x := by
  induction x using cxobj.induct with
  | h n t f s v cs ih =>
    intro y hxy
    obtain ⟨n1, t1, f1, s1, v1, cs1⟩ := y
    rw [xml_rel_mk] at hxy ⊢
    obtain ⟨h1, h2, h3, h4, h5, h6⟩ := hxy
    refine ⟨h1.symm, h2.symm, h3, h4.symm, h5.symm, ?_⟩
    clear h1 h2 h3 h4 h5
    induction h6 with
    | nil => exact List.Forall₂.nil
    | @cons a b l1 l2 hab _ ih2 =>
      exact List.Forall₂.cons (ih a (List.mem_cons_self _ _) b hab)
        (ih2 (fun c hc => ih c (List.mem_cons_of_mem _ hc)))

theorem xml_rel_name_spec (R : Nat → Nat → Prop) (x y : cxobj) (h : xml_rel R x y) :
    xml_name y = xml_name x ∧ xml_spec y = xml_spec x := by
  obtain ⟨n, t, f, s, v, cs⟩ := x
  obtain ⟨n1, t1, f1, s1, v1, cs1⟩ := y
  rw [xml_rel_mk] at h
  exact ⟨h.1, h.2.2.2.1⟩

theorem generic_validate_deleted_flags (env : Env) (s s1 : cxobj)
    (h : xml_rel (fun _ _ => True) s s1) (l : List xpath_t) :
    ∀ xret, generic_validate_deleted env (some s1) l xret =
      generic_validate_deleted env (some s) l xret := by
  induction l with
  | nil => intro _; rfl
  | cons x rest ih =>
    intro xret
    simp only [generic_validate_deleted, Option.some_bind]
    cases hx : xml_find x s with
    | none =>
      have hx1 : xml_find x s1 = none := by
        cases hx1 : xml_find x s1 with
        | none => rfl
        | some n1 =>
          obtain ⟨n, hn, _⟩ := xml_rel_find _ x s1 s n1 (xml_rel_symm _ s s1 h) hx1
          rw [hx] at hn
          cases hn
      simp only [hx1]
      exact ih xret
    | some n =>
      obtain ⟨n1, hn1, hr⟩ := xml_rel_find _ x s s1 n h hx
      obtain ⟨hname, hspec⟩ := xml_rel_name_spec _ n n1 hr
      simp only [hn1, hname, hspec, ih xret]

theorem generic_validate_flags (env : Env) (td : transaction_data_t) (s s1 : cxobj)
    (h : xml_rel (fun _ _ => True) s s1) (xret : Option cxobj) :
    generic_validate env { td with td_src := some s1 } xret =
      generic_validate env { td with td_src := some s } xret := by
  simp only [generic_validate, generic_validate_body, generic_validate_deleted_flags env s s1 h]

/-! ## The marks of a transaction -/

theorem xml_rel_find_isSome (R : Nat → Nat → Prop) (p : xpath_t) (x y : cxobj)
    (h : xml_rel R x y) : (xml_find p y).isSome = (xml_find p x).isSome := by
  cases hx : xml_find p x with
  | some n =>
    obtain ⟨n1, hn1, _⟩ := xml_rel_find R p x y n h hx
    simp [hn1]
  | none =>
    cases hy : xml_find p y with
    | none => rfl
    | some n1 =>
      obtain ⟨n, hn, _⟩ := xml_rel_find _ p y x n1 (xml_rel_symm R x y h) hy
      rw [hx] at hn
      cases hn

theorem xml_flag_of_le (flag : Nat) (x y : cxobj) (h : xml_rel flags_le x y)
    (hx : xml_flag x flag ≠ 0) : xml_flag y flag ≠ 0 :=
  flags_le_carry flag (xml_rel_flags _ x y h) hx

theorem ancestors_flagged_of_rel (flag : Nat) (p : xpath_t) (t t1 : cxobj)
    (h : xml_rel flags_le t t1) (ha : ancestors_flagged flag p t) :
    ancestors_flagged flag p t1 := by
  intro q hq hne
  obtain ⟨a, hfa, hfl⟩ := ha q hq hne
  obtain ⟨a1, hfa1, hr⟩ := xml_rel_find _ q t t1 a h hfa
  exact ⟨a1, hfa1, xml_flag_of_le flag a a1 hr hfl⟩

theorem marked_down_of_rel (flag : Nat) (p : xpath_t) (t t1 : cxobj)
    (h : xml_rel flags_le t t1) (hm : marked_down flag p t) : marked_down flag p t1 := by
  obtain ⟨⟨n, hn, hf⟩, ha⟩ := hm
  obtain ⟨n1, hn1, hr⟩ := xml_rel_find _ p t t1 n h hn
  exact ⟨⟨n1, hn1, flagged_of_rel flag n n1 hr hf⟩, ancestors_flagged_of_rel _ p t t1 h ha⟩

theorem marked_up_of_rel (p : xpath_t) (t t1 : cxobj)
    (h : xml_rel flags_le t t1) (hm : marked_up p t) : marked_up p t1 := by
  obtain ⟨⟨n, hn, hf⟩, ha⟩ := hm
  obtain ⟨n1, hn1, hr⟩ := xml_rel_find _ p t t1 n h hn
  exact ⟨⟨n1, hn1, xml_flag_of_le _ n n1 hr hf⟩, ancestors_flagged_of_rel _ p t t1 h ha⟩

theorem xml_apply_ancestor_flagged (flag : Nat) (hflag : flag ≠ 0) (p : xpath_t) :
    ∀ t, (xml_find p t).isSome →
      ancestors_flagged flag p (xml_apply_ancestor (flag_set flag) p t) := by
  induction p with
  | nil =>
    intro t _ q hq hne
    exact absurd (List.prefix_nil.1 hq) hne
  | cons i p ih =>
    intro t hfind q hq hne
    obtain ⟨n, ty, f, s, v, cs⟩ := t
    simp only [xml_find, xml_children] at hfind
    cases hc : cs[i]? with
    | none => simp [hc] at hfind
    | some c =>
      simp only [hc] at hfind
      cases q with
      | nil =>
        refine ⟨_, rfl, ?_⟩
        simp only [xml_apply_ancestor, xml_flag_apply, xml_flag, xml_flags]
        rw [flag_set_carry]
        exact hflag
      | cons j q =>
        obtain ⟨hij, hqp⟩ := List.cons_prefix_cons.1 hq
        subst hij
        have hne1 : q ≠ p := fun e => hne (by rw [e])
        obtain ⟨a, ha, hfl⟩ := ih c hfind q hqp hne1
        refine ⟨a, ?_, hfl⟩
        simp only [xml_apply_ancestor, xml_flag_apply, xml_find, xml_children]
        have : (cs.modify (xml_apply_ancestor (flag_set flag) p) j)[j]? =
            some (xml_apply_ancestor (flag_set flag) p c) := by
          rw [List.getElem?_modify_eq, hc]
          rfl
        rw [this]
        exact ha

theorem mark_loop_spec (mark : List xpath_t → Option cxobj → Option cxobj)
    (step : xpath_t → cxobj → cxobj)
    (hnil : ∀ t, mark [] t = t)
    (hcons : ∀ x rest t, mark (x :: rest) t = mark rest (t.map (step x)))
    (hrel : ∀ x t, xml_rel flags_le t (step x t))
    (P : xpath_t → cxobj → Prop)
    (hP : ∀ x t, (xml_find x t).isSome → P x (step x t))
    (hmono : ∀ x t t1, xml_rel flags_le t t1 → P x t → P x t1) :
    ∀ l t, ∃ t1, mark l (some t) = some t1 ∧ xml_rel flags_le t t1 ∧
      ∀ x ∈ l, (xml_find x t).isSome → P x t1 := by
  intro l
  induction l with
  | nil =>
    intro t
    exact ⟨t, hnil _, xml_rel_refl _ flags_le_refl t, fun x hx => absurd hx (List.not_mem_nil x)⟩
  | cons x rest ih =>
    intro t
    obtain ⟨t1, ht1, hr1, hall⟩ := ih (step x t)
    refine ⟨t1, ?_, xml_rel_trans flags_le (fun _ _ _ => flags_le_trans) _ _ _ (hrel x t) hr1, ?_⟩
    · rw [hcons]; exact ht1
    · intro y hy hfind
      rcases List.mem_cons.1 hy with rfl | hy
      · exact hmono _ _ _ hr1 (hP _ t hfind)
      · exact hall y hy (by rw [xml_rel_find_isSome _ y t _ (hrel x t)]; exact hfind)

theorem mark_step_rel (g : xpath_t → cxobj → cxobj) (hg : ∀ x t, xml_rel flags_le t (g x t))
    (x : xpath_t) (t : cxobj) :
    xml_rel flags_le t (xml_apply_ancestor (flag_set XML_FLAG_CHANGE) x (g x t)) :=
  xml_rel_trans flags_le (fun _ _ _ => flags_le_trans) _ _ _ (hg x t)
    (xml_rel_apply_ancestor flags_le flags_le_refl _ (fun f => flags_le_set _ f) x _)

theorem mark_deleted_marked (l : List xpath_t) (t : cxobj) :
    ∃ t1, mark_deleted l (some t) = some t1 ∧ xml_rel flags_le t t1 ∧
      ∀ x ∈ l, (xml_find x t).isSome → marked_down XML_FLAG_DEL x t1 := by
  have hg : ∀ x t, xml_rel flags_le t (xml_flag_set_down XML_FLAG_DEL x t) := fun x t =>
    xml_rel_flag_set_down flags_le flags_le_refl _ (fun f => flags_le_set _ f) x t
  refine mark_loop_spec mark_deleted
    (fun x t => xml_apply_ancestor (flag_set XML_FLAG_CHANGE) x
      (xml_flag_set_down XML_FLAG_DEL x t))
    (fun _ => rfl) (fun _ _ _ => rfl) (mark_step_rel _ hg) (marked_down XML_FLAG_DEL) ?_
    (fun x t t1 h hm => marked_down_of_rel _ x t t1 h hm) l t
  intro x t hfind
  have hfind1 : (xml_find x (xml_flag_set_down XML_FLAG_DEL x t)).isSome := by
    rw [xml_rel_find_isSome _ x t _ (hg x t)]; exact hfind
  refine ⟨?_, xml_apply_ancestor_flagged _ (by decide) x _ hfind1⟩
  obtain ⟨n, hn⟩ := Option.isSome_iff_exists.1 hfind
  have h1 : xml_find x (xml_flag_set_down XML_FLAG_DEL x t) = some
      (xml_apply cxobj_type.CX_ELMNT (flag_set XML_FLAG_DEL)
        (xml_flag_apply (flag_set XML_FLAG_DEL) n)) := by
    simp only [xml_flag_set_down, xml_find_update, hn, Option.map_some']
  obtain ⟨n1, hn1, hr⟩ := xml_rel_find _ x _ _ _
    (xml_rel_apply_ancestor flags_le flags_le_refl (flag_set XML_FLAG_CHANGE)
      (fun f => flags_le_set _ f) x (xml_flag_set_down XML_FLAG_DEL x t)) h1
  exact ⟨n1, hn1, flagged_of_rel _ _ _ hr (flagged_set_down _ (by decide) n)⟩

theorem mark_added_marked (l : List xpath_t) (t : cxobj) :
    ∃ t1, mark_added l (some t) = some t1 ∧ xml_rel flags_le t t1 ∧
      ∀ x ∈ l, (xml_find x t).isSome → marked_down XML_FLAG_ADD x t1 := by
  have hg : ∀ x t, xml_rel flags_le t (xml_flag_set_down XML_FLAG_ADD x t) := fun x t =>
    xml_rel_flag_set_down flags_le flags_le_refl _ (fun f => flags_le_set _ f) x t
  refine mark_loop_spec mark_added
    (fun x t => xml_apply_ancestor (flag_set XML_FLAG_CHANGE) x
      (xml_flag_set_down XML_FLAG_ADD x t))
    (fun _ => rfl) (fun _ _ _ => rfl) (mark_step_rel _ hg) (marked_down XML_FLAG_ADD) ?_
    (fun x t t1 h hm => marked_down_of_rel _ x t t1 h hm) l t
  intro x t hfind
  have hfind1 : (xml_find x (xml_flag_set_down XML_FLAG_ADD x t)).isSome := by
    rw [xml_rel_find_isSome _ x t _ (hg x t)]; exact hfind
  refine ⟨?_, xml_apply_ancestor_flagged _ (by decide) x _ hfind1⟩
  obtain ⟨n, hn⟩ := Option.isSome_iff_exists.1 hfind
  have h1 : xml_find x (xml_flag_set_down XML_FLAG_ADD x t) = some
      (xml_apply cxobj_type.CX_ELMNT (flag_set XML_FLAG_ADD)
        (xml_flag_apply (flag_set XML_FLAG_ADD) n)) := by
    simp only [xml_flag_set_down, xml_find_update, hn, Option.map_some']
  obtain ⟨n1, hn1, hr⟩ := xml_rel_find _ x _ _ _
    (xml_rel_apply_ancestor flags_le flags_le_refl (flag_set XML_FLAG_CHANGE)
      (fun f => flags_le_set _ f) x (xml_flag_set_down XML_FLAG_ADD x t)) h1
  exact ⟨n1, hn1, flagged_of_rel _ _ _ hr (flagged_set_down _ (by decide) n)⟩

theorem mark_changed_marked (l : List xpath_t) (t : cxobj) :
    ∃ t1, mark_changed l (some t) = some t1 ∧ xml_rel flags_le t t1 ∧
      ∀ x ∈ l, (xml_find x t).isSome → marked_up x t1 := by
  have hg : ∀ x t, xml_rel flags_le t
      (xml_update (xml_flag_apply (flag_set XML_FLAG_CHANGE)) x t) := fun x t =>
    xml_rel_update flags_le flags_le_refl _
      (fun y => xml_rel_flag_apply flags_le flags_le_refl _ (fun f => flags_le_set _ f) y) x t
  refine mark_loop_spec mark_changed
    (fun x t => xml_apply_ancestor (flag_set XML_FLAG_CHANGE) x
      (xml_update (xml_flag_apply (flag_set XML_FLAG_CHANGE)) x t))
    (fun _ => rfl) (fun _ _ _ => rfl) (mark_step_rel _ hg) marked_up ?_
    (fun x t t1 h hm => marked_up_of_rel x t t1 h hm) l t
  intro x t hfind
  have hfind1 : (xml_find x (xml_update (xml_flag_apply (flag_set XML_FLAG_CHANGE)) x t)).isSome := by
    rw [xml_rel_find_isSome _ x t _ (hg x t)]; exact hfind
  refine ⟨?_, xml_apply_ancestor_flagged _ (by decide) x _ hfind1⟩
  obtain ⟨n, hn⟩ := Option.isSome_iff_exists.1 hfind
  have h1 : xml_find x (xml_update (xml_flag_apply (flag_set XML_FLAG_CHANGE)) x t) = some
      (xml_flag_apply (flag_set XML_FLAG_CHANGE) n) := by
    simp only [xml_find_update, hn, Option.map_some']
  obtain ⟨n1, hn1, hr⟩ := xml_rel_find _ x _ _ _
    (xml_rel_apply_ancestor flags_le flags_le_refl (flag_set XML_FLAG_CHANGE)
      (fun f => flags_le_set _ f) x _) h1
  refine ⟨n1, hn1, xml_flag_of_le _ _ _ hr ?_⟩
  obtain ⟨nn, ty, f, s, v, cs⟩ := n
  simp only [xml_flag_apply, xml_flag, xml_flags]
  rw [flag_set_carry]
  decide

theorem mark_transaction_marked (td : transaction_data_t) (s t : cxobj)
    (hs : td.td_src = some s) (ht : td.td_target = some t) :
    marked (mark_transaction td) := by
  obtain ⟨s1, hs1, hrs1, hd⟩ := mark_deleted_marked (td.td_dvec.take td.td_dlen) s
  obtain ⟨s2, hs2, hrs2, hsc⟩ := mark_changed_marked (td.td_scvec.take td.td_clen) s1
  obtain ⟨t1, ht1, hrt1, ha⟩ := mark_added_marked (td.td_avec.take td.td_alen) t
  obtain ⟨t2, ht2, hrt2, htc⟩ := mark_changed_marked (td.td_tcvec.take td.td_clen) t1
  have hsrc : (mark_transaction td).td_src = some s2 := by
    simp only [mark_transaction]; rw [hs, hs1, hs2]
  have htgt : (mark_transaction td).td_target = some t2 := by
    simp only [mark_transaction]; rw [ht, ht1, ht2]
  have hrs : xml_rel flags_le s s2 :=
    xml_rel_trans flags_le (fun _ _ _ => flags_le_trans) _ _ _ hrs1 hrs2
  have hrt : xml_rel flags_le t t2 :=
    xml_rel_trans flags_le (fun _ _ _ => flags_le_trans) _ _ _ hrt1 hrt2
  constructor
  · intro s' hs'
    rw [hsrc] at hs'
    cases hs'
    refine ⟨?_, ?_⟩
    · intro x hx hfind
      have h0 : (xml_find x s).isSome := by
        rw [← xml_rel_find_isSome _ x s _ hrs]; exact hfind
      exact marked_down_of_rel _ x s1 _ hrs2 (hd x hx h0)
    · intro x hx hfind
      have h1 : (xml_find x s1).isSome := by
        rw [← xml_rel_find_isSome _ x s1 _ hrs2]; exact hfind
      exact hsc x hx h1
  · intro t' ht'
    rw [htgt] at ht'
    cases ht'
    refine ⟨?_, ?_⟩
    · intro x hx hfind
      have h0 : (xml_find x t).isSome := by
        rw [← xml_rel_find_isSome _ x t _ hrt]; exact hfind
      exact marked_down_of_rel _ x t1 _ hrt2 (ha x hx h0)
    · intro x hx hfind
      have h1 : (xml_find x t1).isSome := by
        rw [← xml_rel_find_isSome _ x t1 _ hrt2]; exact hfind
      exact htc x hx h1

theorem mark_transaction_keep (b : Nat) (hb : XML_FLAG_CHANGE &&& b = 0)
    (td : transaction_data_t) (s t : cxobj)
    (hs : td.td_src = some s) (ht : td.td_target = some t)
    (hd : td.td_dlen = 0) (ha : td.td_alen = 0) :
    ∃ s2 t2, (mark_transaction td).td_src = some s2 ∧
      (mark_transaction td).td_target = some t2 ∧
      xml_rel (flags_keep b) s s2 ∧ xml_rel (flags_keep b) t t2 := by
  obtain ⟨s2, hs2, hrs2⟩ := mark_changed_rel (flags_keep b) (flags_keep_refl b)
    (fun _ _ _ => flags_keep_trans) (fun f => flags_keep_set _ _ f hb)
    (td.td_scvec.take td.td_clen) s
  obtain ⟨t2, ht2, hrt2⟩ := mark_changed_rel (flags_keep b) (flags_keep_refl b)
    (fun _ _ _ => flags_keep_trans) (fun f => flags_keep_set _ _ f hb)
    (td.td_tcvec.take td.td_clen) t
  refine ⟨s2, t2, ?_, ?_, hrs2, hrt2⟩
  · simp only [mark_transaction, hd, List.take_zero, mark_deleted]
    rw [hs, hs2]
  · simp only [mark_transaction, ha, List.take_zero, mark_added]
    rw [ht, ht2]

/-! ## Facts about the client list -/

theorem backend_client_delete_loop_filter (ce : Nat) :
    ∀ l : List client_cell, (l.map client_cell.ptr).Nodup →
      backend_client_delete_loop ce l = l.filter (fun c => decide (c.ptr ≠ ce)) := by
  intro l
  induction l with
  | nil => intro _; rfl
  | cons c rest ih =>
    intro hnd
    simp only [List.map_cons, List.nodup_cons] at hnd
    by_cases hc : c.ptr = ce
    · have hall : ∀ x ∈ rest, decide (x.ptr ≠ ce) = true := by
        intro x hx
        have : x.ptr ≠ ce := by
          intro e
          exact hnd.1 (List.mem_map.2 ⟨x, hx, by rw [e, hc]⟩)
        simpa using this
      simp only [backend_client_delete_loop, hc, if_true]
      rw [List.filter_cons_of_neg (by simp [hc]), List.filter_eq_self.2 hall]
    · simp only [backend_client_delete_loop, hc, if_false]
      rw [List.filter_cons_of_pos (by simp [hc]), ih hnd.2]

theorem backend_client_delete_loop_absent (ce : Nat) :
    ∀ l : List client_cell, ce ∉ l.map client_cell.ptr →
      backend_client_delete_loop ce l = l := by
  intro l
  induction l with
  | nil => intro _; rfl
  | cons c rest ih =>
    intro h
    simp only [List.map_cons, List.mem_cons, not_or] at h
    have hc : ¬ c.ptr = ce := fun e => h.1 e.symm
    simp only [backend_client_delete_loop, hc, if_false, ih h.2]

theorem backend_handle_exit_loop_ends :
    ∀ (l : List client_cell) (nr : Int) (fuel : Nat), l.length < fuel →
      backend_handle_exit_loop fuel { bh_ce_list := l, bh_ce_nr := nr } =
        some { bh_ce_list := [], bh_ce_nr := nr } := by
  intro l
  induction l with
  | nil =>
    intro nr fuel hf
    obtain ⟨f, rfl⟩ : ∃ f, fuel = f + 1 := ⟨fuel - 1, by simp at hf; omega⟩
    rfl
  | cons c rest ih =>
    intro nr fuel hf
    obtain ⟨f, rfl⟩ : ∃ f, fuel = f + 1 := ⟨fuel - 1, by simp at hf; omega⟩
    simp only [backend_handle_exit_loop, backend_client_list, List.head?_cons, Option.map_some',
      backend_client_delete, backend_client_delete_loop, if_true]
    exact ih nr f (by simp at hf; omega)

theorem int32_wrap_succ (c : Int) (i : Nat) :
    int32_wrap (int32_wrap (c + i) + 1) = int32_wrap (c + (i + 1 : Nat)) := by
  simp only [int32_wrap]
  push_cast
  omega

theorem int32_wrap_inj (c : Int) (i j : Nat) (hi : i < 2 ^ 32) (hj : j < 2 ^ 32)
    (h : int32_wrap (c + i) = int32_wrap (c + j)) : i = j := by
  simp only [int32_wrap] at h
  omega

theorem client_requests_numbers (c : Int) :
    ∀ (ops : List client_request) (h : backend_handle) (i : Nat),
      h.bh_ce_nr = int32_wrap (c + i) →
      (client_requests ops h).2 =
        (List.range (client_adds ops)).map (fun k => int32_wrap (c + ((i + k : Nat) : Int))) := by
  intro ops
  induction ops with
  | nil => intro h i _; rfl
  | cons op rest ih =>
    intro h i hi
    cases op with
    | add ptr =>
      have hnext : (backend_client_add h ptr).2.bh_ce_nr = int32_wrap (c + ((i + 1 : Nat) : Int)) := by
        simp only [backend_client_add, hi]
        exact int32_wrap_succ c i
      simp only [client_requests, client_adds, ih _ (i + 1) hnext, List.range_succ_eq_map,
        List.map_cons, List.map_map]
      refine congrArg₂ _ ?_ ?_
      · simp [backend_client_add, hi]
      · apply List.map_congr_left
        intro k _
        simp only [Function.comp, Nat.succ_eq_add_one]
        congr 2
        omega
    | delete ce =>
      simp only [client_requests, client_adds]
      exact ih _ i (by simpa [backend_client_delete] using hi)

theorem client_adds_append (a b : List client_request) :
    client_adds (a ++ b) = client_adds a + client_adds b := by
  induction a with
  | nil => simp [client_adds]
  | cons op rest ih =>
    cases op with
    | add p =>
      show client_adds (rest ++ b) + 1 = client_adds rest + 1 + client_adds b
      omega
    | delete p => exact ih

theorem client_adds_churn (n : Nat) : client_adds (client_churn n) = n := by
  induction n with
  | zero => rfl
  | succ n ih => simp [client_churn, client_adds, ih]

theorem client_requests_counter (c : Int) :
    ∀ (ops : List client_request) (h : backend_handle) (i : Nat),
      h.bh_ce_nr = int32_wrap (c + i) →
      (client_requests ops h).1.bh_ce_nr =
        int32_wrap (c + ((i + client_adds ops : Nat) : Int)) := by
  intro ops
  induction ops with
  | nil => intro h i hi; simpa [client_requests, client_adds] using hi
  | cons op rest ih =>
    intro h i hi
    cases op with
    | add ptr =>
      have hnext : (backend_client_add h ptr).2.bh_ce_nr =
          int32_wrap (c + ((i + 1 : Nat) : Int)) := by
        simp only [backend_client_add, hi]
        exact int32_wrap_succ c i
      simp only [client_requests, client_adds, ih _ (i + 1) hnext]
      congr 3
      omega
    | delete ce =>
      simp only [client_requests, client_adds]
      exact ih _ i (by simpa [backend_client_delete] using hi)

theorem client_requests_churn_list :
    ∀ (n : Nat) (h : backend_handle), h.bh_ce_list = [] →
      (client_requests (client_churn n) h).1.bh_ce_list = [] := by
  intro n
  induction n with
  | zero => intro h hh; simpa [client_churn, client_requests] using hh
  | succ n ih =>
    intro h hh
    simp only [client_churn, client_requests]
    apply ih
    simp [backend_client_delete, backend_client_add, backend_client_delete_loop, hh]

theorem client_requests_churn (n : Nat) :
    client_requests (client_churn n) backend_handle_init =
      ({ bh_ce_list := [], bh_ce_nr := int32_wrap n },
        (List.range n).map (fun k => int32_wrap ((k : Nat) : Int))) := by
  have h1 := client_requests_churn_list n backend_handle_init rfl
  have h2 := client_requests_counter 0 (client_churn n) backend_handle_init 0 (by decide)
  have h3 := client_requests_numbers 0 (client_churn n) backend_handle_init 0 (by decide)
  rw [client_adds_churn] at h2 h3
  generalize client_requests (client_churn n) backend_handle_init = r at h1 h2 h3
  obtain ⟨⟨l, c⟩, ns⟩ := r
  simp only at h1 h2 h3
  subst h1
  simp [h2, h3]

theorem client_requests_append (a b : List client_request) :
    ∀ h, client_requests (a ++ b) h =
      ((client_requests b (client_requests a h).1).1,
        (client_requests a h).2 ++ (client_requests b (client_requests a h).1).2) := by
  induction a with
  | nil => intro h; rfl
  | cons op rest ih =>
    intro h
    cases op <;> simp [client_requests, ih]

theorem int32_wrap_period : int32_wrap (((2 ^ 32 : Nat) : Int)) = 0 := by
  norm_num [int32_wrap]

/-! ## Facts about `xpath_append` -/

theorem clicon_strsep_ne_nil (delim : List Char) (s : List Char) :
    clicon_strsep delim s ≠ [] := by
  induction s with
  | nil => simp [clicon_strsep]
  | cons c rest ih =>
    simp only [clicon_strsep]
    split_ifs
    · simp
    · cases h : clicon_strsep delim rest <;> simp

theorem clicon_strsep_piece (v : List Char) (hv : '/' ∉ v) :
    clicon_strsep ['/'] v = [v] := by
  induction v with
  | nil => rfl
  | cons c rest ih =>
    have hc : c ≠ '/' := fun h => hv (by simp [h])
    have hr : '/' ∉ rest := fun h => hv (List.mem_cons_of_mem _ h)
    simp [clicon_strsep, hc, ih hr]

theorem clicon_strsep_append (v rest : List Char) (hv : '/' ∉ v) :
    clicon_strsep ['/'] (v ++ '/' :: rest) = v :: clicon_strsep ['/'] rest := by
  induction v with
  | nil => simp [clicon_strsep]
  | cons c v ih =>
    have hc : c ≠ '/' := fun h => hv (by simp [h])
    have hr : '/' ∉ v := fun h => hv (List.mem_cons_of_mem _ h)
    simp [clicon_strsep, hc, ih hr]

theorem clicon_strsep_join (v : List Char) (vs : List (List Char))
    (h : ∀ x ∈ v :: vs, '/' ∉ x) :
    clicon_strsep ['/'] (xpath_join (v :: vs)) = v :: vs := by
  induction vs generalizing v with
  | nil => exact clicon_strsep_piece v (h v (by simp))
  | cons w rest ih =>
    simp only [xpath_join]
    rw [clicon_strsep_append v _ (h v (by simp)),
      ih w (fun x hx => h x (List.mem_cons_of_mem _ hx))]

theorem xpath_append_subtract_cut (a s : List Char) (hs : '/' ∉ s) :
    ∀ j, a.length ≤ j → xpath_append_subtract (a ++ '/' :: s) j = a := by
  intro j
  induction j with
  | zero =>
    intro h
    have ha : a = [] := List.eq_nil_of_length_eq_zero (by omega)
    subst ha
    simp [xpath_append_subtract, cbuf_trunc]
  | succ j ih =>
    intro h
    by_cases hj : a.length = j + 1
    · have h1 : (a ++ '/' :: s)[j + 1]? = some '/' := by
        rw [← hj, List.getElem?_append_right (le_refl _)]; simp
      simp only [xpath_append_subtract, h1, if_true, cbuf_trunc]
      rw [← hj]
      simp
    · have hlt : a.length < j + 1 := by omega
      have h1 : (a ++ '/' :: s)[j + 1]? ≠ some '/' := by
        intro hx
        rw [List.getElem?_append_right (by omega)] at hx
        have : (j + 1 - a.length) = (j - a.length) + 1 := by omega
        rw [this, List.getElem?_cons_succ] at hx
        exact hs (List.getElem?_mem hx)
      simp only [xpath_append_subtract, h1, if_false]
      exact ih (by omega)

theorem xpath_of_segments_append (segs : List (List Char)) (s : List Char) :
    xpath_of_segments (segs ++ [s]) = xpath_of_segments segs ++ '/' :: s := by
  simp [xpath_of_segments]

theorem nodeid_split_dotdot : nodeid_split ['.', '.'] = (none, ['.', '.']) := by
  decide

theorem xpath_append_loop_ups (mp : List Char) (rest : List (List Char)) :
    ∀ (k : Nat) (segs : List (List Char)), (∀ s ∈ segs, '/' ∉ s) → k ≤ segs.length →
      xpath_append_loop mp (List.replicate k ['.', '.'] ++ rest) true (xpath_of_segments segs) =
        xpath_append_loop mp rest true
          (xpath_of_segments (segs.take (segs.length - k))) := by
  intro k
  induction k with
  | zero => intro segs _ _; simp
  | succ k ih =>
    intro segs hsegs hk
    obtain ⟨init, s, rfl⟩ : ∃ init s, segs = init ++ [s] := by
      rcases List.eq_nil_or_concat segs with h | ⟨init, s, h⟩
      · subst h; simp at hk
      · exact ⟨init, s, by simpa using h⟩
    have hs : '/' ∉ s := hsegs s (by simp)
    have hinit : ∀ x ∈ init, '/' ∉ x := fun x hx => hsegs x (by simp [hx])
    have hk1 : k ≤ init.length := by simpa using hk
    have hcut : xpath_append_subtract (xpath_of_segments (init ++ [s]))
        (xpath_of_segments (init ++ [s])).length = xpath_of_segments init := by
      rw [xpath_of_segments_append]
      exact xpath_append_subtract_cut _ _ hs _ (by simp)
    have htake : (init ++ [s]).take ((init ++ [s]).length - (k + 1)) =
        init.take (init.length - k) := by
      have : (init ++ [s]).length - (k + 1) = init.length - k := by simp
      rw [this, List.take_append_of_le_length (by omega)]
    rw [htake, ← ih init hinit hk1]
    simp only [List.replicate_succ, List.cons_append, xpath_append_loop, nodeid_split_dotdot,
      hcut]
    simp

theorem nodeid_split_step (r : Option (List Char) × List Char) (h : step_names_node r) :
    nodeid_split (step_text r) = r := by
  obtain ⟨p, id⟩ := r
  cases p with
  | none =>
    have hc : ':' ∉ id := h.2.2.2.1
    simp [nodeid_split, step_text, hc]
  | some p =>
    have hc : ':' ∉ p := h.2.2.2.2
    have h1 : (p ++ ':' :: id).takeWhile (fun c => c != ':') = p := by
      rw [List.takeWhile_append_of_pos]
      · simp
      · intro c hcp
        have : c ≠ ':' := fun e => hc (e ▸ hcp)
        simpa using this
    have h2 : (p ++ ':' :: id).dropWhile (fun c => c != ':') = ':' :: id := by
      rw [List.dropWhile_append_of_pos]
      · simp
      · intro c hcp
        have : c ≠ ':' := fun e => hc (e ▸ hcp)
        simpa using this
    simp [nodeid_split, step_text, h1, h2]

theorem step_text_ne_nil (r : Option (List Char) × List Char) (h : step_names_node r) :
    step_text r ≠ [] := by
  obtain ⟨p, id⟩ := r
  cases p with
  | none => exact h.2.2.2.2
  | some p => simp [step_text]

theorem xpath_append_loop_steps (mp : List Char)
    (steps : List (Option (List Char) × List Char)) :
    (∀ r ∈ steps, step_names_node r) → ∀ (b : Bool) (cb : List Char),
      xpath_append_loop mp (steps.map step_text) b cb =
        cb ++ steps.flatMap (fun r => '/' :: (r.1.getD mp ++ ':' :: r.2)) := by
  induction steps with
  | nil => intro _ b cb; simp [xpath_append_loop]
  | cons r rest ih =>
    intro h b cb
    have hr := h r (by simp)
    have hne : (step_text r).length ≠ 0 := by
      intro h0
      exact step_text_ne_nil r hr (List.eq_nil_of_length_eq_zero h0)
    simp only [List.map_cons, xpath_append_loop, hne, if_false, nodeid_split_step r hr,
      hr.2.1, hr.2.2.1]
    rw [ih (fun x hx => h x (List.mem_cons_of_mem _ hx))]
    simp

theorem step_text_no_slash (r : Option (List Char) × List Char) (h : step_names_node r) :
    '/' ∉ step_text r := by
  obtain ⟨p, id⟩ := r
  cases p with
  | none => exact h.1
  | some p =>
    have h1 : '/' ∉ p := h.2.2.2.1
    have h2 : '/' ∉ id := h.1
    simp [step_text, h1, h2]

theorem xpath_relative_head (k : Nat) (steps : List (Option (List Char) × List Char))
    (h : ∀ r ∈ steps, step_names_node r) :
    (xpath_relative k steps).head? ≠ some '/' := by
  have key : ∀ (v : List Char) (vs : List (List Char)), '/' ∉ v → v ≠ [] →
      (xpath_join (v :: vs)).head? ≠ some '/' := by
    intro v vs hv hne
    cases v with
    | nil => exact absurd rfl hne
    | cons c v =>
      have hc : c ≠ '/' := fun e => hv (by simp [e])
      cases vs with
      | nil => simpa [xpath_join] using hc
      | cons w rest => simpa [xpath_join] using hc
  simp only [xpath_relative]
  cases k with
  | succ k => exact key _ _ (by decide) (by decide)
  | zero =>
    cases steps with
    | nil => simp [xpath_join]
    | cons r rest =>
      exact key _ _ (step_text_no_slash r (h r (by simp))) (step_text_ne_nil r (h r (by simp)))

/-! ## Facts about `restconf_sd_read` and `http2_exec` -/

theorem restconf_sd_read_eq (sd : restconf_stream_data) (cb : List Nat) (L fl : Nat)
    (hb : sd.sd_body = some cb) (ho : sd.sd_body_offset < cb.length) :
    restconf_sd_read L fl sd =
      some (min (cb.length - sd.sd_body_offset) L,
        (cb.drop sd.sd_body_offset).take (min (cb.length - sd.sd_body_offset) L),
        (if cb.length - sd.sd_body_offset ≤ L then fl ||| NGHTTP2_DATA_FLAG_EOF else fl),
        { sd with sd_body_offset :=
            sd.sd_body_offset + min (cb.length - sd.sd_body_offset) L }) := by
  have hmin : (if cb.length - sd.sd_body_offset ≤ L then cb.length - sd.sd_body_offset else L)
      = min (cb.length - sd.sd_body_offset) L := by
    split_ifs with h
    · exact (min_eq_left h).symm
    · exact (min_eq_right (by omega)).symm
  simp only [restconf_sd_read, hb, gt_iff_lt, ho, if_true, hmin]

theorem restconf_sd_read_calls_spec (cb : List Nat) :
    ∀ (lengths : List Nat) (sd : restconf_stream_data), sd.sd_body = some cb →
      sd.sd_body_offset < cb.length → (∀ l ∈ lengths, 0 < l) →
      ∃ calls, restconf_sd_read_calls lengths sd = some calls ∧
        calls.flatMap Prod.fst <+: cb.drop sd.sd_body_offset ∧
        (∀ c ∈ calls.dropLast, c.2 &&& NGHTTP2_DATA_FLAG_EOF = 0) ∧
        ((∃ c ∈ calls, c.2 &&& NGHTTP2_DATA_FLAG_EOF ≠ 0) ↔
          calls.flatMap Prod.fst = cb.drop sd.sd_body_offset) ∧
        (cb.length - sd.sd_body_offset ≤ lengths.sum →
          calls.flatMap Prod.fst = cb.drop sd.sd_body_offset) := by
  intro lengths
  induction lengths with
  | nil =>
    intro sd hb ho _
    refine ⟨[], rfl, by simp, by simp, ?_, ?_⟩
    · have : cb.drop sd.sd_body_offset ≠ [] := by
        intro h
        have := congrArg List.length h
        simp at this
        omega
      simp [eq_comm, this]
    · intro h
      simp at h
      omega
  | cons L rest ih =>
    intro sd hb ho hpos
    have hL : 0 < L := hpos L (by simp)
    rw [restconf_sd_read_calls, restconf_sd_read_eq sd cb L 0 hb ho]
    by_cases hrem : cb.length - sd.sd_body_offset ≤ L
    · have htake : (cb.drop sd.sd_body_offset).take (min (cb.length - sd.sd_body_offset) L) =
          cb.drop sd.sd_body_offset := by
        rw [min_eq_left hrem]
        exact List.take_of_length_le (by simp)
      have hflag : (0 ||| NGHTTP2_DATA_FLAG_EOF) &&& NGHTTP2_DATA_FLAG_EOF ≠ 0 := by decide
      simp only [hrem, if_true, htake, hflag, ne_eq, not_false_eq_true]
      refine ⟨_, rfl, by simp, by simp, ?_, ?_⟩
      · simp only [List.flatMap_cons, List.flatMap_nil, List.append_nil, iff_true]
        exact ⟨_, List.mem_singleton.2 rfl, hflag⟩
      · intro _; simp
    · have hlt : L < cb.length - sd.sd_body_offset := by omega
      have hmin : min (cb.length - sd.sd_body_offset) L = L := min_eq_right (by omega)
      have hflag : ¬ ((0 : Nat) &&& NGHTTP2_DATA_FLAG_EOF ≠ 0) := by decide
      simp only [hrem, if_false, hmin, hflag]
      obtain ⟨calls, hc, hpre, hlast, hiff, hall⟩ :=
        ih { sd with sd_body_offset := sd.sd_body_offset + L } hb (by simp; omega)
          (fun l hl => hpos l (List.mem_cons_of_mem _ hl))
      simp only [] at hc hpre hlast hiff hall
      have hsplit : cb.drop sd.sd_body_offset =
          (cb.drop sd.sd_body_offset).take L ++ cb.drop (sd.sd_body_offset + L) := by
        rw [← List.drop_drop, List.take_append_drop]
      rw [hc]
      refine ⟨_, rfl, ?_, ?_, ?_, ?_⟩
      · simp only [List.flatMap_cons]
        rw [hsplit, List.take_left']
        · exact (List.prefix_append_right_inj _).2 hpre
        · simp; omega
      · intro c hcm
        cases calls with
        | nil => simp at hcm
        | cons k ks =>
          simp only [List.dropLast_cons₂, List.mem_cons] at hcm
          rcases hcm with rfl | hcm
          · show (0 : Nat) &&& NGHTTP2_DATA_FLAG_EOF = 0
            decide
          · exact hlast c hcm
      · simp only [List.flatMap_cons, List.mem_cons, exists_eq_or_imp]
        have h0 : ¬ ((0 : Nat) &&& NGHTTP2_DATA_FLAG_EOF ≠ 0) := by decide
        rw [hiff]
        constructor
        · rintro (h | h)
          · exact absurd h h0
          · rw [h]; exact hsplit.symm
        · intro h
          right
          exact List.append_cancel_left (h.trans hsplit)
      · intro hsum
        simp only [List.sum_cons] at hsum
        simp only [List.flatMap_cons]
        have hs : cb.length - (sd.sd_body_offset + L) ≤ rest.sum := by
          clear hiff hlast hpre hc hall
          omega
        rw [hall hs]
        exact hsplit.symm

theorem http2_exec_reply_headers (env : restconf_env) (sd : restconf_stream_data)
    (resp : List (String × String)) (h : (http2_exec_reply env sd).2.2 = some resp) :
    resp = response_headers sd ++
      (if sd.sd_code ≠ 204 ∧ sd.sd_code > 199 ∧ sd.sd_body_len ≠ 0 then
        [("Content-Length", Nat.repr sd.sd_body_len)] else []) := by
  simp only [http2_exec_reply, restconf_reply_header, restconf_submit_response] at h
  by_cases hc : sd.sd_code ≠ 204 ∧ sd.sd_code > 199 ∧ sd.sd_body_len ≠ 0
  · simp only [hc, and_self, if_true] at h ⊢
    split_ifs at h
    all_goals simp_all [response_headers]
  · simp only [hc, if_false] at h ⊢
    split_ifs at h
    all_goals simp_all [response_headers]

theorem http2_exec_reply_code (env : restconf_env) (sd : restconf_stream_data) :
    (http2_exec_reply env sd).2.1.sd_code = sd.sd_code := by
  simp only [http2_exec_reply, restconf_reply_header]
  split_ifs <;> rfl

/-! ## Facts about `prompt_fmt` -/

theorem c_string_no_nul (bytes : List Char) : NUL ∉ c_string bytes := by
  intro h
  have := List.mem_takeWhile_imp h
  simp at this

theorem c_string_at_head (pre : List Char) (c : Char) (rest : List Char) :
    c_string_at (pre ++ c :: rest) pre.length = some c := by
  have h : (pre ++ c :: rest)[pre.length]? = some c := by
    rw [List.getElem?_append_right (le_refl _)]; simp
  simp [c_string_at, h]

theorem c_string_at_end (pre : List Char) :
    c_string_at pre pre.length = some NUL := by
  simp [c_string_at]

theorem c_string_at_next (pre : List Char) (c d : Char) (rest : List Char) :
    c_string_at (pre ++ c :: d :: rest) (pre.length + 1) = some d := by
  have h : pre ++ c :: d :: rest = (pre ++ [c]) ++ d :: rest := by simp
  have h2 := c_string_at_head (pre ++ [c]) d rest
  rw [h]
  simpa using h2

theorem c_string_at_last (pre : List Char) (c : Char) :
    c_string_at (pre ++ [c]) (pre.length + 1) = some NUL := by
  simpa using c_string_at_end (pre ++ [c])

theorem c_string_at_beyond (s : List Char) (i : Nat) (h : s.length < i) :
    c_string_at s i = none := by
  have h1 : ¬ i < s.length := by omega
  have h2 : ¬ i = s.length := by omega
  simp [c_string_at, h1, h2]

theorem prompt_text_cons (env : prompt_env) (c : Char) (hc : c ≠ '%') (x : List Char) :
    prompt_text env (c :: x) = c :: prompt_text env x := by
  cases x with
  | nil => simp [prompt_text]
  | cons d rest => simp [prompt_text, hc]

theorem prompt_fmt_loop_spec (env : prompt_env) :
    ∀ (n : Nat) (suf : List Char), suf.length ≤ n → NUL ∉ suf →
      ∀ (pre cb : List Char) (fuel : Nat), suf.length + 2 ≤ fuel →
        prompt_fmt_loop env (pre ++ suf) fuel pre.length cb =
          if prompt_dangling suf = true then
            .out_of_bounds ((pre ++ suf).length + 1)
              (cb ++ prompt_text env suf.dropLast ++ [NUL])
          else .done (cb ++ prompt_text env suf) := by
  intro n
  induction n with
  | zero =>
    intro suf hlen _ pre cb fuel hfuel
    have hs : suf = [] := List.eq_nil_of_length_eq_zero (by omega)
    subst hs
    obtain ⟨f, rfl⟩ : ∃ f, fuel = f + 1 := ⟨fuel - 1, by simp at hfuel; omega⟩
    simp [prompt_fmt_loop, c_string_at_end, prompt_dangling, prompt_text]
  | succ n ih =>
    intro suf hlen hnul pre cb fuel hfuel
    cases suf with
    | nil =>
      obtain ⟨f, rfl⟩ : ∃ f, fuel = f + 1 := ⟨fuel - 1, by simp at hfuel; omega⟩
      simp [prompt_fmt_loop, c_string_at_end, prompt_dangling, prompt_text]
    | cons c s1 =>
      have hc : c ≠ NUL := fun e => hnul (by simp [e])
      have hnul1 : NUL ∉ s1 := fun h => hnul (List.mem_cons_of_mem _ h)
      obtain ⟨f, rfl⟩ : ∃ f, fuel = f + 1 := ⟨fuel - 1, by simp at hfuel; omega⟩
      by_cases hp : c = '%'
      · subst hp
        cases s1 with
        | nil =>
          obtain ⟨g, rfl⟩ : ∃ g, f = g + 1 := ⟨f - 1, by simp at hfuel; omega⟩
          have hb : c_string_at (pre ++ ['%']) (pre.length + 2) = none :=
            c_string_at_beyond _ _ (by simp)
          simp [prompt_fmt_loop, c_string_at_head, c_string_at_last, hc, hb, prompt_dangling,
            prompt_text]
        | cons d rest =>
          have hd : d ≠ NUL := fun e => hnul1 (by simp [e])
          have hrest : NUL ∉ rest := fun h => hnul1 (List.mem_cons_of_mem _ h)
          have h0 := ih rest (by simp at hlen; omega) hrest (pre ++ ['%', d])
            (cb ++ prompt_fmt_switch env d) f (by simp at hfuel; omega)
          have hl : (pre ++ ['%', d]).length = pre.length + 2 := by simp
          rw [hl] at h0
          have hpre : pre ++ ['%', d] ++ rest = pre ++ '%' :: d :: rest := by simp
          rw [hpre] at h0
          have hstep : prompt_fmt_loop env (pre ++ '%' :: d :: rest) (f + 1) pre.length cb =
              prompt_fmt_loop env (pre ++ '%' :: d :: rest) f (pre.length + 2)
                (cb ++ prompt_fmt_switch env d) := by
            simp [prompt_fmt_loop, c_string_at_head, c_string_at_next, hc, hd]
          rw [hstep, h0]
          by_cases hdg : prompt_dangling rest = true
          · have hne : rest ≠ [] := by
              intro e; subst e; simp [prompt_dangling] at hdg
            obtain ⟨e, r2, rfl⟩ := List.exists_cons_of_ne_nil hne
            simp [prompt_dangling, hdg, prompt_text]
          · simp [prompt_dangling, hdg, prompt_text]
      · have h0 := ih s1 (by simp at hlen; omega) hnul1 (pre ++ [c]) (cb ++ [c]) f
          (by simp at hfuel; omega)
        have hl : (pre ++ [c]).length = pre.length + 1 := by simp
        rw [hl] at h0
        have hpre : pre ++ [c] ++ s1 = pre ++ c :: s1 := by simp
        rw [hpre] at h0
        have hstep : prompt_fmt_loop env (pre ++ c :: s1) (f + 1) pre.length cb =
            prompt_fmt_loop env (pre ++ c :: s1) f (pre.length + 1) (cb ++ [c]) := by
          simp [prompt_fmt_loop, c_string_at_head, hc, hp]
        rw [hstep, h0]
        have hdang : prompt_dangling (c :: s1) = prompt_dangling s1 := by
          cases s1 with
          | nil => simp [prompt_dangling, hp]
          | cons d rest => simp [prompt_dangling, hp]
        rw [hdang]
        by_cases hdg : prompt_dangling s1 = true
        · have hne : s1 ≠ [] := by
            intro e; subst e; simp [prompt_dangling] at hdg
          obtain ⟨e, r2, rfl⟩ := List.exists_cons_of_ne_nil hne
          simp [hdg, prompt_text_cons env c hp]
        · simp [hdg, prompt_text_cons env c hp]

/-! ## C1: lock check of `from_client_commit` -/

/-- C1: `from_client_commit` builds a lock-denied reply exactly when running is locked
(holder id non-zero) by a session other than the requester.  In that case it returns
0, the reply buffer receives the lock-denied reply with the holder's session id, and
the only calls are the lock query and the reply builder: `candidate_commit` is not
entered, so no transaction is created, no tree is fetched, no differ, validator or
plugin is invoked, and datastores and locks are unchanged.  Otherwise the commit
proceeds: `candidate_commit` runs on "candidate" right after the lock query, a
transaction is created, and the datastores are what `candidate_commit` left. -/
theorem C1_from_client_commit_lock_denied (env : Env) (ce : client_entry) (w : World) :
    (Label.netconf_lock_denied ∈ labels (run_events w (from_client_commit env ce w).2) ↔
        (w.locks "running" ≠ 0 ∧ ce.ce_id ≠ w.locks "running")) ∧
    ((w.locks "running" ≠ 0 ∧ ce.ce_id ≠ w.locks "running") →
      (from_client_commit env ce w).1 = 0 ∧
      (from_client_commit env ce w).2.cbret = w.cbret ++
        env.netconf_lock_denied (session_id_info (w.locks "running"))
          "Operation failed, lock is already held" ∧
      run_events w (from_client_commit env ce w).2 =
        [.xmldb_islocked "running" (w.locks "running"),
         .netconf_lock_denied (session_id_info (w.locks "running"))] ∧
      (from_client_commit env ce w).2.dbs = w.dbs ∧
      (from_client_commit env ce w).2.locks = w.locks) ∧
    (¬ (w.locks "running" ≠ 0 ∧ ce.ce_id ≠ w.locks "running") →
      Label.transaction_new ∈ labels (run_events w (from_client_commit env ce w).2) ∧
      (from_client_commit env ce w).2.dbs =
        (candidate_commit env "candidate"
          (w.log (.xmldb_islocked "running" (w.locks "running")))).2.dbs ∧
      ((from_client_commit env ce w).2.trace =
          (candidate_commit env "candidate"
            (w.log (.xmldb_islocked "running" (w.locks "running")))).2.trace ∨
        (from_client_commit env ce w).2.trace =
          (candidate_commit env "candidate"
            (w.log (.xmldb_islocked "running" (w.locks "running")))).2.trace ++
            [.netconf_operation_failed])) := by
  have hrun := from_client_commit_run env ce w
  by_cases hl : w.locks "running" ≠ 0 ∧ ce.ce_id ≠ w.locks "running"
  · have h1 : (from_client_commit env ce w) =
        (0, ((w.log (.xmldb_islocked "running" (w.locks "running"))).cprintf
          (env.netconf_lock_denied (session_id_info (w.locks "running"))
            "Operation failed, lock is already held")).log
          (.netconf_lock_denied (session_id_info (w.locks "running")))) := by
      simp only [from_client_commit, xmldb_islocked, session_id_info]
      rw [if_pos hl]
    refine ⟨?_, ?_, ?_⟩
    · simp [h1, hl, run_events, World.log, World.cprintf, labels, Event.label]
    · intro _
      simp [h1, run_events, World.log, World.cprintf]
    · intro h; exact absurd hl h
  · rw [decide_eq_false hl] at hrun
    refine ⟨?_, ?_, ?_⟩
    · have := Run.check (fun p => !p.2.contains Label.netconf_lock_denied)
        (by cases env.clicon_option_bool "CLICON_TRANSACTION_MOD" <;> rfl) hrun
      simp only [Bool.not_eq_true', List.contains_eq_any_beq, List.any_eq_false, beq_iff_eq,
        Bool.not_eq_eq_eq_not, Bool.not_true] at this
      constructor
      · intro hm
        exact absurd rfl (this _ hm)
      · intro h; exact absurd h hl
    · intro h; exact absurd h hl
    · intro _
      have := Run.check (fun p => p.2.contains Label.transaction_new)
        (by cases env.clicon_option_bool "CLICON_TRANSACTION_MOD" <;> rfl) hrun
      refine ⟨by simpa using this, ?_, ?_⟩
      · simp only [from_client_commit, xmldb_islocked]
        rw [if_neg hl]
        split_ifs <;> simp [World.log, World.cprintf]
      · simp only [from_client_commit, xmldb_islocked]
        rw [if_neg hl]
        split_ifs <;> simp [World.log, World.cprintf]

/-- C1 at a concrete request: session 5 asks for a commit while session 7 holds the
lock on running. -/
theorem C1_from_client_commit_lock_denied_witness :
    (world_locked.locks "running" ≠ 0 ∧
      (client_entry.mk 0 5).ce_id ≠ world_locked.locks "running") ∧
    (from_client_commit env_ok ⟨0, 5⟩ world_locked).1 = 0 ∧
    run_events world_locked (from_client_commit env_ok ⟨0, 5⟩ world_locked).2 =
      [.xmldb_islocked "running" 7, .netconf_lock_denied (session_id_info 7)] :=
  ⟨by decide,
    ((C1_from_client_commit_lock_denied env_ok ⟨0, 5⟩ world_locked).2.1 (by decide)).1,
    ((C1_from_client_commit_lock_denied env_ok ⟨0, 5⟩ world_locked).2.1 (by decide)).2.2.1⟩

/-! ## C2: `candidate_commit` writes running once, by the copy, after all checks -/

theorem candidate_commit_paths_written_once (candidate : String) (mod : Bool) :
    (candidate_commit_paths candidate mod).all
      (fun p => running_written_once candidate p.1 p.2) = true := by
  cases mod <;>
    simp [candidate_commit_paths, candidate_commit_clear_paths, candidate_commit_copy_paths,
      from_validate_common_paths, phases_paths, done_paths, paths_after, paths_seq,
      running_written_once, Label.is_write, Label.is_copy, Label.is_check, before_copy,
      invoked, Label.is_phase]

/-- C2: in every run of `candidate_commit` on a candidate datastore other than running,
the only call that writes running is the copy of the candidate onto running (the
only other datastore write of the function is the write-back put, which goes to the
candidate); the copy is issued at most once; when it is issued, the checks made before
it are exactly the baseline validation, the differ, plugin begin, generic validation,
plugin validate, plugin complete and plugin commit, and each succeeded.  Hence a
run that stops before plugin commit (at validate or complete) returns 0 or -1 and
leaves every datastore, running included, as it was. -/
theorem C2_candidate_commit_running_written_once (env : Env) (candidate : String) (w : World)
    (hc : candidate ≠ "running") :
    (∀ l ∈ labels (run_events w (candidate_commit env candidate w).2),
      l.writes "running" = true → l = .xmldb_copy candidate "running" false) ∧
    (∀ l ∈ labels (run_events w (candidate_commit env candidate w).2),
      l.is_write = true →
        l = .xmldb_put candidate .pos ∨ l = .xmldb_copy candidate "running" false) ∧
    ((labels (run_events w (candidate_commit env candidate w).2)).filter
      Label.is_copy).length ≤ 1 ∧
    ((labels (run_events w (candidate_commit env candidate w).2)).any Label.is_copy = true →
      (before_copy (labels (run_events w (candidate_commit env candidate w).2))).filter
          Label.is_check =
        [.xml_yang_validate_all_top .pos, .xml_diff false, .plugin .TR_BEGIN false,
          .generic_validate .pos, .plugin .TR_VALIDATE false, .plugin .TR_COMPLETE false,
          .plugin .TR_COMMIT false]) ∧
    (invoked .TR_COMMIT (labels (run_events w (candidate_commit env candidate w).2)) = false →
      ((candidate_commit env candidate w).1 = 0 ∨ (candidate_commit env candidate w).1 = -1) ∧
      (candidate_commit env candidate w).2.dbs "running" = w.dbs "running" ∧
      (candidate_commit env candidate w).2.dbs = w.dbs) := by
  have hrun := candidate_commit_run env candidate w
  have hk := Run.check (fun p => running_written_once candidate p.1 p.2)
    (candidate_commit_paths_written_once candidate _) hrun
  have hdbs := hrun.events.2.1
  simp only [running_written_once, Bool.and_eq_true, List.all_eq_true, Bool.or_eq_true,
    Bool.not_eq_true', beq_iff_eq, decide_eq_true_eq] at hk
  obtain ⟨⟨⟨h1, h2⟩, h3⟩, h4⟩ := hk
  have hw : ∀ l ∈ labels (run_events w (candidate_commit env candidate w).2),
      l.is_write = true →
      l = .xmldb_put candidate .pos ∨ l = .xmldb_copy candidate "running" false := by
    intro l hl hwr
    rcases h1 l hl with (h | h) | h
    · rw [h] at hwr; exact absurd hwr (by decide)
    · exact Or.inl h
    · exact Or.inr h
  refine ⟨?_, hw, h2, ?_, ?_⟩
  · intro l hl hwr
    rcases h1 l hl with (h | h) | h
    · cases l <;> simp_all [Label.writes, Label.is_write]
    · rw [h] at hwr
      simp [Label.writes, hc] at hwr
    · exact h
  · intro hany
    rcases h3 with h | h
    · rw [h] at hany; exact absurd hany (by decide)
    · exact h
  · intro hinv
    rcases h4 with h | ⟨h, hret⟩
    · rw [h] at hinv; exact absurd hinv (by decide)
    · have hd : (candidate_commit env candidate w).2.dbs = w.dbs := by
        rw [hdbs]
        exact replay_of_no_write _ _ (by simpa [List.all_eq_true] using h)
      exact ⟨hret, by rw [hd], hd⟩

/-- C2 at a concrete run: a commit of "candidate" that stops at plugin validate. -/
theorem C2_candidate_commit_running_written_once_witness :
    "candidate" ≠ "running" ∧
    invoked .TR_COMMIT
      (labels (run_events world0 (candidate_commit env_veto "candidate" world0).2)) = false ∧
    (candidate_commit env_veto "candidate" world0).2.dbs "running" = world0.dbs "running" :=
  ⟨by decide, by decide,
    ((C2_candidate_commit_running_written_once env_veto "candidate" world0 (by decide)).2.2.2.2
      (by decide)).2.1⟩

/-! ## C3: abort is guaranteed between begin and return -/

/-- C3: in every run of `startup_validate`, `startup_commit`, `candidate_commit` and
`from_client_validate`, for every behaviour of the collaborators: if plugin begin was
invoked and plugin end was not, plugin abort was invoked after the begin, before the
function returned. -/
theorem C3_abort_if_begun_not_ended (env : Env) (db : String) (want_xtr : Bool) (xe : cxobj)
    (w : World) :
    (invoked .TR_BEGIN (labels (run_events w (startup_validate env db want_xtr w).2.2)) = true →
      invoked .TR_END (labels (run_events w (startup_validate env db want_xtr w).2.2)) = false →
      invoked .TR_ABORT
        (from_begin (labels (run_events w (startup_validate env db want_xtr w).2.2))) = true) ∧
    (invoked .TR_BEGIN (labels (run_events w (startup_commit env db w).2)) = true →
      invoked .TR_END (labels (run_events w (startup_commit env db w).2)) = false →
      invoked .TR_ABORT
        (from_begin (labels (run_events w (startup_commit env db w).2))) = true) ∧
    (invoked .TR_BEGIN (labels (run_events w (candidate_commit env db w).2)) = true →
      invoked .TR_END (labels (run_events w (candidate_commit env db w).2)) = false →
      invoked .TR_ABORT
        (from_begin (labels (run_events w (candidate_commit env db w).2))) = true) ∧
    (invoked .TR_BEGIN (labels (run_events w (from_client_validate env xe w).2)) = true →
      invoked .TR_END (labels (run_events w (from_client_validate env xe w).2)) = false →
      invoked .TR_ABORT
        (from_begin (labels (run_events w (from_client_validate env xe w).2))) = true) := by
  have key : ∀ ls, abort_guaranteed ls = true →
      invoked .TR_BEGIN ls = true → invoked .TR_END ls = false →
      invoked .TR_ABORT (from_begin ls) = true := by
    intro ls h hb he
    simpa [abort_guaranteed, hb, he] using h
  refine ⟨key _ ?_, key _ ?_, key _ ?_, key _ ?_⟩
  · exact Run.check (fun p => abort_guaranteed p.2) (by rfl)
      (startup_validate_run env db want_xtr w)
  · exact Run.check (fun p => abort_guaranteed p.2) (by rfl) (startup_commit_run env db w)
  · exact Run.check (fun p => abort_guaranteed p.2)
      (by cases env.clicon_option_bool "CLICON_TRANSACTION_MOD" <;> rfl)
      (candidate_commit_run env db w)
  · exact Run.check (fun p => abort_guaranteed p.2)
      (by cases env.netconf_db_find xe "source" <;>
          cases env.clicon_option_bool "CLICON_TRANSACTION_MOD" <;> rfl)
      (from_client_validate_run env xe w)

/-- C3 at a concrete run: a commit whose plugin validate callback fails. -/
theorem C3_abort_if_begun_not_ended_witness :
    invoked .TR_BEGIN
      (labels (run_events world0 (candidate_commit env_veto "candidate" world0).2)) = true ∧
    invoked .TR_END
      (labels (run_events world0 (candidate_commit env_veto "candidate" world0).2)) = false ∧
    invoked .TR_ABORT (from_begin
      (labels (run_events world0 (candidate_commit env_veto "candidate" world0).2))) = true :=
  ⟨by decide, by decide,
    (C3_abort_if_begun_not_ended env_veto "candidate" false xml_empty_config world0).2.2.1
      (by decide) (by decide)⟩

/-! ## C4: removal of a mandatory node in `generic_validate` -/

/-- C4, counterexample: the deleted vector holds a mandatory config leaf whose schema
parent is a container, yet `generic_validate` returns -1, not 0, because the validation
of the whole target, which comes first, ended with an error. -/
theorem C4_mandatory_delete_counterexample :
    (first_mandatory_deleted td_delete_mandatory.td_src
      (td_delete_mandatory.td_dvec.take td_delete_mandatory.td_dlen)).map xml_name
        = some "mtu" ∧
    (generic_validate env_validate_error td_delete_mandatory none).1 = -1 := by
  constructor <;> decide

/-- C4, amended: if the deleted vector contains a node whose bound schema is mandatory
and config-bearing and whose schema parent is absent or neither a module nor a
submodule, and the validation of the whole target and of every changed-target entry
returned Ok, then `generic_validate` returns Failed (0) with the missing-element error
that names the first such node of the deleted vector, whatever the added vector
contains. -/
theorem C4_mandatory_delete (env : Env) (td : transaction_data_t) (xret : Option cxobj)
    (x : xpath_t) (n : cxobj) (ys : yang_stmt)
    (hx : x ∈ td.td_dvec.take td.td_dlen)
    (hn : td.td_src.bind (xml_find x) = some n)
    (hs : xml_spec n = some ys)
    (hmand : yang_mandatory ys ≠ 0)
    (hconf : yang_config ys = 1)
    (hpar : ∀ yp, yang_parent_get ys = some yp →
      yang_keyword_get yp ≠ rfc_6020.Y_MODULE ∧ yang_keyword_get yp ≠ rfc_6020.Y_SUBMODULE)
    (hall : 0 < (env.xml_yang_validate_all_top td.td_target).1)
    (hchg : ∀ c ∈ td.td_tcvec.take td.td_clen,
      0 < (env.xml_yang_validate_add td.td_target c).1) :
    ∃ m, first_mandatory_deleted td.td_src (td.td_dvec.take td.td_dlen) = some m ∧
      mandatory_removed (xml_spec m) = true ∧
      (generic_validate env td xret).1 = 0 ∧
      (generic_validate env td xret).2.1 = some (missing_mandatory env m) := by
  have hrem : mandatory_removed (xml_spec n) = true :=
    (mandatory_removed_iff _).2 ⟨ys, hs, hmand, hconf, hpar⟩
  have hsome : (first_mandatory_deleted td.td_src (td.td_dvec.take td.td_dlen)).isSome := by
    simp only [first_mandatory_deleted, List.find?_isSome, List.mem_filterMap]
    exact ⟨n, ⟨x, hx, hn⟩, hrem⟩
  obtain ⟨m, hm⟩ := Option.isSome_iff_exists.1 hsome
  have hmrem : mandatory_removed (xml_spec m) = true := by
    have := List.find?_some hm
    simpa using this
  refine ⟨m, hm, hmrem, ?_, ?_⟩
  · have h1 : ¬ (env.xml_yang_validate_all_top td.td_target).1 < 0 := by omega
    have h2 : ¬ (env.xml_yang_validate_all_top td.td_target).1 = 0 := by omega
    simp [generic_validate, generic_validate_body, h1, h2,
      generic_validate_add_ok env _ _ _ hchg, generic_validate_deleted_eq, hm]
  · have h1 : ¬ (env.xml_yang_validate_all_top td.td_target).1 < 0 := by omega
    have h2 : ¬ (env.xml_yang_validate_all_top td.td_target).1 = 0 := by omega
    simp [generic_validate, generic_validate_body, h1, h2,
      generic_validate_add_ok env _ _ _ hchg, generic_validate_deleted_eq, hm]

/-- C4 at a concrete transaction: the mandatory leaf `mtu` is deleted and every
validation returns Ok. -/
theorem C4_mandatory_delete_witness :
    [0] ∈ td_delete_mandatory.td_dvec.take td_delete_mandatory.td_dlen ∧
    0 < (env_ok.xml_yang_validate_all_top td_delete_mandatory.td_target).1 ∧
    (generic_validate env_ok td_delete_mandatory none).1 = 0 ∧
    (generic_validate env_ok td_delete_mandatory none).2.1 =
      some (missing_mandatory env_ok
        (.mk "mtu" .CX_ELMNT 0 (some yang_mandatory_leaf) "" [])) := by
  obtain ⟨m, hm, _, h0, h1⟩ := C4_mandatory_delete env_ok td_delete_mandatory none [0]
    (.mk "mtu" .CX_ELMNT 0 (some yang_mandatory_leaf) "" []) yang_mandatory_leaf
    (by decide) rfl rfl (by decide) (by decide)
    (by intro yp h; cases h; constructor <;> decide)
    (by decide) (by intro c hc; cases hc)
  have hm2 : m = .mk "mtu" .CX_ELMNT 0 (some yang_mandatory_leaf) "" [] := by
    have : first_mandatory_deleted td_delete_mandatory.td_src
        (td_delete_mandatory.td_dvec.take td_delete_mandatory.td_dlen) =
        some (.mk "mtu" .CX_ELMNT 0 (some yang_mandatory_leaf) "" []) := rfl
    rw [this] at hm
    exact (Option.some.inj hm).symm
  exact ⟨by decide, by decide, h0, by rw [h1, hm2]⟩

/-! ## C5: `startup_commit` and the running datastore -/

/-- C6, the code at the failing input: with write-back set, `candidate_commit` puts the
(plugin-modified) target into the candidate, the copy onto running then fails, and the
function returns -1 with the candidate rewritten: it held mtu 9000 before the call
and holds mtu 1400 after it. -/
theorem C6_candidate_commit_fatal_after_writeback :
    (candidate_commit env_writeback_copy_fails "candidate" world0).1 = -1 ∧
    world0.dbs "candidate" = some (tree_leaf "mtu" "9000") ∧
    (candidate_commit env_writeback_copy_fails "candidate" world0).2.dbs "candidate" =
      some (tree_leaf "mtu" "1400") ∧
    tree_leaf "mtu" "1400" ≠ tree_leaf "mtu" "9000" ∧
    labels (run_events world0
        (candidate_commit env_writeback_copy_fails "candidate" world0).2) =
      [.transaction_new, .xmldb_get0 "candidate" false, .xml_yang_validate_all_top .pos,
        .xmldb_get0 "running" false, .xml_diff false, .plugin .TR_BEGIN false,
        .generic_validate .pos, .plugin .TR_VALIDATE false, .plugin .TR_COMPLETE false,
        .plugin .TR_COMMIT false, .xmldb_get0_clear false, .xmldb_get0_clear false,
        .xmldb_put "candidate" .pos, .xmldb_copy "candidate" "running" true,
        .plugin .TR_ABORT false, .xmldb_get0_free, .xmldb_get0_free, .transaction_free] := by
  refine ⟨by decide, rfl, rfl, ?_, by decide⟩
  simp [tree_leaf]

/-! ## C7: a plugin veto in `candidate_commit` -/

/-- C7, counterexample: a commit whose plugin validate callback fails makes
`candidate_commit` return -1, not 0, and write no structured error to the reply
buffer; `from_client_commit` then answers with the generic operation-failed reply. -/
theorem C7_plugin_veto_counterexample :
    Label.plugin .TR_VALIDATE true ∈
      labels (run_events world0 (candidate_commit env_veto "candidate" world0).2) ∧
    (candidate_commit env_veto "candidate" world0).1 = -1 ∧
    (candidate_commit env_veto "candidate" world0).2.cbret = "" ∧
    (from_client_commit env_veto ⟨0, 5⟩ world0).2.cbret =
      env_veto.netconf_operation_failed "application" "" := by
  refine ⟨by decide, by decide, by decide, by decide⟩

/-- C7, amended: when a plugin validate or complete callback rejects the change (its
return value is negative; the dispatcher has no other way to report a veto),
`candidate_commit` aborts the transaction and returns -1, the value of a fatal error,
and writes nothing to the reply buffer.  Whenever `candidate_commit` returns a negative
value, `from_client_commit` returns 0 and appends the generic operation-failed reply of
type application with the recorded error reason.  `candidate_commit` returns 0 only for
a failed validation or a failed write-back put: in a run that returns 0 the validation
of the whole target, the generic validation or a put returned 0 and no plugin callback
failed, and the reply buffer has grown by exactly the structured error: either the
common steps returned 0 and the text of their error tree was appended (a tree that
exists when the validators hand an error tree over with every 0), or write-back is set
and the put returned 0 after appending its error. -/
theorem C7_plugin_veto (env : Env) (candidate : String) (ce : client_entry) (w : World) :
    ((Label.plugin .TR_VALIDATE true ∈
          labels (run_events w (candidate_commit env candidate w).2) ∨
        Label.plugin .TR_COMPLETE true ∈
          labels (run_events w (candidate_commit env candidate w).2)) →
      (candidate_commit env candidate w).1 = -1 ∧
      invoked .TR_ABORT (labels (run_events w (candidate_commit env candidate w).2)) = true ∧
      (candidate_commit env candidate w).2.cbret = w.cbret) ∧
    (¬ (w.locks "running" ≠ 0 ∧ ce.ce_id ≠ w.locks "running") →
      (candidate_commit env "candidate"
        (w.log (.xmldb_islocked "running" (w.locks "running")))).1 < 0 →
      (from_client_commit env ce w).1 = 0 ∧
      (from_client_commit env ce w).2.cbret = w.cbret ++
        env.netconf_operation_failed "application"
          (candidate_commit env "candidate"
            (w.log (.xmldb_islocked "running" (w.locks "running")))).2.clicon_err_reason) ∧
    ((candidate_commit env candidate w).1 = 0 →
      (Label.xml_yang_validate_all_top .zero ∈
          labels (run_events w (candidate_commit env candidate w).2) ∨
        Label.generic_validate .zero ∈
          labels (run_events w (candidate_commit env candidate w).2) ∨
        ∃ db, Label.xmldb_put db .zero ∈
          labels (run_events w (candidate_commit env candidate w).2)) ∧
      (∀ ph, Label.plugin ph true ∉
        labels (run_events w (candidate_commit env candidate w).2)) ∧
      (((commit_validation env candidate w).1 = 0 ∧
          (candidate_commit env candidate w).2.cbret =
            w.cbret ++ error_text env (commit_validation env candidate w).2.2.1 ∧
          (env.reports_errors → ∃ x, (commit_validation env candidate w).2.2.1 = some x)) ∨
        (0 < (commit_validation env candidate w).1 ∧
          env.clicon_option_bool "CLICON_TRANSACTION_MOD" = true ∧
          ∃ t, env.xmldb_put_rc candidate t = 0 ∧
            (candidate_commit env candidate w).2.cbret =
              w.cbret ++ env.xmldb_put_reply candidate t))) := by
  refine ⟨?_, ?_, ?_⟩
  · intro hv
    have hk := Run.check (fun p => veto_is_fatal p.1 p.2)
      (by cases env.clicon_option_bool "CLICON_TRANSACTION_MOD" <;> rfl)
      (candidate_commit_run env candidate w)
    have hv2 : ((labels (run_events w (candidate_commit env candidate w).2)).contains
          (.plugin .TR_VALIDATE true) ||
        (labels (run_events w (candidate_commit env candidate w).2)).contains
          (.plugin .TR_COMPLETE true)) = true := by
      simpa using hv
    simp only [veto_is_fatal, hv2, Bool.not_true, Bool.false_or, Bool.and_eq_true,
      beq_iff_eq] at hk
    refine ⟨hk.1, hk.2, candidate_commit_cbret env candidate w ?_⟩
    rw [hk.1]; decide
  · intro hl hneg
    have hcb := candidate_commit_cbret env "candidate"
      (w.log (.xmldb_islocked "running" (w.locks "running"))) (by omega)
    simp only [from_client_commit, xmldb_islocked]
    rw [if_neg hl, if_pos hneg]
    simp only [World.cprintf, World.log] at hcb ⊢
    simp [hcb]
  · intro h0
    refine ⟨(candidate_commit_failed_labels env candidate w h0).1,
      (candidate_commit_failed_labels env candidate w h0).2, ?_⟩
    rcases candidate_commit_failed_reply env candidate w h0 with ⟨hv, hcb⟩ | hput
    · exact Or.inl ⟨hv, hcb, fun hrep => commit_validation_zero env hrep candidate w hv⟩
    · exact Or.inr hput

/-- C7 at concrete runs: the plugin validate callback fails; the validation of the
target fails. -/
theorem C7_plugin_veto_witness :
    (Label.plugin .TR_VALIDATE true ∈
        labels (run_events world0 (candidate_commit env_veto "candidate" world0).2) ∨
      Label.plugin .TR_COMPLETE true ∈
        labels (run_events world0 (candidate_commit env_veto "candidate" world0).2)) ∧
    (candidate_commit env_veto "candidate" world0).1 = -1 ∧
    (from_client_commit env_veto ⟨0, 5⟩ world0).1 = 0 ∧
    (candidate_commit env_validate_failed "candidate" world0).1 = 0 ∧
    (candidate_commit env_validate_failed "candidate" world0).2.cbret = "<rpc-error/>" ∧
    (∀ ph, Label.plugin ph true ∉
      labels (run_events world0
        (candidate_commit env_validate_failed "candidate" world0).2)) ∧
    ∃ x, (commit_validation env_validate_failed "candidate" world0).2.2.1 = some x :=
  ⟨Or.inl (by decide),
    ((C7_plugin_veto env_veto "candidate" ⟨0, 5⟩ world0).1 (Or.inl (by decide))).1,
    ((C7_plugin_veto env_veto "candidate" ⟨0, 5⟩ world0).2.1 (by decide) (by decide)).1,
    by decide, by decide,
    ((C7_plugin_veto env_validate_failed "candidate" ⟨0, 5⟩ world0).2.2 (by decide)).2.1,
    ((C7_plugin_veto env_validate_failed "candidate" ⟨0, 5⟩ world0).2.2 (by decide)).2.2.elim
      (fun h => h.2.2 env_validate_failed_reports_errors)
      (fun h => absurd h.2.1 (by decide))⟩

/-! ## C8: the order of the plugin phases -/

/-- C8, counterexample: a successful `startup_validate` invokes plugin end although
plugin commit was never invoked, so end is not "only after commit returned Ok"; the
phase callbacks of the run are begin, validate, complete, end. -/
theorem C8_phase_chain_counterexample :
    phase_calls (labels (run_events world0 (startup_validate env_ok "startup" true world0).2.2))
      = [(.TR_BEGIN, false), (.TR_VALIDATE, false), (.TR_COMPLETE, false), (.TR_END, false)] ∧
    obeys chain_rule none
      (phase_calls
        (labels (run_events world0 (startup_validate env_ok "startup" true world0).2.2)))
      = false := by
  constructor <;> decide

/-- C8, amended: in every run of the four functions validate is invoked only after
begin returned Ok and complete only after validate returned Ok.  `candidate_commit`
follows the whole chain of C8.  `startup_commit` follows it too, except that for
an empty startup tree commit is the first callback.  `startup_validate` and
`from_client_validate` never invoke commit and invoke end right after complete returned
Ok; for an empty startup tree `startup_validate` invokes end as the first callback. -/
theorem C8_phase_chain (env : Env) (db : String) (want_xtr : Bool) (xe : cxobj) (w : World) :
    obeys startup_validate_rule none
      (phase_calls (labels (run_events w (startup_validate env db want_xtr w).2.2))) = true ∧
    obeys startup_commit_rule none
      (phase_calls (labels (run_events w (startup_commit env db w).2))) = true ∧
    obeys candidate_commit_rule none
      (phase_calls (labels (run_events w (candidate_commit env db w).2))) = true ∧
    obeys from_client_validate_rule none
      (phase_calls (labels (run_events w (from_client_validate env xe w).2))) = true := by
  refine ⟨?_, ?_, ?_, ?_⟩
  · exact Run.check (fun p => obeys startup_validate_rule none (phase_calls p.2)) (by rfl)
      (startup_validate_run env db want_xtr w)
  · exact Run.check (fun p => obeys startup_commit_rule none (phase_calls p.2)) (by rfl)
      (startup_commit_run env db w)
  · exact Run.check (fun p => obeys candidate_commit_rule none (phase_calls p.2))
      (by cases env.clicon_option_bool "CLICON_TRANSACTION_MOD" <;> rfl)
      (candidate_commit_run env db w)
  · exact Run.check (fun p => obeys from_client_validate_rule none (phase_calls p.2))
      (by cases env.netconf_db_find xe "source" <;>
          cases env.clicon_option_bool "CLICON_TRANSACTION_MOD" <;> rfl)
      (from_client_validate_run env xe w)

/-! ## C9: abort without begin -/

/-- C9, counterexample: a `candidate_commit` whose read of the candidate fails invokes
plugin abort although plugin begin was never invoked. -/
theorem C9_abort_without_begin_counterexample :
    labels (run_events world0 (candidate_commit env_read_fails "candidate" world0).2) =
      [.transaction_new, .xmldb_get0 "candidate" true, .plugin .TR_ABORT false,
        .xmldb_get0_free, .xmldb_get0_free, .transaction_free] ∧
    invoked .TR_ABORT
      (labels (run_events world0 (candidate_commit env_read_fails "candidate" world0).2))
      = true ∧
    invoked .TR_BEGIN
      (labels (run_events world0 (candidate_commit env_read_fails "candidate" world0).2))
      = false := by
  refine ⟨?_, ?_, ?_⟩ <;> decide

/-- C9, amended: in every run of `startup_validate`, `startup_commit`,
`candidate_commit` and `from_client_validate`, plugin abort is invoked only after the
transaction was created (plugin begin need not have been invoked); a run that fails
before begin (datastore read, upgrade hook, schema binding or sorting, baseline
validation or differ failure) invokes exactly one plugin callback, abort. -/
theorem C9_abort_without_begin (env : Env) (db : String) (want_xtr : Bool) (xe : cxobj)
    (w : World) :
    abort_without_begin
      (labels (run_events w (startup_validate env db want_xtr w).2.2)) = true ∧
    abort_without_begin (labels (run_events w (startup_commit env db w).2)) = true ∧
    abort_without_begin (labels (run_events w (candidate_commit env db w).2)) = true ∧
    abort_without_begin (labels (run_events w (from_client_validate env xe w).2)) = true := by
  refine ⟨?_, ?_, ?_, ?_⟩
  · exact Run.check (fun p => abort_without_begin p.2) (by rfl)
      (startup_validate_run env db want_xtr w)
  · exact Run.check (fun p => abort_without_begin p.2) (by rfl)
      (startup_commit_run env db w)
  · exact Run.check (fun p => abort_without_begin p.2)
      (by cases env.clicon_option_bool "CLICON_TRANSACTION_MOD" <;> rfl)
      (candidate_commit_run env db w)
  · exact Run.check (fun p => abort_without_begin p.2)
      (by cases env.netconf_db_find xe "source" <;>
          cases env.clicon_option_bool "CLICON_TRANSACTION_MOD" <;> rfl)
      (from_client_validate_run env xe w)

/-! ## C10: `startup_common` on an empty startup tree -/

/-- C10: when the read of the startup datastore succeeds and the tree read has no
children, `startup_common` returns 1; the transaction's target is that tree (with the
MARK and CHANGE flags of its root cleared) and has no children; the vectors of the
transaction and their lengths are untouched, so all four are empty for the fresh
transaction that the callers pass; and the read is the only call made: no datastore
upgrade, no module upgrade, no schema bind or sort, no generic validation, no plugin
callback.  Datastores, locks and reply buffer are unchanged. -/
theorem C10_startup_common_empty (env : Env) (db : String) (td : transaction_data_t)
    (w : World) (xt : cxobj)
    (hrc : ¬ env.xmldb_get0_rc db < 0) (hdb : w.dbs db = some xt)
    (hempty : xml_child_nr xt = 0) :
    startup_common env db td w =
      (1,
        td.set_target
          (some (xml_flag_apply (flag_reset (XML_FLAG_MARK ||| XML_FLAG_CHANGE)) xt)),
        w.log (.xmldb_get0 db (some xt))) ∧
    (startup_common env db td w).2.1.td_target.map xml_child_nr = some 0 ∧
    (startup_common env db td w).2.1.td_dvec = td.td_dvec ∧
    (startup_common env db td w).2.1.td_avec = td.td_avec ∧
    (startup_common env db td w).2.1.td_scvec = td.td_scvec ∧
    (startup_common env db td w).2.1.td_tcvec = td.td_tcvec ∧
    (startup_common env db (transaction_new w).1 w).2.1.td_dvec = [] ∧
    (startup_common env db (transaction_new w).1 w).2.1.td_avec = [] ∧
    (startup_common env db (transaction_new w).1 w).2.1.td_scvec = [] ∧
    (startup_common env db (transaction_new w).1 w).2.1.td_tcvec = [] ∧
    labels (run_events w (startup_common env db td w).2.2) = [.xmldb_get0 db false] ∧
    (startup_common env db td w).2.2.dbs = w.dbs ∧
    (startup_common env db td w).2.2.cbret = w.cbret := by
  have hread : env.read w.dbs db = some xt := by simp [Env.read, hrc, hdb]
  have hnr : xml_child_nr (xml_apply0 cxobj_type.CX_ELMNT
      (flag_reset (XML_FLAG_MARK ||| XML_FLAG_CHANGE)) xt) = 0 := by
    rw [xml_apply0_of_no_children _ _ _ hempty, xml_child_nr_flag_apply, hempty]
  have key : ∀ td, startup_common env db td w =
      (1,
        td.set_target
          (some (xml_flag_apply (flag_reset (XML_FLAG_MARK ||| XML_FLAG_CHANGE)) xt)),
        w.log (.xmldb_get0 db (some xt))) := by
    intro td
    simp only [startup_common, xmldb_get0, hread, hnr, if_true]
    rw [xml_apply0_of_no_children _ _ _ hempty]
  rw [key td, key (transaction_new w).1]
  refine ⟨rfl, ?_, rfl, rfl, rfl, rfl, rfl, rfl, rfl, rfl, ?_, rfl, rfl⟩
  · simp [transaction_data_t.set_target, xml_child_nr_flag_apply, hempty]
  · simp [run_events, World.log, labels, Event.label]

/-- C10 at a concrete world: the startup datastore holds a tree without children. -/
theorem C10_startup_common_empty_witness :
    ¬ env_ok.xmldb_get0_rc "startup" < 0 ∧
    world_empty_startup.dbs "startup" = some xml_empty_config ∧
    xml_child_nr xml_empty_config = 0 ∧
    (startup_common env_ok "startup" (transaction_new world_empty_startup).1
      world_empty_startup).1 = 1 ∧
    labels (run_events world_empty_startup
      (startup_common env_ok "startup" (transaction_new world_empty_startup).1
        world_empty_startup).2.2) = [.xmldb_get0 "startup" false] :=
  ⟨by decide, rfl, rfl,
    congrArg Prod.fst (C10_startup_common_empty env_ok "startup"
      (transaction_new world_empty_startup).1 world_empty_startup xml_empty_config
      (by decide) rfl rfl).1,
    (C10_startup_common_empty env_ok "startup"
      (transaction_new world_empty_startup).1 world_empty_startup xml_empty_config
      (by decide) rfl rfl).2.2.2.2.2.2.2.2.2.2.1⟩

/-! ## C11: the transaction that `startup_common` builds -/

/-- C11: for a non-empty startup tree whose upgrade, bind and sort steps succeed (`t` is
the tree after these steps), `startup_common` reaches plugin begin, and the transaction
it has built by then has no source tree, empty deleted and changed vectors with lengths
0, the tree `t` with more flags as its target, and an added vector that lists exactly
the top-level element children of the target in their order in the tree; each listed
node is an element and it and every element descendant of it carries the ADD flag.  The
deleted-mandatory check of `generic_validate` has no entry to look at and passes, also
for a tree with a mandatory leaf. -/
theorem C11_startup_common_added (env : Env) (db : String) (w : World) (t : cxobj)
    (h : startup_tree env db w = some t) :
    invoked .TR_BEGIN
      (labels (run_events w (startup_common env db (transaction_new w).1 w).2.2)) = true ∧
    ∀ p ∈ plugin_events (run_events w (startup_common env db (transaction_new w).1 w).2.2),
      p.1 = .TR_BEGIN →
        p.2.td_src = none ∧ p.2.td_dvec = [] ∧ p.2.td_dlen = 0 ∧
        p.2.td_scvec = [] ∧ p.2.td_tcvec = [] ∧ p.2.td_clen = 0 ∧
        (∃ t1, p.2.td_target = some t1 ∧ xml_rel flags_le t t1 ∧
          p.2.td_avec = (xml_child_each_elmnt t1).map (fun i => [i]) ∧
          p.2.td_alen = (xml_child_each_elmnt t1).length ∧
          ∀ x ∈ p.2.td_avec, ∃ n, xml_find x t1 = some n ∧
            xml_type n = cxobj_type.CX_ELMNT ∧ flagged XML_FLAG_ADD n) ∧
        (∀ xret, generic_validate_deleted env p.2.td_src (p.2.td_dvec.take p.2.td_dlen) xret =
          (1, xret)) := by
  refine ⟨startup_common_invoked env db _ w (by rw [h]; rfl), ?_⟩
  intro p hp hb
  obtain ⟨t', ht', hp2⟩ := (startup_common_begin env db _ w).callbacks p hp hb
  rw [h] at ht'
  cases ht'
  obtain ⟨v1, v2, v3, v4, v5, v6, v7, v8⟩ := startup_add_loop_vecs (xml_child_each_elmnt t)
    ((transaction_new w).1.set_target (some t))
  obtain ⟨t1, ht1, hr1, hfl⟩ := startup_add_loop_flagged (xml_child_each_elmnt t)
    ((transaction_new w).1.set_target (some t)) t rfl
  have hce := xml_rel_child_each flags_le t t1 hr1
  rw [hp2]
  have havec : (startup_add_loop (xml_child_each_elmnt t)
      ((transaction_new w).1.set_target (some t))).td_avec =
      (xml_child_each_elmnt t).map (fun i => [i]) := by
    rw [v7]; rfl
  refine ⟨v1, v2, v3, v4, v5, v6, ⟨t1, ht1, hr1, ?_, ?_, ?_⟩, ?_⟩
  · rw [havec, hce]
  · rw [v8, hce]
    simp [transaction_new, transaction_data_t.set_target]
  · intro x hx
    rw [havec] at hx
    obtain ⟨i, hi, e⟩ := List.mem_map.1 hx
    subst e
    obtain ⟨n, hn, hty⟩ := xml_child_each_find t i hi
    obtain ⟨n1, hn1, hrel, hflag⟩ := hfl i hi n hn
    exact ⟨n1, hn1, (xml_rel_type _ n n1 hrel).trans hty, hflag⟩
  · intro xret
    rw [v2]
    simp [transaction_new, transaction_data_t.set_target, generic_validate_deleted]

/-- C11 at a concrete startup tree: a root with an attribute and an interface container
that holds a mandatory leaf.  The validation succeeds, the added vector lists the
container, and the mandatory leaf carries the ADD flag at plugin begin. -/
theorem C11_startup_common_added_witness :
    startup_tree env_ok "startup" world_startup = some tree_startup ∧
    invoked .TR_BEGIN (labels (run_events world_startup
      (startup_common env_ok "startup" (transaction_new world_startup).1
        world_startup).2.2)) = true ∧
    (startup_validate env_ok "startup" true world_startup).1 = 1 ∧
    (plugin_events (run_events world_startup
      (startup_common env_ok "startup" (transaction_new world_startup).1
        world_startup).2.2)).map
      (fun p => (p.1, p.2.td_avec, (p.2.td_target.bind (xml_find [1, 0])).map
        (fun n => (xml_name n, xml_flag n XML_FLAG_ADD)))) =
      [(.TR_BEGIN, [[1]], some ("mtu", 2)), (.TR_VALIDATE, [[1]], some ("mtu", 2)),
        (.TR_COMPLETE, [[1]], some ("mtu", 2))] :=
  ⟨rfl, (C11_startup_common_added env_ok "startup" world_startup tree_startup rfl).1,
    by decide, by decide⟩

/-! ## C12: `from_client_validate` and the datastores -/

/-- C12: in every run of `from_client_validate`, for every request and every behaviour
of the collaborators, no call writes running and running is as before; plugin commit is
not invoked; every request to change a datastore is a put (a REPLACE) to "candidate",
and there is at most one; such a request is made only when the write-back option is set,
plugin complete returned Ok and both trees were cleared without error; every datastore
other than "candidate" is as before; and the datastores after the run are either all as
before, or as before except that "candidate" holds the transaction's target tree. -/
theorem C12_from_client_validate_writes (env : Env) (xe : cxobj) (w : World) :
    (∀ l ∈ labels (run_events w (from_client_validate env xe w).2),
      l.writes "running" = false) ∧
    (from_client_validate env xe w).2.dbs "running" = w.dbs "running" ∧
    invoked .TR_COMMIT (labels (run_events w (from_client_validate env xe w).2)) = false ∧
    (∀ l ∈ labels (run_events w (from_client_validate env xe w).2),
      l.is_mutation = true → ∃ r, l = .xmldb_put "candidate" r) ∧
    ((labels (run_events w (from_client_validate env xe w).2)).filter
      Label.is_mutation).length ≤ 1 ∧
    ((labels (run_events w (from_client_validate env xe w).2)).any Label.is_mutation = true →
      env.clicon_option_bool "CLICON_TRANSACTION_MOD" = true ∧
      Label.plugin .TR_COMPLETE false ∈
        labels (run_events w (from_client_validate env xe w).2) ∧
      Label.xmldb_get0_clear true ∉
        labels (run_events w (from_client_validate env xe w).2)) ∧
    (∀ n, n ≠ "candidate" → (from_client_validate env xe w).2.dbs n = w.dbs n) ∧
    ((from_client_validate env xe w).2.dbs = w.dbs ∨
      (from_client_validate env xe w).2.dbs =
        (w.setdb "candidate" (from_client_validate_target env xe w)).dbs) := by
  have hrun := from_client_validate_run env xe w
  have hk := Run.check
    (fun p => validate_only_writes (env.clicon_option_bool "CLICON_TRANSACTION_MOD") p.2)
    (from_client_validate_paths_writes _ _) hrun
  have hdbs := hrun.events.2.1
  simp only [validate_only_writes, Bool.and_eq_true, List.all_eq_true,
    Bool.not_eq_true', decide_eq_true_eq] at hk
  obtain ⟨⟨⟨⟨h1, h2⟩, h3⟩, h4⟩, h5⟩ := hk
  simp only [Bool.or_eq_true, Bool.not_eq_true', Bool.and_eq_true] at h5
  have hother : ∀ n, n ≠ "candidate" → (from_client_validate env xe w).2.dbs n = w.dbs n := by
    intro n hn
    rw [hdbs]
    refine replay_other _ _ n ?_
    simp only [List.all_eq_true]
    intro l hl
    simp [(Label.put_candidate_of_mutation l (h1 l hl)).2 n hn]
  refine ⟨h4, hother "running" (by decide), h3,
    fun l hl => (Label.put_candidate_of_mutation l (h1 l hl)).1, h2, ?_, hother, ?_⟩
  · intro hany
    rcases h5 with h | h
    · rw [h] at hany; exact absurd hany (by decide)
    · have h' := h
      simp at h'
      exact ⟨h'.1.1, h'.1.2, h'.2⟩
  · simp only [from_client_validate, from_client_validate_target]
    cases hdb : env.netconf_db_find xe "source" with
    | none =>
      left
      simp [World.cprintf, World.log]
    | some db =>
      simp only []
      have hd := from_validate_common_dbs env db (transaction_new w).1 none
        (transaction_new w).2
      generalize from_validate_common env db (transaction_new w).1 none
        (transaction_new w).2 = c at hd ⊢
      obtain ⟨r, td1, xr, w1⟩ := c
      simp only [transaction_new, World.log] at hd
      simp only [from_client_validate_ok, from_client_validate_done, plugin_transaction,
        xmldb_get0_clear, xmldb_put, transaction_free, xmldb_get0_free, World.log]
      split_ifs <;>
        first
        | (left
           simp [World.cprintf, clicon_xml2cbuf_dbs, hd]
           done)
        | (right
           simp [World.cprintf, World.setdb, hd, transaction_data_t.set_src,
             transaction_data_t.set_target, plugin_target])

/-- C12 at a concrete run: a validate request with the write-back option set, in which
every collaborator succeeds. -/
theorem C12_from_client_validate_writes_witness :
    (labels (run_events world0
      (from_client_validate env_writeback xml_empty_config world0).2)).any
        Label.is_mutation = true ∧
    env_writeback.clicon_option_bool "CLICON_TRANSACTION_MOD" = true ∧
    (from_client_validate env_writeback xml_empty_config world0).2.dbs "running" =
      world0.dbs "running" :=
  ⟨by decide,
    ((C12_from_client_validate_writes env_writeback xml_empty_config world0).2.2.2.2.2.1
      (by decide)).1,
    (C12_from_client_validate_writes env_writeback xml_empty_config world0).2.1⟩

/-! ## C13: the reply of `from_client_validate` -/

/-- C13, the code at the failing input: with the write-back option set and every
collaborator succeeding, the validation succeeds, the target is put to "candidate", and
`from_client_validate` returns 0 with an empty reply buffer: no acknowledgment, no error.
Without the option the same request returns 0 with `<rpc-reply><ok/></rpc-reply>`. -/
theorem C13_from_client_validate_empty_reply :
    world0.cbret = "" ∧
    (from_client_validate env_writeback xml_empty_config world0).1 = 0 ∧
    (from_client_validate env_writeback xml_empty_config world0).2.cbret = "" ∧
    labels (run_events world0 (from_client_validate env_writeback xml_empty_config world0).2) =
      [.transaction_new, .xmldb_get0 "candidate" false, .xml_yang_validate_all_top .pos,
        .xmldb_get0 "running" false, .xml_diff false, .plugin .TR_BEGIN false,
        .generic_validate .pos, .plugin .TR_VALIDATE false, .plugin .TR_COMPLETE false,
        .xmldb_get0_clear false, .xmldb_get0_clear false, .plugin .TR_ABORT false,
        .xmldb_put "candidate" .pos, .xmldb_get0_free, .xmldb_get0_free,
        .transaction_free] ∧
    (from_client_validate env_ok xml_empty_config world0).1 = 0 ∧
    (from_client_validate env_ok xml_empty_config world0).2.cbret =
      "<rpc-reply><ok/></rpc-reply>" := by
  refine ⟨rfl, ?_, ?_, ?_, ?_, ?_⟩ <;> decide

/-! ## C14: the replies of `from_client_commit` -/

/-- C14: when running is unlocked or locked by the requester, `from_client_commit` runs
`candidate_commit` on "candidate", which returns 1, 0 or -1, and returns 0 in all three
cases.  On 1 it appends exactly `<rpc-reply><ok/></rpc-reply>` to the reply buffer, which
`candidate_commit` left as it was.  On 0 it appends nothing and calls nothing: the reply
is what `candidate_commit` wrote, and that is the structured error: the reply buffer of
the request followed by the text of the error tree of the failed validation (when the
validators hand an error tree over with every 0, the text `clicon_xml2cbuf` makes of that
tree), or, with write-back set, by the error that the failed put appended.  On -1 it appends the generic operation-failed reply of
type application with the recorded error reason, and `candidate_commit` had written
nothing. -/
theorem C14_from_client_commit_replies (env : Env) (ce : client_entry) (w : World)
    (hl : ¬ (w.locks "running" ≠ 0 ∧ ce.ce_id ≠ w.locks "running")) :
    ((candidate_commit env "candidate"
        (w.log (.xmldb_islocked "running" (w.locks "running")))).1 = 1 ∨
      (candidate_commit env "candidate"
        (w.log (.xmldb_islocked "running" (w.locks "running")))).1 = 0 ∨
      (candidate_commit env "candidate"
        (w.log (.xmldb_islocked "running" (w.locks "running")))).1 = -1) ∧
    (from_client_commit env ce w).1 = 0 ∧
    ((candidate_commit env "candidate"
        (w.log (.xmldb_islocked "running" (w.locks "running")))).1 = 1 →
      (from_client_commit env ce w).2 =
        (candidate_commit env "candidate"
          (w.log (.xmldb_islocked "running" (w.locks "running")))).2.cprintf
          "<rpc-reply><ok/></rpc-reply>" ∧
      (from_client_commit env ce w).2.cbret = w.cbret ++ "<rpc-reply><ok/></rpc-reply>") ∧
    ((candidate_commit env "candidate"
        (w.log (.xmldb_islocked "running" (w.locks "running")))).1 = 0 →
      (from_client_commit env ce w).2 =
        (candidate_commit env "candidate"
          (w.log (.xmldb_islocked "running" (w.locks "running")))).2 ∧
      (((commit_validation env "candidate"
            (w.log (.xmldb_islocked "running" (w.locks "running")))).1 = 0 ∧
          (from_client_commit env ce w).2.cbret =
            w.cbret ++ error_text env (commit_validation env "candidate"
              (w.log (.xmldb_islocked "running" (w.locks "running")))).2.2.1 ∧
          (env.reports_errors → ∃ x, (commit_validation env "candidate"
              (w.log (.xmldb_islocked "running" (w.locks "running")))).2.2.1 = some x ∧
            (from_client_commit env ce w).2.cbret = w.cbret ++ env.clicon_xml2cbuf x)) ∨
        (0 < (commit_validation env "candidate"
            (w.log (.xmldb_islocked "running" (w.locks "running")))).1 ∧
          env.clicon_option_bool "CLICON_TRANSACTION_MOD" = true ∧
          ∃ t, env.xmldb_put_rc "candidate" t = 0 ∧
            (from_client_commit env ce w).2.cbret =
              w.cbret ++ env.xmldb_put_reply "candidate" t))) ∧
    ((candidate_commit env "candidate"
        (w.log (.xmldb_islocked "running" (w.locks "running")))).1 = -1 →
      (from_client_commit env ce w).2 =
        ((candidate_commit env "candidate"
          (w.log (.xmldb_islocked "running" (w.locks "running")))).2.cprintf
          (env.netconf_operation_failed "application"
            (candidate_commit env "candidate"
              (w.log (.xmldb_islocked "running" (w.locks "running")))).2.clicon_err_reason)).log
          .netconf_operation_failed ∧
      (from_client_commit env ce w).2.cbret = w.cbret ++
        env.netconf_operation_failed "application"
          (candidate_commit env "candidate"
            (w.log (.xmldb_islocked "running" (w.locks "running")))).2.clicon_err_reason) := by
  have hrange := Run.check (fun p => p.1 == 1 || p.1 == 0 || p.1 == -1)
    (by cases env.clicon_option_bool "CLICON_TRANSACTION_MOD" <;> rfl)
    (candidate_commit_run env "candidate"
      (w.log (.xmldb_islocked "running" (w.locks "running"))))
  have hcb := candidate_commit_cbret env "candidate"
    (w.log (.xmldb_islocked "running" (w.locks "running")))
  have hrep := candidate_commit_failed_reply env "candidate"
    (w.log (.xmldb_islocked "running" (w.locks "running")))
  have hsome := fun h => commit_validation_zero env h "candidate"
    (w.log (.xmldb_islocked "running" (w.locks "running")))
  simp only [Bool.or_eq_true, beq_iff_eq] at hrange
  simp only [from_client_commit, xmldb_islocked]
  rw [if_neg hl]
  generalize commit_validation env "candidate"
    (w.log (.xmldb_islocked "running" (w.locks "running"))) = cv at hrep hsome ⊢
  generalize candidate_commit env "candidate"
    (w.log (.xmldb_islocked "running" (w.locks "running"))) = c at hrange hcb hrep ⊢
  obtain ⟨r, w1⟩ := c
  simp only [World.log] at hcb hrep
  simp only at hrange hcb hrep ⊢
  refine ⟨by tauto, ?_, ?_, ?_, ?_⟩
  · split_ifs <;> rfl
  · intro h1
    subst h1
    simp [World.cprintf, hcb]
  · intro h0
    subst h0
    refine ⟨by simp, ?_⟩
    rcases hrep rfl with ⟨hv, hcb0⟩ | ⟨hpos, hmod, t, ht, hcb0⟩
    · refine Or.inl ⟨hv, by simpa using hcb0, fun hre => ?_⟩
      obtain ⟨x, hx⟩ := hsome hre hv
      refine ⟨x, hx, ?_⟩
      rw [hx] at hcb0
      simpa [error_text] using hcb0
    · exact Or.inr ⟨hpos, hmod, t, ht, by simpa using hcb0⟩
  · intro hm
    subst hm
    simp [World.cprintf, World.log, hcb]

/-- C14 at concrete requests: a commit in which every collaborator succeeds, and a
commit whose target fails the validation with the error `tree_bad_value`. -/
theorem C14_from_client_commit_replies_witness :
    ¬ (world0.locks "running" ≠ 0 ∧ (client_entry.mk 0 5).ce_id ≠ world0.locks "running") ∧
    (from_client_commit env_ok ⟨0, 5⟩ world0).1 = 0 ∧
    (from_client_commit env_ok ⟨0, 5⟩ world0).2.cbret = "<rpc-reply><ok/></rpc-reply>" ∧
    (from_client_commit env_validate_failed ⟨0, 5⟩ world0).2.cbret = "<rpc-error/>" ∧
    ∃ x, (commit_validation env_validate_failed "candidate"
        (world0.log (.xmldb_islocked "running" (world0.locks "running")))).2.2.1 = some x ∧
      (from_client_commit env_validate_failed ⟨0, 5⟩ world0).2.cbret =
        world0.cbret ++ env_validate_failed.clicon_xml2cbuf x :=
  ⟨by decide, (C14_from_client_commit_replies env_ok ⟨0, 5⟩ world0 (by decide)).2.1,
    ((C14_from_client_commit_replies env_ok ⟨0, 5⟩ world0 (by decide)).2.2.1 (by decide)).2,
    by decide,
    ((C14_from_client_commit_replies env_validate_failed ⟨0, 5⟩ world0
        (by decide)).2.2.2.1 (by decide)).2.elim
      (fun h => h.2.2 env_validate_failed_reports_errors)
      (fun h => absurd h.2.1 (by decide))⟩

/-! ## C15: `from_client_discard_changes` -/

/-- C15: `from_client_discard_changes` queries the lock of "candidate".  If it is held by
a session other than the requester, the function returns 0, appends the lock-denied reply
with the holder's session id, and makes no other call: no datastore is copied.
Otherwise it copies running onto candidate: if the copy succeeds, candidate holds what
running holds and the reply is `<rpc-reply><ok/></rpc-reply>`; if it fails, the reply is the
generic operation-failed reply.  In every case running and every datastore other than
candidate are as before, and the locks are as before. -/
theorem C15_from_client_discard_changes (env : Env) (ce : client_entry) (w : World) :
    ((w.locks "candidate" ≠ 0 ∧ ce.ce_id ≠ w.locks "candidate") →
      (from_client_discard_changes env ce w).1 = 0 ∧
      (from_client_discard_changes env ce w).2.cbret = w.cbret ++
        env.netconf_lock_denied (session_id_info (w.locks "candidate"))
          "Operation failed, lock is already held" ∧
      run_events w (from_client_discard_changes env ce w).2 =
        [.xmldb_islocked "candidate" (w.locks "candidate"),
         .netconf_lock_denied (session_id_info (w.locks "candidate"))] ∧
      (from_client_discard_changes env ce w).2.dbs = w.dbs) ∧
    (¬ (w.locks "candidate" ≠ 0 ∧ ce.ce_id ≠ w.locks "candidate") →
      ¬ env.xmldb_copy_rc "running" "candidate" < 0 →
      (from_client_discard_changes env ce w).1 = 0 ∧
      (from_client_discard_changes env ce w).2.cbret =
        w.cbret ++ "<rpc-reply><ok/></rpc-reply>" ∧
      run_events w (from_client_discard_changes env ce w).2 =
        [.xmldb_islocked "candidate" (w.locks "candidate"),
         .xmldb_copy "running" "candidate" (env.xmldb_copy_rc "running" "candidate")] ∧
      (from_client_discard_changes env ce w).2.dbs "candidate" = w.dbs "running") ∧
    (¬ (w.locks "candidate" ≠ 0 ∧ ce.ce_id ≠ w.locks "candidate") →
      env.xmldb_copy_rc "running" "candidate" < 0 →
      (from_client_discard_changes env ce w).1 = 0 ∧
      (from_client_discard_changes env ce w).2.cbret = w.cbret ++
        env.netconf_operation_failed "application" w.clicon_err_reason ∧
      run_events w (from_client_discard_changes env ce w).2 =
        [.xmldb_islocked "candidate" (w.locks "candidate"),
         .xmldb_copy "running" "candidate" (env.xmldb_copy_rc "running" "candidate"),
         .netconf_operation_failed] ∧
      (from_client_discard_changes env ce w).2.dbs = w.dbs) ∧
    (from_client_discard_changes env ce w).2.dbs "running" = w.dbs "running" ∧
    (∀ n, n ≠ "candidate" → (from_client_discard_changes env ce w).2.dbs n = w.dbs n) ∧
    (from_client_discard_changes env ce w).2.locks = w.locks := by
  simp only [from_client_discard_changes, xmldb_islocked, xmldb_copy, session_id_info]
  by_cases hl : w.locks "candidate" ≠ 0 ∧ ce.ce_id ≠ w.locks "candidate"
  · rw [if_pos hl]
    simp [hl, run_events, World.log, World.cprintf]
  · rw [if_neg hl]
    by_cases hc : env.xmldb_copy_rc "running" "candidate" < 0
    · simp [hl, hc, run_events, World.log, World.cprintf]
    · simp only [hc, if_false]
      refine ⟨fun h => absurd h hl, ?_, fun _ h => h.elim, ?_, ?_, ?_⟩
      · intro _ _
        simp [run_events, World.log, World.cprintf, World.setdb]
      · simp [World.log, World.cprintf, World.setdb]
      · intro n hn
        simp [World.log, World.cprintf, World.setdb, hn]
      · simp [World.log, World.cprintf, World.setdb]

/-- C15 at a concrete request: session 5 discards its changes, no datastore is locked. -/
theorem C15_from_client_discard_changes_witness :
    ¬ (world0.locks "candidate" ≠ 0 ∧
      (client_entry.mk 0 5).ce_id ≠ world0.locks "candidate") ∧
    ¬ env_ok.xmldb_copy_rc "running" "candidate" < 0 ∧
    (from_client_discard_changes env_ok ⟨0, 5⟩ world0).2.cbret =
      "<rpc-reply><ok/></rpc-reply>" ∧
    (from_client_discard_changes env_ok ⟨0, 5⟩ world0).2.dbs "candidate" =
      some (tree_leaf "mtu" "1500") :=
  ⟨by decide, by decide,
    ((C15_from_client_discard_changes env_ok ⟨0, 5⟩ world0).2.1 (by decide) (by decide)).2.1,
    ((C15_from_client_discard_changes env_ok ⟨0, 5⟩ world0).2.1 (by decide)
      (by decide)).2.2.2⟩

/-! ## C16: `startup_validate` writes no datastore and hands the tree to the caller -/

/-- C16: in every run of `startup_validate`, for every behaviour of the collaborators, no
put, copy, delete or create of a datastore is requested and the datastores are as before.
When it returns 1 and the caller passed an output slot, the slot holds the transaction's
target tree (upgraded, after plugin end, cleared of defaults and marks), and the one call
of `xmldb_get0_free` of the run is given a `NULL` pointer: the tree was detached from the
transaction before teardown and is not released.  When it returns 1 and no slot was
passed, that call is given the target tree.  When it returns 0 or -1, or no slot was
passed, the slot receives nothing.  The transaction is released without a target tree. -/
theorem C16_startup_validate (env : Env) (db : String) (want_xtr : Bool) (w : World) :
    (∀ l ∈ labels (run_events w (startup_validate env db want_xtr w).2.2),
      l.is_mutation = false) ∧
    (startup_validate env db want_xtr w).2.2.dbs = w.dbs ∧
    ((startup_validate env db want_xtr w).1 = 1 → want_xtr = true →
      (startup_validate env db want_xtr w).2.1 = startup_validate_target env db w ∧
      ∀ x, Event.xmldb_get0_free x ∈ run_events w (startup_validate env db want_xtr w).2.2 →
        x = none) ∧
    ((startup_validate env db want_xtr w).1 = 1 → want_xtr = false →
      ∀ x, Event.xmldb_get0_free x ∈ run_events w (startup_validate env db want_xtr w).2.2 →
        x = startup_validate_target env db w) ∧
    (want_xtr = false → (startup_validate env db want_xtr w).2.1 = none) ∧
    ((startup_validate env db want_xtr w).1 ≠ 1 →
      (startup_validate env db want_xtr w).2.1 = none) ∧
    (labels (run_events w (startup_validate env db want_xtr w).2.2)).count
      .xmldb_get0_free = 1 ∧
    (∀ td, Event.transaction_free td ∈
        run_events w (startup_validate env db want_xtr w).2.2 → td.td_target = none) := by
  have hrun := startup_validate_run env db want_xtr w
  have hmut := Run.check (fun p => p.2.all (fun l => !l.is_mutation)) (by rfl) hrun
  have hwr := Run.check (fun p => p.2.all (fun l => !l.is_write)) (by rfl) hrun
  have hcount := Run.check (fun p => p.2.count .xmldb_get0_free == 1) (by rfl) hrun
  have hdbs := hrun.events.2.1
  obtain ⟨evs, htr, -, -, hmem⟩ := startup_common_run env db (transaction_new w).1
    (transaction_new w).2
  have hnofree : ∀ x, Event.xmldb_get0_free x ∉ evs := by
    intro x hx
    have h1 := Event.label_mem hx
    have h2 := List.all_eq_true.1
      (show (startup_common_paths db).all
        (fun p => !p.2.contains .xmldb_get0_free) = true from by rfl) _ hmem
    simp [Event.label] at h1 h2
    exact h2 h1
  have hnotfree : ∀ td, Event.transaction_free td ∉ evs := by
    intro x hx
    have h1 := Event.label_mem hx
    have h2 := List.all_eq_true.1
      (show (startup_common_paths db).all
        (fun p => !p.2.contains .transaction_free) = true from by rfl) _ hmem
    simp [Event.label] at h1 h2
    exact h2 h1
  refine ⟨by simpa using hmut, ?_, ?_, ?_, ?_, ?_, by simpa using hcount, ?_⟩
  · rw [hdbs]
    exact replay_of_no_write _ _ hwr
  all_goals
    clear hrun hmut hwr hcount hdbs hmem
    simp only [startup_validate, startup_validate_target]
    generalize startup_common env db (transaction_new w).1 (transaction_new w).2 = c at htr
    obtain ⟨r, td1, w1⟩ := c
    simp only [transaction_new, World.log] at htr
    simp only [plugin_transaction, xmldb_get0_clear, startup_validate_done, transaction_free,
      xmldb_get0_free, World.log]
    split_ifs <;>
      simp [run_events, htr, hnofree, hnotfree, transaction_data_t.set_target, plugin_target,
        *]

/-- C16 at a concrete run: a successful validation of the startup datastore with an
output slot. -/
theorem C16_startup_validate_witness :
    (startup_validate env_ok "startup" true world0).1 = 1 ∧
    (startup_validate env_ok "startup" true world0).2.1 =
      startup_validate_target env_ok "startup" world0 ∧
    (startup_validate env_ok "startup" true world0).2.1.isSome = true :=
  ⟨by decide,
    ((C16_startup_validate env_ok "startup" true world0).2.2.1 (by decide) rfl).1,
    by decide⟩

/-! ## C17: the transaction is released exactly once -/

/-- C17: in every run of `startup_validate`, `startup_commit`, `candidate_commit` and
`from_client_validate`, for every behaviour of the collaborators, `transaction_new` is
called at most once and `transaction_free` as often as `transaction_new`; when the
transaction is created, `transaction_new` is the first call of the run and
`transaction_free` the last.  `startup_validate` and `candidate_commit` always create the
transaction; `startup_commit` creates it unless the startup datastore is named running,
and then makes no call at all; `from_client_validate` creates it unless the request has
no source element, and then only builds the missing-element reply. -/
theorem C17_transaction_released_once (env : Env) (db : String) (want_xtr : Bool)
    (xe : cxobj) (w : World) :
    (released_once (labels (run_events w (startup_validate env db want_xtr w).2.2)) = true ∧
      created (labels (run_events w (startup_validate env db want_xtr w).2.2)) = true) ∧
    (released_once (labels (run_events w (startup_commit env db w).2)) = true ∧
      (db ≠ "running" → created (labels (run_events w (startup_commit env db w).2)) = true) ∧
      (db = "running" → run_events w (startup_commit env db w).2 = [])) ∧
    (released_once (labels (run_events w (candidate_commit env db w).2)) = true ∧
      created (labels (run_events w (candidate_commit env db w).2)) = true) ∧
    (released_once (labels (run_events w (from_client_validate env xe w).2)) = true ∧
      (env.netconf_db_find xe "source" ≠ none →
        created (labels (run_events w (from_client_validate env xe w).2)) = true) ∧
      (env.netconf_db_find xe "source" = none →
        labels (run_events w (from_client_validate env xe w).2) =
          [.netconf_missing_element])) := by
  refine ⟨⟨?_, ?_⟩, ⟨?_, ?_, ?_⟩, ⟨?_, ?_⟩, ⟨?_, ?_, ?_⟩⟩
  · exact Run.check (fun p => released_once p.2) (by rfl)
      (startup_validate_run env db want_xtr w)
  · exact Run.check (fun p => created p.2) (by rfl) (startup_validate_run env db want_xtr w)
  · exact Run.check (fun p => released_once p.2) (by rfl) (startup_commit_run env db w)
  · intro hdb
    exact Run.check (fun p => created p.2) (by rfl) (startup_commit_run_created env db w hdb)
  · intro hdb
    simp [startup_commit, hdb, run_events, World.clicon_err]
  · exact Run.check (fun p => released_once p.2)
      (by cases env.clicon_option_bool "CLICON_TRANSACTION_MOD" <;> rfl)
      (candidate_commit_run env db w)
  · exact Run.check (fun p => created p.2)
      (by cases env.clicon_option_bool "CLICON_TRANSACTION_MOD" <;> rfl)
      (candidate_commit_run env db w)
  · exact Run.check (fun p => released_once p.2)
      (by cases env.netconf_db_find xe "source" <;>
          cases env.clicon_option_bool "CLICON_TRANSACTION_MOD" <;> rfl)
      (from_client_validate_run env xe w)
  · intro hsrc
    have hrun := from_client_validate_run env xe w
    obtain ⟨src, hs⟩ := Option.ne_none_iff_exists'.1 hsrc
    rw [hs] at hrun
    exact Run.check (fun p => created p.2)
      (by cases env.clicon_option_bool "CLICON_TRANSACTION_MOD" <;> rfl) hrun
  · intro hsrc
    simp [from_client_validate, hsrc, run_events, World.cprintf, World.log, labels,
      Event.label]

/-- C17 at concrete runs: a startup commit of a datastore not named running, and a
validate request that names its source. -/
theorem C17_transaction_released_once_witness :
    "startup" ≠ "running" ∧
    env_ok.netconf_db_find xml_empty_config "source" ≠ none ∧
    created (labels (run_events world0 (startup_commit env_ok "startup" world0).2)) = true ∧
    created (labels (run_events world0
      (from_client_validate env_ok xml_empty_config world0).2)) = true :=
  ⟨by decide, by decide,
    (C17_transaction_released_once env_ok "startup" false xml_empty_config world0).2.1.2.1
      (by decide),
    (C17_transaction_released_once env_ok "startup" false xml_empty_config world0).2.2.2.2.1
      (by decide)⟩

/-! ## C18: the vectors that the plugin callbacks of `candidate_commit` are given -/

/-- C19, counterexample: the running tree is fetched with a stale ADD flag on its leaf
`mtu` (the engine resets only MARK and CHANGE on a fetched tree), the differ reports the
leaf as deleted, and after the marking of `from_validate_common` the leaf carries both
the ADD flag and the DEL flag at plugin begin, validate and complete. -/
theorem C19_no_add_and_del_counterexample :
    (plugin_events (run_events world_stale_add
      (from_validate_common env_deleted "candidate" (transaction_new world_stale_add).1 none
        world_stale_add).2.2.2)).map
      (fun p => (p.1, (p.2.td_src.bind (xml_find [0])).map
        (fun n => (xml_name n, xml_flag n XML_FLAG_ADD, xml_flag n XML_FLAG_DEL)))) =
      [(.TR_BEGIN, some ("mtu", 2, 4)), (.TR_VALIDATE, some ("mtu", 2, 4)),
        (.TR_COMPLETE, some ("mtu", 2, 4))] := by
  decide

/-- C19, amended: the marking of `from_validate_common` sets DEL only in the source
tree and ADD only in the target tree, and the engine resets only MARK and CHANGE on a
fetched tree.  Hence, if the running tree as fetched carries no ADD flag and the
candidate tree as fetched carries no DEL flag, then in the transaction that plugin begin
is given no node of the source tree or of the target tree carries both ADD and DEL, for
every output of the differ.  The marking of `startup_common` leaves the source as it was
and sets only ADD in the target: if the startup tree after upgrade, binding and sorting
carries no DEL flag, no node of the target carries both. -/
theorem C19_no_add_and_del (env : Env) (candidate db : String) (td : transaction_data_t)
    (xret : Option cxobj) (w : World) :
    (flag_free XML_FLAG_ADD (w.dbs "running") → flag_free XML_FLAG_DEL (w.dbs candidate) →
      ∀ p ∈ plugin_events
          (run_events w (from_validate_common env candidate td xret w).2.2.2),
        p.1 = .TR_BEGIN → no_add_del p.2.td_src ∧ no_add_del p.2.td_target) ∧
    (∀ p ∈ plugin_events (run_events w (startup_common env db td w).2.2),
      p.1 = .TR_BEGIN →
        p.2.td_src = td.td_src ∧
        ∃ t, startup_tree env db w = some t ∧
          (flag_free XML_FLAG_DEL (some t) → no_add_del p.2.td_target)) := by
  constructor
  · intro hrun hcand p hp hb
    obtain ⟨yspec, t0, s0, ht0, hs0, hp2⟩ :=
      (from_validate_common_begin env candidate td xret w).callbacks p hp hb
    rw [hp2]
    exact mark_transaction_no_add_del _ _ _ s0 t0 rfl rfl
      (xml_rel_apply0 (flags_keep XML_FLAG_ADD) (flags_keep_refl _) _ _
        (fun f => flags_keep_reset _ _ f (by decide)) s0)
      (xml_rel_apply0 (flags_keep XML_FLAG_DEL) (flags_keep_refl _) _ _
        (fun f => flags_keep_reset _ _ f (by decide)) t0)
      (hrun s0 hs0) (hcand t0 ht0)
  · intro p hp hb
    obtain ⟨t, ht, hp2⟩ := (startup_common_begin env db td w).callbacks p hp hb
    rw [hp2]
    refine ⟨(startup_add_loop_vecs _ _).1, t, ht, ?_⟩
    intro hfree
    obtain ⟨t1, ht1, hr1⟩ := startup_add_loop_rel (flags_keep XML_FLAG_DEL)
      (flags_keep_refl _) (fun _ _ _ => flags_keep_trans)
      (fun f => flags_keep_set _ _ f (by decide)) (xml_child_each_elmnt t)
      (td.set_target (some t)) t rfl
    rw [ht1]
    intro t' ht'
    cases ht'
    exact no_add_del_of_keep_del t _ hr1 (hfree t rfl)

/-- C19 at a concrete run: candidate and running are fetched without flags. -/
theorem C19_no_add_and_del_witness :
    flag_free XML_FLAG_ADD (world0.dbs "running") ∧
    flag_free XML_FLAG_DEL (world0.dbs "candidate") ∧
    ((plugin_events (run_events world0
      (from_validate_common env_ok "candidate" (transaction_new world0).1 none
        world0).2.2.2)).get ⟨0, by decide⟩).1 = .TR_BEGIN ∧
    no_add_del ((plugin_events (run_events world0
      (from_validate_common env_ok "candidate" (transaction_new world0).1 none
        world0).2.2.2)).get ⟨0, by decide⟩).2.td_src :=
  have h1 : flag_free XML_FLAG_ADD (world0.dbs "running") := fun t ht =>
    Option.some.inj (ht : some (tree_leaf "mtu" "1500") = some t) ▸ by decide
  have h2 : flag_free XML_FLAG_DEL (world0.dbs "candidate") := fun t ht =>
    Option.some.inj (ht : some (tree_leaf "mtu" "9000") = some t) ▸ by decide
  ⟨h1, h2, by decide,
    ((C19_no_add_and_del env_ok "candidate" "startup" (transaction_new world0).1 none
      world0).1 h1 h2 _ (List.get_mem _ _ _) (by decide)).1⟩

/-! ## C20: the order of the four common steps -/

/-- C20, counterexample: for an empty startup tree `startup_common` returns 1 although
none of the four steps was invoked. -/
theorem C20_steps_in_order_counterexample :
    (startup_common env_ok "startup" (transaction_new world_empty_startup).1
      world_empty_startup).1 = 1 ∧
    steps (labels (run_events world_empty_startup
      (startup_common env_ok "startup" (transaction_new world_empty_startup).1
        world_empty_startup).2.2)) = [] := by
  constructor <;> decide

/-- C20, amended: in every run of `from_validate_common` and of `startup_common` the
calls of plugin begin, generic validation, plugin validate and plugin complete are a
prefix of this chain that ends at the first step that did not succeed (so each is
invoked at most once, in this order, and only if every earlier one succeeded).
`from_validate_common` returns 1 only if all four succeeded.  `startup_common` returns 1
only if all four succeeded or none was invoked and the successful read of the startup
datastore was its only call (the exit for an empty startup tree). -/
theorem C20_steps_in_order (env : Env) (db : String) (td : transaction_data_t)
    (xret : Option cxobj) (w : World) :
    steps_in_order
      (labels (run_events w (from_validate_common env db td xret w).2.2.2)) = true ∧
    ((from_validate_common env db td xret w).1 = 1 →
      steps (labels (run_events w (from_validate_common env db td xret w).2.2.2)) =
        all_steps_ok) ∧
    steps_in_order (labels (run_events w (startup_common env db td w).2.2)) = true ∧
    ((startup_common env db td w).1 = 1 →
      steps (labels (run_events w (startup_common env db td w).2.2)) = all_steps_ok ∨
      (steps (labels (run_events w (startup_common env db td w).2.2)) = [] ∧
        (labels (run_events w (startup_common env db td w).2.2)).all Label.is_read_ok = true ∧
        (labels (run_events w (startup_common env db td w).2.2)).length = 1)) := by
  refine ⟨?_, ?_, ?_, ?_⟩
  · exact Run.check (fun p => steps_in_order p.2) (by rfl)
      (from_validate_common_run env db td xret w)
  · intro h1
    have hk := Run.check (fun p => p.1 != 1 || steps p.2 == all_steps_ok) (by rfl)
      (from_validate_common_run env db td xret w)
    simpa [h1] using hk
  · exact Run.check (fun p => steps_in_order p.2) (by rfl) (startup_common_run env db td w)
  · intro h1
    have hk := Run.check (fun p => p.1 != 1 || steps p.2 == all_steps_ok ||
        (steps p.2 == [] && p.2.all Label.is_read_ok && p.2.length == 1)) (by rfl)
      (startup_common_run env db td w)
    simpa [h1, and_assoc] using hk

/-- C20 at a concrete run: a successful `from_validate_common`. -/
theorem C20_steps_in_order_witness :
    (from_validate_common env_ok "candidate" (transaction_new world0).1 none world0).1 = 1 ∧
    steps (labels (run_events world0
      (from_validate_common env_ok "candidate" (transaction_new world0).1 none
        world0).2.2.2)) = all_steps_ok :=
  ⟨by decide,
    (C20_steps_in_order env_ok "candidate" (transaction_new world0).1 none world0).2.1
      (by decide)⟩

/-! ## C21: the order of the rules of `generic_validate` -/

/-- C21, counterexample: the added entry fails the per-node validation and the deleted
entry is a mandatory config leaf below a container, and `generic_validate` returns the
missing-element error of the deleted entry, not the error of the added entry; the added
entry was never validated: the only validator call of the run is the validation of the
whole target.  In the order of the code the results of the rules are 1 (whole target),
0 (deleted entry), 0 (added entry). -/
theorem C21_rule_order_counterexample :
    (env_add_invalid.xml_yang_validate_add td_add_delete_mandatory.td_target [0]) =
      (0, some tree_bad_value) ∧
    (first_mandatory_deleted td_add_delete_mandatory.td_src
      (td_add_delete_mandatory.td_dvec.take td_add_delete_mandatory.td_dlen)).map xml_name
        = some "mtu" ∧
    (generic_validate env_add_invalid td_add_delete_mandatory none).1 = 0 ∧
    (generic_validate env_add_invalid td_add_delete_mandatory none).2.1 =
      some (env_add_invalid.netconf_missing_element_xml "protocol" "mtu"
        "May not remove mandatory variable") ∧
    (generic_validate env_add_invalid td_add_delete_mandatory none).2.1 ≠ some tree_bad_value ∧
    (generic_validate env_add_invalid td_add_delete_mandatory none).2.2 =
      .generic_validate 0 [.xml_yang_validate_all_top 1] ∧
    rule_outcomes env_add_invalid td_add_delete_mandatory = [1, 0, 0] := by
  refine ⟨rfl, by decide, by decide, rfl, ?_, rfl, by decide⟩
  intro h
  exact absurd (congrArg (fun o => o.map xml_child_nr) h) (by decide)

/-- C21, amended: `generic_validate` applies its rules in the order (1) validation of the
whole target, (2) per-node validation of every changed-target entry, (3) the mandatory
check of every deleted entry, (4) per-node validation of every added entry, and its
return value is that of the first rule that is not Ok (1 if all are Ok).  So when the
whole target and the changed entries are Ok and a deleted entry is a mandatory config
node below a non-module parent, the error returned is the missing-element error of the
first such deleted entry, whatever the validation of the added entries would give, and
no added entry is validated: the validator calls of the run are the validation of the
whole target and one per-node validation for each changed entry, and no other. -/
theorem C21_rule_order (env : Env) (td : transaction_data_t) (xret : Option cxobj) :
    (generic_validate env td xret).1 = first_not_ok (rule_outcomes env td) ∧
    (0 < (env.xml_yang_validate_all_top td.td_target).1 →
      (∀ c ∈ td.td_tcvec.take td.td_clen, 0 < (env.xml_yang_validate_add td.td_target c).1) →
      ∀ m, first_mandatory_deleted td.td_src (td.td_dvec.take td.td_dlen) = some m →
        (generic_validate env td xret).1 = 0 ∧
        (generic_validate env td xret).2.1 =
          some (env.netconf_missing_element_xml "protocol" (xml_name m)
            "May not remove mandatory variable") ∧
        (generic_validate env td xret).2.2 =
          .generic_validate 0
            (.xml_yang_validate_all_top (env.xml_yang_validate_all_top td.td_target).1 ::
              (td.td_tcvec.take td.td_clen).map
                (fun c =>
                  Event.xml_yang_validate_add (env.xml_yang_validate_add td.td_target c).1))) :=
  ⟨generic_validate_rules env td xret,
    fun hall hchg m hm =>
      ⟨(generic_validate_deleted_hit env td xret m hall hchg hm).1,
        (generic_validate_deleted_hit env td xret m hall hchg hm).2,
        generic_validate_deleted_calls env td xret m hall hchg hm⟩⟩

/-- C21 at the concrete transaction: an added entry that fails and a deleted mandatory
leaf; the added entry is not validated. -/
theorem C21_rule_order_witness :
    0 < (env_add_invalid.xml_yang_validate_all_top td_add_delete_mandatory.td_target).1 ∧
    (generic_validate env_add_invalid td_add_delete_mandatory none).1 = 0 ∧
    (generic_validate env_add_invalid td_add_delete_mandatory none).2.1 =
      some (env_add_invalid.netconf_missing_element_xml "protocol" "mtu"
        "May not remove mandatory variable") ∧
    (generic_validate env_add_invalid td_add_delete_mandatory none).2.2 =
      .generic_validate 0 [.xml_yang_validate_all_top 1] :=
  ⟨by decide,
    (C21_rule_order env_add_invalid td_add_delete_mandatory none).2 (by decide)
      (by intro c hc; cases hc)
      (.mk "mtu" .CX_ELMNT 0 (some yang_mandatory_leaf) "" []) rfl⟩

/-! ## C22: when the deleted vector makes `generic_validate` fail -/

/-- C22: suppose the validation of the whole target and of every changed-target entry
returned Ok.  If some deleted entry is a node whose bound schema is mandatory and has
config true and whose schema parent is absent or neither a module nor a submodule, then
`generic_validate` returns Failed (0), and the error is the missing-element error of type
protocol that names the first such entry in the order of the vector.  If no deleted entry
is such a node, the deleted vector has no influence: `generic_validate` returns what it
returns for the same transaction without deleted entries.  A node without bound schema,
or whose schema is not mandatory, or has not config true, or whose schema parent is a
module or a submodule, is not such a node. -/
theorem C22_mandatory_removal (env : Env) (td : transaction_data_t) (xret : Option cxobj)
    (hall : 0 < (env.xml_yang_validate_all_top td.td_target).1)
    (hchg : ∀ c ∈ td.td_tcvec.take td.td_clen,
      0 < (env.xml_yang_validate_add td.td_target c).1) :
    ((∃ x ∈ td.td_dvec.take td.td_dlen, ∃ n, td.td_src.bind (xml_find x) = some n ∧
        removal_forbidden n) →
      (generic_validate env td xret).1 = 0) ∧
    (∀ pre x post n, td.td_dvec.take td.td_dlen = pre ++ x :: post →
      td.td_src.bind (xml_find x) = some n → removal_forbidden n →
      (∀ y ∈ pre, ∀ k, td.td_src.bind (xml_find y) = some k → ¬ removal_forbidden k) →
      (generic_validate env td xret).1 = 0 ∧
      (generic_validate env td xret).2.1 =
        some (env.netconf_missing_element_xml "protocol" (xml_name n)
          "May not remove mandatory variable")) ∧
    ((∀ x ∈ td.td_dvec.take td.td_dlen, ∀ n, td.td_src.bind (xml_find x) = some n →
        ¬ removal_forbidden n) →
      (generic_validate env td xret).1 =
        (generic_validate env { td with td_dlen := 0 } xret).1 ∧
      (generic_validate env td xret).2.1 =
        (generic_validate env { td with td_dlen := 0 } xret).2.1) ∧
    (∀ n, (xml_spec n = none ∨
        ∃ ys, xml_spec n = some ys ∧
          (yang_mandatory ys = 0 ∨ yang_config ys ≠ 1 ∨
            ∃ yp, yang_parent_get ys = some yp ∧
              (yang_keyword_get yp = rfc_6020.Y_MODULE ∨
                yang_keyword_get yp = rfc_6020.Y_SUBMODULE))) →
      ¬ removal_forbidden n) := by
  have hfalse : ∀ k, ¬ removal_forbidden k → mandatory_removed (xml_spec k) = false := by
    intro k hk
    cases h : mandatory_removed (xml_spec k) with
    | false => rfl
    | true => exact absurd ((removal_forbidden_iff k).1 h) hk
  refine ⟨?_, ?_, ?_, ?_⟩
  · rintro ⟨x, hx, n, hn, hf⟩
    have hsome : (first_mandatory_deleted td.td_src (td.td_dvec.take td.td_dlen)).isSome := by
      simp only [first_mandatory_deleted, List.find?_isSome, List.mem_filterMap]
      exact ⟨n, ⟨x, hx, hn⟩, (removal_forbidden_iff n).2 hf⟩
    obtain ⟨m, hm⟩ := Option.isSome_iff_exists.1 hsome
    exact (generic_validate_deleted_hit env td xret m hall hchg hm).1
  · intro pre x post n hsplit hn hf hpre
    have hm : first_mandatory_deleted td.td_src (td.td_dvec.take td.td_dlen) = some n := by
      rw [hsplit]
      exact first_mandatory_deleted_first _ n x post hn ((removal_forbidden_iff n).2 hf) pre
        (fun y hy k hk => hfalse k (hpre y hy k hk))
    exact generic_validate_deleted_hit env td xret n hall hchg hm
  · intro hnone
    exact generic_validate_deleted_miss env td xret hall hchg
      (first_mandatory_deleted_none _ _ (fun x hx n hn => hfalse n (hnone x hx n hn)))
  · rintro n h ⟨ys, hys, hm, hc, hp⟩
    rcases h with h | ⟨ys1, hys1, h⟩
    · rw [h] at hys; cases hys
    · rw [hys1] at hys
      cases hys
      rcases h with h | h | ⟨yp, hyp, h⟩
      · exact hm h
      · exact h hc
      · rcases hp with hp | ⟨yp1, hyp1, h1, h2⟩
        · rw [hp] at hyp; cases hyp
        · rw [hyp1] at hyp
          cases hyp
          rcases h with h | h
          · exact h1 h
          · exact h2 h

/-- C22 at a concrete transaction: the mandatory leaf `mtu` is the only deleted entry. -/
theorem C22_mandatory_removal_witness :
    0 < (env_ok.xml_yang_validate_all_top td_delete_mandatory.td_target).1 ∧
    removal_forbidden (.mk "mtu" .CX_ELMNT 0 (some yang_mandatory_leaf) "" []) ∧
    (generic_validate env_ok td_delete_mandatory none).1 = 0 ∧
    (generic_validate env_ok td_delete_mandatory none).2.1 =
      some (env_ok.netconf_missing_element_xml "protocol" "mtu"
        "May not remove mandatory variable") :=
  have hf : removal_forbidden (.mk "mtu" .CX_ELMNT 0 (some yang_mandatory_leaf) "" []) :=
    ⟨yang_mandatory_leaf, rfl, by decide, by decide,
      Or.inr ⟨_, rfl, by decide, by decide⟩⟩
  have h := (C22_mandatory_removal env_ok td_delete_mandatory none (by decide)
    (by intro c hc; cases hc)).2.1 [] [0] []
    (.mk "mtu" .CX_ELMNT 0 (some yang_mandatory_leaf) "" []) rfl rfl hf
    (by intro y hy; cases hy)
  ⟨by decide, hf, h.1, h.2⟩

/-! ## C23: a deleted entry below an ADDED node -/

/-- C23, counterexample: the deleted entry `mtu` carries the ADD flag, and so does the
container above it; its schema is mandatory and config-bearing with a container as
parent; every validation returns Ok; and `generic_validate` returns Failed (0) with the
missing-element error that names `mtu`. -/
theorem C23_deleted_below_added_counterexample :
    ((td_delete_added.td_src.bind (xml_find [0])).map
      (fun n => (xml_name n, xml_flag n XML_FLAG_ADD))) = some ("iface", 2) ∧
    ((td_delete_added.td_src.bind (xml_find [0, 0])).map
      (fun n => (xml_name n, xml_flag n XML_FLAG_ADD))) = some ("mtu", 2) ∧
    [0, 0] ∈ td_delete_added.td_dvec.take td_delete_added.td_dlen ∧
    (generic_validate env_ok td_delete_added none).1 = 0 ∧
    (generic_validate env_ok td_delete_added none).2.1 =
      some (env_ok.netconf_missing_element_xml "protocol" "mtu"
        "May not remove mandatory variable") := by
  refine ⟨by decide, by decide, by decide, by decide, rfl⟩

/-- C23, amended: `generic_validate` does not read the flags of the source tree, so the
mandatory check treats a deleted entry that carries ADD, or lies below a node that
carries ADD, like any other deleted entry: for two source trees that differ only in their
flags `generic_validate` returns the same value, the same error and makes the same
validator calls. -/
theorem C23_deleted_below_added (env : Env) (td : transaction_data_t) (s s1 : cxobj)
    (xret : Option cxobj) (h : xml_rel (fun _ _ => True) s s1) :
    generic_validate env { td with td_src := some s1 } xret =
      generic_validate env { td with td_src := some s } xret :=
  generic_validate_flags env td s s1 h xret

/-- C23 at a concrete pair of source trees: the same deleted mandatory leaf with and
without the ADD flags. -/
theorem C23_deleted_below_added_witness :
    (generic_validate env_ok td_delete_added none).1 =
      (generic_validate env_ok td_delete_plain none).1 ∧
    (generic_validate env_ok td_delete_plain none).1 = 0 :=
  ⟨congrArg (fun r => r.1)
    (C23_deleted_below_added env_ok td_delete_plain
      (.mk "config" .CX_ELMNT 0 none ""
        [.mk "iface" .CX_ELMNT 0 none ""
          [.mk "mtu" .CX_ELMNT 0 (some yang_mandatory_leaf) "" []]])
      (.mk "config" .CX_ELMNT 0 none ""
        [.mk "iface" .CX_ELMNT XML_FLAG_ADD none ""
          [.mk "mtu" .CX_ELMNT XML_FLAG_ADD (some yang_mandatory_leaf) "" []]])
      none (by simp [xml_rel, xml_rel_children, xml_name, xml_type, xml_flags, xml_spec,
        xml_value, xml_children])),
    by decide⟩

/-! ## C24: the flags after the marking of `from_validate_common` -/

/-- C24: in the transaction that `from_validate_common` hands to plugin begin, right after
the marking, every deleted entry and each of its element descendants carries DEL, every
added entry and each of its element descendants carries ADD, every changed entry of the
source and of the target carries CHANGE, and every proper ancestor of an entry of the
four vectors carries CHANGE.  When the differ returned no added and no deleted entry, the
marking has set neither ADD nor DEL: every node of either tree carries ADD and DEL
exactly if the node of the fetched tree did. -/
theorem C24_marking (env : Env) (candidate : String) (td : transaction_data_t)
    (xret : Option cxobj) (w : World) (p : trans_phase × transaction_data_t)
    (hp : p ∈ plugin_events (run_events w (from_validate_common env candidate td xret w).2.2.2))
    (hb : p.1 = .TR_BEGIN) :
    marked p.2 ∧
    ∃ s0 t0, w.dbs "running" = some s0 ∧ w.dbs candidate = some t0 ∧
      (p.2.td_dlen = 0 → p.2.td_alen = 0 →
        ∃ s2 t2, p.2.td_src = some s2 ∧ p.2.td_target = some t2 ∧
          xml_rel (flags_keep (XML_FLAG_ADD ||| XML_FLAG_DEL)) s0 s2 ∧
          xml_rel (flags_keep (XML_FLAG_ADD ||| XML_FLAG_DEL)) t0 t2) := by
  obtain ⟨yspec, t0, s0, ht0, hs0, hp2⟩ :=
    (from_validate_common_begin env candidate td xret w).callbacks p hp hb
  rw [hp2]
  refine ⟨mark_transaction_marked _ _ _ rfl rfl, s0, t0, hs0, ht0, ?_⟩
  intro hd ha
  have key : ∀ td0 : transaction_data_t, (mark_transaction td0).td_dlen = 0 →
      (mark_transaction td0).td_alen = 0 → ∀ s t, td0.td_src = some s → td0.td_target = some t →
      ∃ s2 t2, (mark_transaction td0).td_src = some s2 ∧
        (mark_transaction td0).td_target = some t2 ∧
        xml_rel (flags_keep (XML_FLAG_ADD ||| XML_FLAG_DEL)) s s2 ∧
        xml_rel (flags_keep (XML_FLAG_ADD ||| XML_FLAG_DEL)) t t2 :=
    fun td0 h1 h2 s t hs ht => mark_transaction_keep _ (by decide) td0 s t hs ht h1 h2
  obtain ⟨s2, t2, h1, h2, h3, h4⟩ := key _ hd ha _ _ rfl rfl
  refine ⟨s2, t2, h1, h2, ?_, ?_⟩
  · exact xml_rel_trans (flags_keep (XML_FLAG_ADD ||| XML_FLAG_DEL))
      (fun _ _ _ => flags_keep_trans) _ _ _
      (xml_rel_apply0 (flags_keep (XML_FLAG_ADD ||| XML_FLAG_DEL)) (flags_keep_refl _)
        cxobj_type.CX_ELMNT (flag_reset (XML_FLAG_MARK ||| XML_FLAG_CHANGE))
        (fun f => flags_keep_reset _ _ f (by decide)) s0) h3
  · exact xml_rel_trans (flags_keep (XML_FLAG_ADD ||| XML_FLAG_DEL))
      (fun _ _ _ => flags_keep_trans) _ _ _
      (xml_rel_apply0 (flags_keep (XML_FLAG_ADD ||| XML_FLAG_DEL)) (flags_keep_refl _)
        cxobj_type.CX_ELMNT (flag_reset (XML_FLAG_MARK ||| XML_FLAG_CHANGE))
        (fun f => flags_keep_reset _ _ f (by decide)) t0) h4

/-- C24 at the run of the claim: candidate holds mtu 9000 and running mtu 1500 below the
interface `eth0`, and the differ reports the two `mtu` leaves as the only changed pair.
At plugin begin the transaction carries the marks of C24; the interface and the leaf
carry CHANGE in both trees, and no node of either tree carries ADD or DEL. -/
theorem C24_marking_witness :
    ((plugin_events (run_events world_iface
      (from_validate_common env_changed_mtu "candidate" (transaction_new world_iface).1 none
        world_iface).2.2.2)).get ⟨0, by decide⟩).1 = .TR_BEGIN ∧
    marked ((plugin_events (run_events world_iface
      (from_validate_common env_changed_mtu "candidate" (transaction_new world_iface).1 none
        world_iface).2.2.2)).get ⟨0, by decide⟩).2 ∧
    (((plugin_events (run_events world_iface
      (from_validate_common env_changed_mtu "candidate" (transaction_new world_iface).1 none
        world_iface).2.2.2)).get ⟨0, by decide⟩).2.td_src.map
      (fun s => (xml_nodes s).map
        (fun n => (xml_name n, xml_flag n XML_FLAG_CHANGE, xml_flag n XML_FLAG_ADD,
          xml_flag n XML_FLAG_DEL)))) =
      some [("config", 8, 0, 0), ("iface", 8, 0, 0), ("name", 0, 0, 0), ("body", 0, 0, 0),
        ("mtu", 8, 0, 0), ("body", 0, 0, 0)] ∧
    (((plugin_events (run_events world_iface
      (from_validate_common env_changed_mtu "candidate" (transaction_new world_iface).1 none
        world_iface).2.2.2)).get ⟨0, by decide⟩).2.td_target.map
      (fun s => (xml_nodes s).map
        (fun n => (xml_name n, xml_flag n XML_FLAG_CHANGE, xml_flag n XML_FLAG_ADD,
          xml_flag n XML_FLAG_DEL)))) =
      some [("config", 8, 0, 0), ("iface", 8, 0, 0), ("name", 0, 0, 0), ("body", 0, 0, 0),
        ("mtu", 8, 0, 0), ("body", 0, 0, 0)] :=
  ⟨by decide,
    (C24_marking env_changed_mtu "candidate" (transaction_new world_iface).1 none world_iface
      _ (List.get_mem _ _ _) (by decide)).1,
    by decide, by decide⟩

/-! ## C25: how often plugin abort is invoked -/

/-- C25, the code at the failing input and elsewhere.  When `xmldb_get0_clear` fails
after a successful validation, `from_client_validate` invokes plugin abort before
`goto done` and again at the `done` label, where the return value is negative: two
invocations on the same transaction.  The same happens when the write-back put fails.
In every run of `from_client_validate` plugin abort is invoked at most twice; in every
run of `startup_validate`, `startup_commit` and `candidate_commit` at most once; and in
no run of the four functions both plugin abort and plugin end are invoked. -/
theorem C25_abort_twice (env : Env) (db : String) (want_xtr : Bool) (xe : cxobj)
    (w : World) :
    (from_client_validate env_clear_fails xml_empty_config world0).1 = -1 ∧
    labels (run_events world0
        (from_client_validate env_clear_fails xml_empty_config world0).2) =
      [.transaction_new, .xmldb_get0 "candidate" false, .xml_yang_validate_all_top .pos,
        .xmldb_get0 "running" false, .xml_diff false, .plugin .TR_BEGIN false,
        .generic_validate .pos, .plugin .TR_VALIDATE false, .plugin .TR_COMPLETE false,
        .xmldb_get0_clear true, .plugin .TR_ABORT false, .plugin .TR_ABORT false,
        .xmldb_get0_free, .xmldb_get0_free, .transaction_free] ∧
    abort_count (labels (run_events world0
      (from_client_validate env_writeback_put_fails xml_empty_config world0).2)) = 2 ∧
    abort_count (labels (run_events w (from_client_validate env xe w).2)) ≤ 2 ∧
    abort_count (labels (run_events w (startup_validate env db want_xtr w).2.2)) ≤ 1 ∧
    abort_count (labels (run_events w (startup_commit env db w).2)) ≤ 1 ∧
    abort_count (labels (run_events w (candidate_commit env db w).2)) ≤ 1 ∧
    abort_and_end (labels (run_events w (startup_validate env db want_xtr w).2.2)) = false ∧
    abort_and_end (labels (run_events w (startup_commit env db w).2)) = false ∧
    abort_and_end (labels (run_events w (candidate_commit env db w).2)) = false ∧
    abort_and_end (labels (run_events w (from_client_validate env xe w).2)) = false := by
  refine ⟨by decide, by decide, by decide, ?_, ?_, ?_, ?_, ?_, ?_, ?_, ?_⟩
  · simpa using Run.check (fun p => decide (abort_count p.2 ≤ 2))
      (by cases env.netconf_db_find xe "source" <;>
          cases env.clicon_option_bool "CLICON_TRANSACTION_MOD" <;> rfl)
      (from_client_validate_run env xe w)
  · simpa using Run.check (fun p => decide (abort_count p.2 ≤ 1)) (by rfl)
      (startup_validate_run env db want_xtr w)
  · simpa using Run.check (fun p => decide (abort_count p.2 ≤ 1)) (by rfl)
      (startup_commit_run env db w)
  · simpa using Run.check (fun p => decide (abort_count p.2 ≤ 1))
      (by cases env.clicon_option_bool "CLICON_TRANSACTION_MOD" <;> rfl)
      (candidate_commit_run env db w)
  · simpa using Run.check (fun p => !abort_and_end p.2) (by rfl)
      (startup_validate_run env db want_xtr w)
  · simpa using Run.check (fun p => !abort_and_end p.2) (by rfl)
      (startup_commit_run env db w)
  · simpa using Run.check (fun p => !abort_and_end p.2)
      (by cases env.clicon_option_bool "CLICON_TRANSACTION_MOD" <;> rfl)
      (candidate_commit_run env db w)
  · simpa using Run.check (fun p => !abort_and_end p.2)
      (by cases env.netconf_db_find xe "source" <;>
          cases env.clicon_option_bool "CLICON_TRANSACTION_MOD" <;> rfl)
      (from_client_validate_run env xe w)

/-! ## C26: `xpath_append` on a relative path -/

/-- C26: for a buffer that holds `/s1/.../sn` (no segment holds a `/`), a module prefix
`mp` of the YANG node, and a second path made of `k ≤ n` segments `..` followed by steps
that name nodes, `xpath_append` returns 0 and leaves `/s1/.../s(n-k)` followed by
`/p:id` for each step in order, where `p` is the prefix of the step if it has one and
`mp` otherwise.  A second path that is `NULL` or empty leaves the buffer unchanged.  A
second path that starts with `/` gives what it gives on an empty buffer.  The buffer
`/a:x/a:y` and the path `../b:z` give `/a:x/b:z`. -/
theorem C26_xpath_append (segs : List (List Char)) (k : Nat)
    (steps : List (Option (List Char) × List Char)) (mp : List Char)
    (hsegs : ∀ s ∈ segs, '/' ∉ s) (hk : k ≤ segs.length)
    (hsteps : ∀ r ∈ steps, step_names_node r) :
    xpath_append (some (xpath_of_segments segs)) (some (xpath_relative k steps)) (some mp) =
      (0, some (xpath_of_segments (segs.take (segs.length - k)) ++
        steps.flatMap (fun r => '/' :: (r.1.getD mp ++ ':' :: r.2)))) ∧
    (∀ (cb : List Char) (y : Option (List Char)),
      xpath_append (some cb) none y = (0, some cb) ∧
      xpath_append (some cb) (some []) y = (0, some cb)) ∧
    (∀ (cb x : List Char),
      xpath_append (some cb) (some ('/' :: x)) (some mp) =
        xpath_append (some []) (some ('/' :: x)) (some mp)) ∧
    xpath_append (some "/a:x/a:y".toList) (some "../b:z".toList) (some "a".toList) =
      (0, some "/a:x/b:z".toList) := by
  refine ⟨?_, fun cb y => ⟨rfl, rfl⟩, fun cb x => ?_, by decide⟩
  · by_cases hempty : (xpath_relative k steps).length = 0
    · have hnil : xpath_relative k steps = [] := List.eq_nil_of_length_eq_zero hempty
      have hk0 : k = 0 := by
        cases k with
        | zero => rfl
        | succ k =>
          exfalso
          simp only [xpath_relative, List.replicate_succ, List.cons_append] at hnil
          cases h : List.replicate k ['.', '.'] ++ steps.map step_text with
          | nil => rw [h] at hnil; simp [xpath_join] at hnil
          | cons w rest => rw [h] at hnil; simp [xpath_join] at hnil
      have hs0 : steps = [] := by
        cases steps with
        | nil => rfl
        | cons r rest =>
          exfalso
          subst hk0
          simp only [xpath_relative, List.replicate_zero, List.nil_append, List.map_cons]
            at hnil
          have hne := step_text_ne_nil r (hsteps r (by simp))
          cases h : rest.map step_text with
          | nil => rw [h] at hnil; simp [xpath_join] at hnil; exact hne hnil
          | cons w rest1 =>
            rw [h] at hnil
            simp [xpath_join] at hnil
      subst hk0 hs0
      simp [xpath_append, xpath_relative, xpath_join]
    · have hall : ∀ x ∈ List.replicate k ['.', '.'] ++ steps.map step_text, '/' ∉ x := by
        intro x hx
        rcases List.mem_append.1 hx with h | h
        · rw [List.eq_of_mem_replicate h]; decide
        · obtain ⟨r, hr, rfl⟩ := List.mem_map.1 h
          exact step_text_no_slash r (hsteps r hr)
      have hsep : clicon_strsep ['/'] (xpath_relative k steps) =
          List.replicate k ['.', '.'] ++ steps.map step_text := by
        simp only [xpath_relative] at hempty ⊢
        cases h : List.replicate k ['.', '.'] ++ steps.map step_text with
        | nil => rw [h] at hempty; simp [xpath_join] at hempty
        | cons v vs =>
          rw [h] at hall
          exact clicon_strsep_join v vs hall
      have hhead : ¬ (xpath_relative k steps).head? = some '/' :=
        xpath_relative_head k steps hsteps
      simp only [xpath_append, hempty, if_false, hsep, hhead]
      rw [xpath_append_loop_ups mp _ k segs hsegs hk, xpath_append_loop_steps mp steps hsteps]
  · simp [xpath_append]

/-- C26 at a concrete path: two segments in the buffer, one `..` and two steps, one of
them without prefix. -/
theorem C26_xpath_append_witness :
    xpath_append (some "/a:x/a:y".toList) (some "../b:z/w".toList) (some "a".toList) =
      (0, some "/a:x/b:z/a:w".toList) := by
  have h := (C26_xpath_append ["a:x".toList, "a:y".toList] 1
    [(some "b".toList, "z".toList), (none, "w".toList)] "a".toList
    (by decide) (by decide)
    (by
      intro r hr
      simp only [List.mem_cons, List.mem_singleton, List.not_mem_nil, or_false] at hr
      rcases hr with rfl | rfl <;> simp [step_names_node])).1
  simpa [xpath_of_segments, xpath_relative, xpath_join, step_text] using h

/-! ## C27: the Content-Length header of `http2_exec` -/

/-- C27: let `sd1` be the stream data when `http2_exec` reaches the comment "If body, add
a content-length header" (the request was routed to its handler or answered with 404).
Every response that `http2_exec` submits consists of the status header, the headers that
`sd1` holds, and a Content-Length header exactly when the status code of `sd1` is
greater than 199 and is not 204 and the body length is not 0; the value of the header is
the body length in decimal.  Hence a response with a 1xx or 204 status has no
Content-Length header unless the handler of the request had added one.  A request whose
path is neither the well-known path nor a restconf path nor a data path leaves
`http2_exec` with status code 404, and the response submitted for it has the status
header 404. -/
theorem C27_http2_exec_content_length (env : restconf_env) (sd : restconf_stream_data) :
    (∀ resp, (http2_exec env sd).2.2 = some resp →
      (content_length_due (http2_exec_route env sd).2 →
        resp = response_headers (http2_exec_route env sd).2 ++
          [("Content-Length", Nat.repr (http2_exec_route env sd).2.sd_body_len)]) ∧
      (¬ content_length_due (http2_exec_route env sd).2 →
        resp = response_headers (http2_exec_route env sd).2) ∧
      (((100 ≤ (http2_exec_route env sd).2.sd_code ∧ (http2_exec_route env sd).2.sd_code ≤ 199) ∨
          (http2_exec_route env sd).2.sd_code = 204) →
        (∀ hd ∈ (http2_exec_route env sd).2.sd_outp_hdrs, hd.1 ≠ "Content-Length") →
        ∀ hd ∈ resp, hd.1 ≠ "Content-Length")) ∧
    (∀ path, env.restconf_uripath = some path → path ≠ RESTCONF_WELL_KNOWN →
      env.api_path_is_restconf = false → env.api_path_is_data = false →
      (http2_exec env sd).2.1.sd_code = 404 ∧
      ∀ resp, (http2_exec env sd).2.2 = some resp → resp.head? = some (":status", "404")) := by
  constructor
  · intro resp hresp
    have hr : (http2_exec_reply env (http2_exec_route env sd).2).2.2 = some resp := by
      by_cases h : (http2_exec_route env sd).1 < 0
      · simp [http2_exec, h] at hresp
      · simpa [http2_exec, h] using hresp
    have hh := http2_exec_reply_headers env _ resp hr
    refine ⟨?_, ?_, ?_⟩
    · intro hdue
      have : (http2_exec_route env sd).2.sd_code ≠ 204 ∧
          (http2_exec_route env sd).2.sd_code > 199 ∧
          (http2_exec_route env sd).2.sd_body_len ≠ 0 := ⟨hdue.2.1, hdue.1, hdue.2.2⟩
      rw [if_pos this] at hh
      exact hh
    · intro hdue
      have : ¬ ((http2_exec_route env sd).2.sd_code ≠ 204 ∧
          (http2_exec_route env sd).2.sd_code > 199 ∧
          (http2_exec_route env sd).2.sd_body_len ≠ 0) :=
        fun h => hdue ⟨h.2.1, h.1, h.2.2⟩
      rw [if_neg this, List.append_nil] at hh
      exact hh
    · intro hcode hfree hd hmem
      have : ¬ ((http2_exec_route env sd).2.sd_code ≠ 204 ∧
          (http2_exec_route env sd).2.sd_code > 199 ∧
          (http2_exec_route env sd).2.sd_body_len ≠ 0) := by
        rintro ⟨h1, h2, _⟩
        rcases hcode with ⟨_, h⟩ | h
        · omega
        · exact h1 h
      rw [if_neg this, List.append_nil] at hh
      rw [hh, response_headers, List.mem_cons] at hmem
      rcases hmem with rfl | hmem
      · show ":status" ≠ "Content-Length"
        decide
      · exact hfree hd hmem
  · intro path hpath hwk hr hd
    have hroute : http2_exec_route env sd =
        (0, { sd with sd_path := some path, sd_proto := HTTP_2, sd_code := 404 }) := by
      simp [http2_exec_route, hpath, hwk, hr, hd]
    have hexec : http2_exec env sd = http2_exec_reply env
        { sd with sd_path := some path, sd_proto := HTTP_2, sd_code := 404 } := by
      simp [http2_exec, hroute]
    rw [hexec]
    refine ⟨by rw [http2_exec_reply_code], ?_⟩
    intro resp hresp
    rw [http2_exec_reply_headers env _ resp hresp]
    simp only [response_headers, List.cons_append, List.head?_cons]
    rfl

/-- C27 at two concrete requests: a request for `/restconf/data`, answered 200 with a
body of five bytes, gets `Content-Length: 5`; a request for `/nowhere` is answered 404
without a Content-Length header. -/
theorem C27_http2_exec_content_length_witness :
    (http2_exec restconf_env_data sd_new).2.2 =
      some [(":status", "200"), ("Content-Length", "5")] ∧
    content_length_due (http2_exec_route restconf_env_data sd_new).2 ∧
    (http2_exec restconf_env_ok sd_new).2.1.sd_code = 404 ∧
    (http2_exec restconf_env_ok sd_new).2.2 = some [(":status", "404")] := by
  have h1 : (http2_exec restconf_env_data sd_new).2.2 =
      some [(":status", "200"), ("Content-Length", "5")] := by decide
  have hdue : content_length_due (http2_exec_route restconf_env_data sd_new).2 := by
    refine ⟨?_, ?_, ?_⟩ <;> decide
  have h2 : (http2_exec restconf_env_ok sd_new).2.2 = some [(":status", "404")] := by decide
  have hA := ((C27_http2_exec_content_length restconf_env_data sd_new).1 _ h1).1 hdue
  have hB := ((C27_http2_exec_content_length restconf_env_ok sd_new).2 "/nowhere" rfl
    (by decide) rfl rfl).1
  exact ⟨h1, hdue, hB, h2⟩

/-! ## C28: the client list and the client numbers -/

/-- C28, counterexample: 2^32 clients connect and disconnect one after the other and one
more client connects.  The first client got the number 0; after the 2^32 clients the
list is empty and the counter is 0 again, so the handle is as new, and the last client
gets the number 0 too: the numbers given are not pairwise distinct. -/
theorem C28_client_list_counterexample :
    client_adds (client_churn (2 ^ 32) ++ [.add 100]) = 2 ^ 32 + 1 ∧
    (client_requests (client_churn (2 ^ 32)) backend_handle_init).2.head? = some 0 ∧
    (client_requests (client_churn (2 ^ 32)) backend_handle_init).1 = backend_handle_init ∧
    (backend_client_add (client_requests (client_churn (2 ^ 32)) backend_handle_init).1
      100).1.ce.ce_nr = 0 ∧
    ¬ (client_requests (client_churn (2 ^ 32) ++ [.add 100]) backend_handle_init).2.Nodup := by
  have hp : (2 : Nat) ^ 32 = 4294967295 + 1 := by decide
  have hz := int32_wrap_period
  refine ⟨?_, ?_, ?_, ?_, ?_⟩
  · rw [client_adds_append, client_adds_churn]
    rfl
  · rw [client_requests_churn, hp, List.range_succ_eq_map]
    rfl
  · rw [client_requests_churn, hz]
    rfl
  · rw [client_requests_churn, hz]
    rfl
  · rw [client_requests_append, client_requests_churn, hz]
    simp only [client_requests, backend_client_add]
    intro hnd
    have hmem : (0 : Int) ∈ (List.range (2 ^ 32)).map (fun k => int32_wrap ((k : Nat) : Int)) :=
      List.mem_map.2 ⟨0, List.mem_range.2 (by decide), by decide⟩
    exact (List.nodup_append.1 hnd).2.2 hmem (List.mem_singleton.2 rfl)

/-- C28, amended: on a list whose entries lie at distinct addresses, `backend_client_delete(h, ce)`
leaves the list without the entry at `ce`, the other entries in their order; if no entry
lies at `ce` the handle is unchanged; the counter is the same after a delete.
`backend_client_add` puts the new entry at the head and gives it the value of the counter
as its number, and the counter is incremented as a C `int`.  In every sequence of adds and
deletes on a new handle with at most 2^32 adds, the numbers given to the new clients are
pairwise distinct.  The loop of `backend_handle_exit` is left after at most as many turns
as the list has entries, plus the one that finds it empty, with an empty list. -/
theorem C28_client_list (h : backend_handle) (ce : Nat) (ops : List client_request)
    (hnd : (h.bh_ce_list.map client_cell.ptr).Nodup) (hops : client_adds ops ≤ 2 ^ 32) :
    (backend_client_delete h ce).bh_ce_list =
      h.bh_ce_list.filter (fun c => decide (c.ptr ≠ ce)) ∧
    (ce ∉ h.bh_ce_list.map client_cell.ptr → backend_client_delete h ce = h) ∧
    (backend_client_delete h ce).bh_ce_nr = h.bh_ce_nr ∧
    (∀ ptr, (backend_client_add h ptr).2.bh_ce_list =
        { ptr := ptr, ce := { ce_nr := h.bh_ce_nr, ce_id := 0 } } :: h.bh_ce_list ∧
      (backend_client_add h ptr).1.ce.ce_nr = h.bh_ce_nr ∧
      (backend_client_add h ptr).2.bh_ce_nr = int32_wrap (h.bh_ce_nr + 1)) ∧
    (client_requests ops backend_handle_init).2.Nodup ∧
    (∀ fuel, h.bh_ce_list.length < fuel →
      backend_handle_exit_loop fuel h = some { h with bh_ce_list := [] }) := by
  refine ⟨backend_client_delete_loop_filter ce _ hnd, ?_, rfl, fun ptr => ⟨rfl, rfl, rfl⟩,
    ?_, fun fuel hf => backend_handle_exit_loop_ends _ _ fuel hf⟩
  · intro habs
    simp only [backend_client_delete, backend_client_delete_loop_absent ce _ habs]
  · rw [client_requests_numbers 0 ops backend_handle_init 0 (by decide)]
    refine (List.nodup_range _).map_on ?_
    intro a ha b hb hab
    have ha1 : a < 2 ^ 32 := by
      have := List.mem_range.1 ha
      omega
    have hb1 : b < 2 ^ 32 := by
      have := List.mem_range.1 hb
      omega
    have := int32_wrap_inj 0 (0 + a) (0 + b) (by omega) (by omega) hab
    omega

/-- C28 at a concrete sequence: three clients are added and the second is deleted
before the third is added. -/
theorem C28_client_list_witness :
    (client_requests [.add 100, .add 200, .delete 200, .add 200] backend_handle_init).2 =
      [0, 1, 2] ∧
    ((client_requests [.add 100, .add 200, .delete 200, .add 200]
      backend_handle_init).1.bh_ce_list.map (fun c => (c.ptr, c.ce.ce_nr))) =
      [(200, 2), (100, 0)] ∧
    (client_requests [.add 100, .add 200, .delete 200, .add 200] backend_handle_init).2.Nodup :=
  ⟨by decide, by decide,
    (C28_client_list backend_handle_init 0 [.add 100, .add 200, .delete 200, .add 200]
      (by decide) (by decide)).2.2.2.2.1⟩

/-! ## C29: `restconf_sd_read` delivers the body in order -/

/-- C29: for a body of `n > 0` bytes, an offset `o < n` and a buffer length `L`,
`restconf_sd_read` copies the `min (n - o) L` bytes of the body from offset `o` on,
returns that count, advances the offset by it, and sets the EOF flag exactly when
`n - o ≤ L` (the other flags are kept).  A sequence of calls with positive buffer
lengths that starts at offset 0 and ends with the first call that sets EOF passes the
assertion at every call, delivers a prefix of the body chunk by chunk, sets EOF in no
call but the last, sets EOF if and only if the whole body has been delivered, and
delivers the whole body if the buffer lengths add up to `n` or more. -/
theorem C29_restconf_sd_read (sd : restconf_stream_data) (cb : List Nat) (L fl : Nat)
    (lengths : List Nat) (hb : sd.sd_body = some cb) (ho : sd.sd_body_offset < cb.length)
    (hpos : ∀ l ∈ lengths, 0 < l) :
    restconf_sd_read L fl sd =
      some (min (cb.length - sd.sd_body_offset) L,
        (cb.drop sd.sd_body_offset).take (min (cb.length - sd.sd_body_offset) L),
        (if cb.length - sd.sd_body_offset ≤ L then fl ||| NGHTTP2_DATA_FLAG_EOF else fl),
        { sd with sd_body_offset :=
            sd.sd_body_offset + min (cb.length - sd.sd_body_offset) L }) ∧
    ∃ calls, restconf_sd_read_calls lengths { sd with sd_body_offset := 0 } = some calls ∧
      calls.flatMap Prod.fst <+: cb ∧
      (∀ c ∈ calls.dropLast, c.2 &&& NGHTTP2_DATA_FLAG_EOF = 0) ∧
      ((∃ c ∈ calls, c.2 &&& NGHTTP2_DATA_FLAG_EOF ≠ 0) ↔ calls.flatMap Prod.fst = cb) ∧
      (cb.length ≤ lengths.sum → calls.flatMap Prod.fst = cb) := by
  refine ⟨restconf_sd_read_eq sd cb L fl hb ho, ?_⟩
  have h := restconf_sd_read_calls_spec cb lengths { sd with sd_body_offset := 0 } hb
    (by simp; omega) hpos
  simpa using h

/-- C29 at a concrete body: five bytes read into buffers of two bytes. -/
theorem C29_restconf_sd_read_witness :
    restconf_sd_read 2 0 sd_five_bytes =
      some (2, [104, 101], 0, { sd_five_bytes with sd_body_offset := 2 }) ∧
    restconf_sd_read_calls [2, 2, 2] sd_five_bytes =
      some [([104, 101], 0), ([108, 108], 0), ([111], 1)] := by
  have h := C29_restconf_sd_read sd_five_bytes [104, 101, 108, 108, 111] 2 0 [2, 2, 2] rfl
    (by decide) (by decide)
  exact ⟨h.1, by decide⟩

/-! ## C30: the scan loop of `prompt_fmt` -/

/-- C30, the code at the failing input and elsewhere.  For the format `cli%`, whose last
character is `%`, the test `*s == '%' && *++s` moves the pointer onto the terminator, the
`else` branch prints the terminator, `s++` moves the pointer past it, and the loop test
reads index 5 of a string whose terminator is at index 4; the `%` is not copied.  This
happens for every format whose last character is a `%` that is not the second character
of an escape, and for no other: every other format is scanned up to its terminator, and
the text in the `cbuf` is then `prompt_text`: `%H`, `%U`, `%T` replaced by what
`prompt_fmt_switch` prints, an unknown escape `%c` kept as `%` and `c`, other characters
copied.  The scan never runs out of steps.

What `prompt_fmt_switch` prints for `%T` when `ttyname_r` fails with a positive error
number is the array as it was, not `notty`.  The prompt is not the text of the `cbuf` but
what `vsnprintf` makes of that text as a format, for every format without such a last
`%` and every length `plen` of the prompt array: for `%U@%H> ` it is the same text, for
`100%%` the text is `100%%` and the prompt `100%`, and for `%d> ` the text is `%d> `, a
conversion without argument. -/
theorem C30_prompt_fmt_scan (env : prompt_env) (bytes : List Char) (plen : Nat) :
    prompt_fmt_scan prompt_env_r1 "cli%".toList = .out_of_bounds 5 ("cli".toList ++ [NUL]) ∧
    cli_prompt prompt_env_r1 64 "cli> ".toList "cli%".toList = none ∧
    prompt_fmt_scan env (c_string bytes) =
      (if prompt_dangling (c_string bytes) = true then
        .out_of_bounds ((c_string bytes).length + 1)
          (prompt_text env (c_string bytes).dropLast ++ [NUL])
      else .done (prompt_text env (c_string bytes))) ∧
    prompt_fmt env plen (c_string bytes) =
      (if prompt_dangling (c_string bytes) = true then none
      else vsnprintf_no_args plen (prompt_text env (c_string bytes))) ∧
    prompt_fmt_scan prompt_env_r1 "%U@%H> ".toList = .done "admin@r1> ".toList ∧
    cli_prompt prompt_env_r1 64 "cli> ".toList "%U@%H> ".toList = some "admin@r1> ".toList ∧
    prompt_fmt_scan prompt_env_r1 "%T> ".toList = .done "/dev/pts/0> ".toList ∧
    prompt_fmt_scan prompt_env_no_tty "%T> ".toList = .done "stale> ".toList ∧
    prompt_fmt_scan prompt_env_r1 "100%%".toList = .done "100%%".toList ∧
    cli_prompt prompt_env_r1 64 "cli> ".toList "100%%".toList = some "100%".toList ∧
    prompt_fmt_scan prompt_env_r1 "%d> ".toList = .done "%d> ".toList ∧
    cli_prompt prompt_env_r1 64 "cli> ".toList "%d> ".toList = none := by
  have h := prompt_fmt_loop_spec env (c_string bytes).length (c_string bytes) (le_refl _)
    (c_string_no_nul bytes) [] [] ((c_string bytes).length + 2) (le_refl _)
  have hscan : prompt_fmt_scan env (c_string bytes) =
      (if prompt_dangling (c_string bytes) = true then
        .out_of_bounds ((c_string bytes).length + 1)
          (prompt_text env (c_string bytes).dropLast ++ [NUL])
      else .done (prompt_text env (c_string bytes))) := by
    simpa [prompt_fmt_scan] using h
  refine ⟨by decide, by decide, hscan, ?_, by decide, by decide, by decide, by decide,
    by decide, by decide, by decide, by decide⟩
  simp only [prompt_fmt, hscan]
  split_ifs <;> rfl

end Clixon
